import Mathlib

/-!
# go-freebsd-ifc: kernel control-transport encoding layer

A shallow embedding of the error mapper (`internal/syscall`), the routing-socket
message codec (`internal/routing`), the ioctl-backed domain operations
(`internal/bridgeops`, `internal/ipaddr`, `internal/vlanops`) and their public
wrappers (`route`, `bridge`, `ip`, `vlan`).

Conventions.
* A Go `error` value is `Option GoError`; `none` is `nil`.
* A byte is a `Nat` below 256; a byte slice is a `List Nat`; fixed-width integer
  conversions are written with an explicit `% 2 ^ w`.
* A Go `string` is the list of its bytes (`GoString`); the text of a format
  string is kept as a Lean `String` and its arguments are not rendered.
* The kernel is an explicit environment: every function returns the list of
  transport events it issued together with its outcome (a return value or a
  run-time panic).
* Constants that cgo takes from the FreeBSD headers are fields of `Constants`;
  constants of Go's own `syscall` package for `GOOS=freebsd` are literals.
-/

namespace GoFreebsdIfc

/-! ## Go `syscall` package constants (freebsd) -/

/-- A `syscall.Errno` value. -/
abbrev Errno := Nat

def EPERM : Errno := 1
def ENOENT : Errno := 2
def ESRCH : Errno := 3
def ENXIO : Errno := 6
def EACCES : Errno := 13
def EBUSY : Errno := 16
def EEXIST : Errno := 17
def EINVAL : Errno := 22
def EOPNOTSUPP : Errno := 45
def EADDRINUSE : Errno := 48
def ENETDOWN : Errno := 50

/-- Value of `syscall.AF_INET`. -/
def sysAF_INET : Nat := 2
/-- Value of `syscall.AF_INET6`. -/
def sysAF_INET6 : Nat := 28
/-- Value of `syscall.SizeofSockaddrInet4`. -/
def SizeofSockaddrInet4 : Nat := 16
/-- Value of `syscall.SizeofSockaddrInet6`. -/
def SizeofSockaddrInet6 : Nat := 28

/-! ## cgo constants (`internal/constants`) -/

/-- The constants `internal/constants` and `internal/routing` import from the
FreeBSD headers through cgo, and `sizeof(long)`. -/
structure Constants where
  RTM_ADD : Nat
  RTM_DELETE : Nat
  RTM_VERSION : Nat
  RTF_UP : Nat
  RTF_GATEWAY : Nat
  RTF_HOST : Nat
  RTF_STATIC : Nat
  RTA_DST : Nat
  RTA_GATEWAY : Nat
  RTA_NETMASK : Nat
  AF_INET : Nat
  AF_INET6 : Nat
  IFNAMSIZ : Nat
  SIOCSDRVSPEC : Nat
  BRDGADD : Nat
  BRDGDEL : Nat
  SIOCSETVLAN : Nat
  SIOCAIFADDR : Nat
  SIOCDIFADDR : Nat
  SIOCAIFADDR_IN6 : Nat
  SIOCDIFADDR_IN6 : Nat
  sizeofLong : Nat
  SIOCGIFFLAGS : Nat
  SIOCSIFFLAGS : Nat
  SIOCGIFMTU : Nat
  SIOCSIFMTU : Nat
  SIOCSIFNAME : Nat
  SIOCIFCREATE : Nat
  SIOCIFDESTROY : Nat
  SIOCGDRVSPEC : Nat
  BRDGGIFS : Nat
  SIOCGETVLAN : Nat
  SIOCSLAGG : Nat
  SIOCGLAGG : Nat
  SIOCSLAGGPORT : Nat
  SIOCSLAGGDELPORT : Nat
  sizeofIfbreq : Nat

/-- The values of these constants in the headers of 64-bit FreeBSD. -/
def freebsd64 : Constants where
  RTM_ADD := 1
  RTM_DELETE := 2
  RTM_VERSION := 5
  RTF_UP := 0x1
  RTF_GATEWAY := 0x2
  RTF_HOST := 0x4
  RTF_STATIC := 0x800
  RTA_DST := 0x1
  RTA_GATEWAY := 0x2
  RTA_NETMASK := 0x4
  AF_INET := 2
  AF_INET6 := 28
  IFNAMSIZ := 16
  SIOCSDRVSPEC := 0x8028697b
  BRDGADD := 0
  BRDGDEL := 1
  SIOCSETVLAN := 0x80206939
  SIOCAIFADDR := 0x8044692b
  SIOCDIFADDR := 0x80206919
  SIOCAIFADDR_IN6 := 0x8088691b
  SIOCDIFADDR_IN6 := 0x81206919
  sizeofLong := 8
  SIOCGIFFLAGS := 0xc0206911
  SIOCSIFFLAGS := 0x80206910
  SIOCGIFMTU := 0xc0206933
  SIOCSIFMTU := 0x80206934
  SIOCSIFNAME := 0x80206928
  SIOCIFCREATE := 0xc020697a
  SIOCIFDESTROY := 0x80206979
  SIOCGDRVSPEC := 0xc028697b
  BRDGGIFS := 6
  SIOCGETVLAN := 0xc020693a
  SIOCSLAGG := 0x80506990
  SIOCGLAGG := 0xc050698f
  SIOCSLAGGPORT := 0x8048698d
  SIOCSLAGGDELPORT := 0x8048698e
  sizeofIfbreq := 80

/-! ## Error taxonomy (`internal/syscall/error_types.go`) -/

/-- The nine package-level sentinel errors created with `errors.New`. -/
inductive Sentinel
  | ErrPermission
  | ErrNotFound
  | ErrExists
  | ErrInvalidArgument
  | ErrBusy
  | ErrNotSupported
  | ErrNetworkDown
  | ErrAddressInUse
  | ErrSyscall
  deriving DecidableEq, Repr

/-- A Go `string`: its bytes; `len(s)` is the length of the list. -/
abbrev GoString := List Nat

/-- Non-nil Go error values built by this repository. -/
inductive GoError
  /-- one of the sentinels themselves -/
  | sentinel (s : Sentinel)
  /-- `fmt.Errorf("%w: %v", ErrSyscall, errno)`: unwraps to `ErrSyscall` -/
  | syscallError (code : Errno)
  /-- `fmt.Errorf` with a `%w` verb: unwraps to `inner` -/
  | wrapped (msg : String) (inner : GoError)
  /-- `fmt.Errorf` without `%w`: unwraps to nothing -/
  | plain (msg : String)
  /-- `*ValidationError`: its `Unwrap` returns `ErrInvalidArgument` -/
  | validation (field : String) (value : GoString) (msg : String)
  /-- `*OperationError`: its `Unwrap` returns `Err` -/
  | opError (op iface : String) (err : GoError)
  deriving DecidableEq, Repr

/-- The `Unwrap` method of each error value (`none`: no such method, or nil). -/
def GoError.Unwrap : GoError → Option GoError
  | .sentinel _ => none
  | .syscallError _ => some (.sentinel .ErrSyscall)
  | .wrapped _ inner => some inner
  | .plain _ => none
  | .validation _ _ _ => some (.sentinel .ErrInvalidArgument)
  | .opError _ _ err => some err

/-- The loop of `errors.Is` for a sentinel target: compare, then unwrap. -/
def GoError.is : GoError → Sentinel → Bool
  | .sentinel s, t => s == t
  | .syscallError _, t => Sentinel.ErrSyscall == t
  | .wrapped _ inner, t => inner.is t
  | .plain _, _ => false
  | .validation _ _ _, t => Sentinel.ErrInvalidArgument == t
  | .opError _ _ err, t => err.is t

/-- `errors.Is(err, target)` for a sentinel target; false on a nil error. -/
def errorsIs : Option GoError → Sentinel → Bool
  | none, _ => false
  | some e, t => e.is t

/-- `NewOpError(op, iface, err)`. -/
def NewOpError (op iface : String) : Option GoError → Option GoError
  | none => none
  | some err => some (.opError op iface err)

/-- `NewValidationError(field, value, msg)`. -/
def NewValidationError (field : String) (value : GoString) (msg : String) : Option GoError :=
  some (.validation field value msg)

/-! ## Errno mapper (`internal/syscall/errors.go`) -/

/-- `mapErrno`: the `switch` over the errno. -/
def mapErrno (err : Errno) : Option GoError :=
  if err = EPERM ∨ err = EACCES then some (.sentinel .ErrPermission)
  else if err = ENOENT ∨ err = ENXIO then some (.sentinel .ErrNotFound)
  else if err = EEXIST then some (.sentinel .ErrExists)
  else if err = EINVAL then some (.sentinel .ErrInvalidArgument)
  else if err = EBUSY then some (.sentinel .ErrBusy)
  else if err = EOPNOTSUPP then some (.sentinel .ErrNotSupported)
  else if err = ENETDOWN then some (.sentinel .ErrNetworkDown)
  else if err = EADDRINUSE then some (.sentinel .ErrAddressInUse)
  else some (.syscallError err)

/-- `MapError`: the public version of `mapErrno`. -/
def MapError (err : Errno) : Option GoError := mapErrno err

/-- The errno codes that have a row of their own in the mapper's table. -/
def tableCodes : List Errno :=
  [EPERM, EACCES, ENOENT, ENXIO, EEXIST, EINVAL, EBUSY, EOPNOTSUPP, ENETDOWN, EADDRINUSE]

/-! ## Fragments of Go's `net`, `bytes` and `encoding/binary` packages -/

/-- A `*net.IPNet` that is not nil: the fields `IP` and `Mask` (a nil slice and
an empty slice behave alike in every use below, both are `[]`). -/
structure IPNet where
  IP : List Nat
  Mask : List Nat
  deriving DecidableEq, Repr

/-- The bytes of a slice that may be nil (`none`). -/
def bytesOf : Option (List Nat) → List Nat
  | none => []
  | some b => b

/-- `net.IP.To4`: the 4-byte form, or nil (`none`). -/
def To4 (ip : List Nat) : Option (List Nat) :=
  if ip.length = 4 then some ip
  else if ip.length = 16 ∧ (ip.take 10).all (fun b => b == 0) ∧ ip.getD 10 0 = 0xff
      ∧ ip.getD 11 0 = 0xff then some ((ip.drop 12).take 4)
  else none

/-- `net.IPv4(a, b, c, d)`: the 16-byte IPv4-mapped form. -/
def IPv4 (a b c d : Nat) : List Nat :=
  [0, 0, 0, 0, 0, 0, 0, 0, 0, 0, 0xff, 0xff, a, b, c, d]

/-- `net.IP.To16`: the 16-byte form, or nil (`none`). -/
def To16 (ip : List Nat) : Option (List Nat) :=
  if ip.length = 4 then some (IPv4 (ip.getD 0 0) (ip.getD 1 0) (ip.getD 2 0) (ip.getD 3 0))
  else if ip.length = 16 then some ip
  else none

/-- `net.IPv4zero`. -/
def IPv4zero : List Nat := IPv4 0 0 0 0

/-- `net.IPv6zero`. -/
def IPv6zero : List Nat := List.replicate 16 0

/-- The inner loop of `simpleMaskLength`: `for v&0x80 != 0 { n++; v <<= 1 }` on a
byte `v`; eight rounds always suffice. -/
def onesLoop : Nat → Nat → Nat → Nat × Nat
  | 0, v, n => (v, n)
  | fuel + 1, v, n =>
    if v / 128 % 2 ≠ 0 then onesLoop fuel (v * 2 % 256) (n + 1) else (v, n)

/-- `simpleMaskLength` with its running count `n`; `-1` for a mask that is not
a run of ones followed by zeros. -/
def simpleMaskLengthFrom (n : Nat) : List Nat → Int
  | [] => n
  | v :: rest =>
    if v = 0xff then simpleMaskLengthFrom (n + 8) rest
    else
      let r := onesLoop 8 v n
      if r.1 ≠ 0 then -1
      else if rest.all (fun b => b == 0) then (r.2 : Int) else -1

/-- `net.simpleMaskLength`. -/
def simpleMaskLength (mask : List Nat) : Int := simpleMaskLengthFrom 0 mask

/-- `net.IPMask.Size`: `(ones, bits)`, or `(0, 0)` for a non-canonical mask. -/
def IPMask.Size (m : List Nat) : Int × Int :=
  if simpleMaskLength m = -1 then (0, 0) else (simpleMaskLength m, (m.length : Int) * 8)

/-- `copy(dst[lo:hi], src)` for `lo ≤ hi ≤ len(dst)`: the first
`min (hi - lo) (len src)` bytes of `src` overwrite `dst` from `lo` on. -/
def copyInto (dst : List Nat) (lo hi : Nat) (src : List Nat) : List Nat :=
  dst.take lo ++ src.take (hi - lo) ++ dst.drop (lo + min (hi - lo) src.length)

/-- Little-endian bytes of a 16-bit field (`binary.LittleEndian`, `uint16`). -/
def le16 (n : Nat) : List Nat := [n % 256, n / 256 % 256]

/-- Little-endian bytes of a 32-bit field; the value is truncated to 32 bits. -/
def le32 (n : Nat) : List Nat :=
  [n % 256, n / 256 % 256, n / 65536 % 256, n / 16777216 % 256]

/-- `binary.LittleEndian.PutUint16(b[0:2], v)` on a buffer of at least two bytes. -/
def PutUint16 (b : List Nat) (v : Nat) : List Nat := le16 v ++ b.drop 2

/-- The conversion `uint16(i)` of a Go `int`. -/
def toUint16 (i : Int) : Nat := (i % 65536).toNat

/-! ## Routing-socket codec (`internal/routing/routing.go`) -/

/-- The struct `rtMsghdr` as the source declares it. -/
structure rtMsghdr where
  msglen : Nat
  version : Nat
  msgtype : Nat
  index : Nat
  flags : Nat
  addrs : Nat
  pid : Nat
  seq : Nat
  errno : Nat
  use : Nat
  inits : Nat
  rmx : List Nat
  deriving DecidableEq, Repr

/-- `binary.Write(buf, binary.LittleEndian, hdr)`: the fields in declaration
order, each in its fixed width, with no padding between them. -/
def rtMsghdr.encode (h : rtMsghdr) : List Nat :=
  le16 h.msglen ++ [h.version % 256] ++ [h.msgtype % 256] ++ le16 h.index
    ++ le32 h.flags ++ le32 h.addrs ++ le32 h.pid ++ le32 h.seq ++ le32 h.errno
    ++ le32 h.use ++ le32 h.inits ++ h.rmx.flatMap le32

/-- The loop `for buf.Len()%w != 0 { buf.WriteByte(0) }`, at most `fuel` rounds. -/
def padLoop (w : Nat) : Nat → List Nat → List Nat
  | 0, buf => buf
  | fuel + 1, buf => if buf.length % w ≠ 0 then padLoop w fuel (buf ++ [0]) else buf

/-- The alignment loop that opens `writeSockaddr` and `writeSockaddrMask`; it
leaves after fewer than `w` rounds, so `w` rounds of fuel are enough. -/
def alignWord (w : Nat) (buf : List Nat) : List Nat := padLoop w w buf

/-- `writeSockaddr(buf, ip, family)`; returns the buffer after the call. -/
def writeSockaddr (k : Constants) (buf : List Nat) (ip : List Nat) (family : Nat) : List Nat :=
  let buf := alignWord k.sizeofLong buf
  if family = k.AF_INET then
    let sa := List.replicate SizeofSockaddrInet4 0
    let sa := sa.set 0 (SizeofSockaddrInet4 % 256)
    let sa := sa.set 1 (sysAF_INET % 256)
    let sa := copyInto sa 4 8 (bytesOf (To4 ip))
    buf ++ sa
  else if family = k.AF_INET6 then
    let sa := List.replicate SizeofSockaddrInet6 0
    let sa := sa.set 0 (SizeofSockaddrInet6 % 256)
    let sa := sa.set 1 (sysAF_INET6 % 256)
    let sa := copyInto sa 8 24 (bytesOf (To16 ip))
    buf ++ sa
  else buf

/-- `writeSockaddrMask(buf, mask, family)`; returns the buffer after the call. -/
def writeSockaddrMask (k : Constants) (buf : List Nat) (mask : List Nat) (family : Nat) :
    List Nat :=
  let buf := alignWord k.sizeofLong buf
  if family = k.AF_INET then
    let sa := List.replicate SizeofSockaddrInet4 0
    let sa := sa.set 0 (SizeofSockaddrInet4 % 256)
    let sa := sa.set 1 (sysAF_INET % 256)
    let sa := copyInto sa 4 8 mask
    buf ++ sa
  else if family = k.AF_INET6 then
    let sa := List.replicate SizeofSockaddrInet6 0
    let sa := sa.set 0 (SizeofSockaddrInet6 % 256)
    let sa := sa.set 1 (sysAF_INET6 % 256)
    let sa := copyInto sa 8 24 mask
    buf ++ sa
  else buf

/-- The local `flags` of `ModifyRoute`. -/
def routeFlags (k : Constants) (dst : IPNet) (gw : Option (List Nat)) : Nat :=
  let flags := k.RTF_UP ||| k.RTF_STATIC
  let flags := if gw ≠ none then flags ||| k.RTF_GATEWAY else flags
  let sz := IPMask.Size dst.Mask
  if sz.1 = sz.2 then flags ||| k.RTF_HOST else flags

/-- The local `hdr` of `ModifyRoute`, before its length field is patched. -/
def routeHeader (k : Constants) (add : Bool) (dst : IPNet) (gw : Option (List Nat))
    (ifindex : Int) : rtMsghdr :=
  { msglen := 0,
    version := k.RTM_VERSION % 256,
    msgtype := (if add then k.RTM_ADD else k.RTM_DELETE) % 256,
    index := toUint16 ifindex,
    flags := routeFlags k dst gw,
    addrs := k.RTA_DST ||| k.RTA_GATEWAY ||| k.RTA_NETMASK,
    pid := 0, seq := 1, errno := 0, use := 0, inits := 0,
    rmx := List.replicate 14 0 }

/-- The buffer of `ModifyRoute` after the header and the three address blocks
are written, before the length field is patched. `gw = none` is a nil gateway. -/
def routeBuffer (k : Constants) (add : Bool) (dst : IPNet) (gw : Option (List Nat))
    (ifindex : Int) : List Nat :=
  let isIPv6 := To4 dst.IP = none
  let family := if isIPv6 then k.AF_INET6 else k.AF_INET
  let buf := (routeHeader k add dst gw ifindex).encode
  let buf :=
    if isIPv6 then writeSockaddr k buf dst.IP k.AF_INET6
    else writeSockaddr k buf (bytesOf (To4 dst.IP)) k.AF_INET
  let buf :=
    match gw with
    | some g =>
      if isIPv6 then writeSockaddr k buf g k.AF_INET6
      else writeSockaddr k buf (bytesOf (To4 g)) k.AF_INET
    | none =>
      if isIPv6 then writeSockaddr k buf IPv6zero k.AF_INET6
      else writeSockaddr k buf IPv4zero k.AF_INET
  writeSockaddrMask k buf dst.Mask family

/-- The bytes `ModifyRoute` hands to `syscall.Write`: the buffer with
`uint16(len(msgBytes))` stored little-endian in its first two bytes. -/
def routeMessage (k : Constants) (add : Bool) (dst : IPNet) (gw : Option (List Nat))
    (ifindex : Int) : List Nat :=
  let msgBytes := routeBuffer k add dst gw ifindex
  PutUint16 msgBytes (msgBytes.length % 65536)

/-! ## The kernel as an environment, and the events an operation issues -/

/-- The three kinds of socket the socket factory opens. -/
inductive SockKind
  | inet
  | inet6
  | route
  deriving DecidableEq, Repr

/-- What an ioctl call carries: the request code, the driver command of a
driver-specific request, the bytes copied into the name field of the outer
block, a second name copied into the payload (bridge member, vlan parent) and
a numeric payload (vlan tag). -/
structure IoctlReq where
  request : Nat
  cmd : Option Nat
  name : List Nat
  arg : List Nat
  num : Nat
  deriving DecidableEq, Repr

/-- One interface as `ifc.List` reports it. -/
structure Interface where
  Name : GoString
  Index : Int
  MTU : Int
  Flags : Nat
  deriving DecidableEq, Repr

/-- What the kernel leaves in the request block of a successful "get" ioctl:
`word` is the integer stored in the payload (flags, MTU, `ra_proto`, `vlr_tag`)
as a bit pattern, `name` the C string stored in a name field (the name of a
cloned interface, `vlr_parent`), `len` the length reported in `ifbic_len`,
`ports` the count reported in `ra_ports`, and `records` the C strings in the
successive records of the result buffer (a record the kernel did not fill
holds the empty string). -/
structure Reply where
  word : Nat
  name : List Nat
  len : Nat
  ports : Int
  records : List (List Nat)
  deriving DecidableEq, Repr

/-- The kernel's answers: `none` is success, `some e` is failure with errno `e`.
`write` answers with the byte count and the errno of `syscall.Write`; `ifList`
is the result of `ifc.List`; `reply` is what a successful ioctl leaves in the
request block. -/
structure Kernel where
  socket : SockKind → Option Errno
  ioctl : IoctlReq → Option Errno
  write : List Nat → Int × Option Errno
  ifList : Except GoError (List Interface)
  reply : IoctlReq → Reply

/-- A call that reaches the kernel, with the kernel's answer. -/
inductive Event
  | socket (kind : SockKind) (err : Option Errno)
  | close (kind : SockKind)
  | ioctl (req : IoctlReq) (err : Option Errno)
  | write (msg : List Nat) (n : Int) (err : Option Errno)
  | listInterfaces
  deriving DecidableEq, Repr

/-- How a Go call ends: it returns a value, or it panics at run time. -/
inductive Outcome (α : Type)
  | ret (v : α)
  | panic
  deriving DecidableEq, Repr

/-- A finished call: the events it issued, in order, and how it ended. -/
structure Run (α : Type) where
  events : List Event
  out : Outcome α
  deriving DecidableEq, Repr

/-- `Ioctl(fd, request, data)`: the error it returns for the kernel's answer. -/
def Ioctl (answer : Option Errno) : Option GoError :=
  match answer with
  | some e => mapErrno e
  | none => none

/-- `CopyString(dst, src, maxLen)`: the bytes handed to `memcpy`; taking the
address of `srcBytes[0]` panics when there are none. -/
def CopyString (src : GoString) (maxLen : Nat) : Outcome (List Nat) :=
  let srcBytes := if src.length > maxLen then src.take maxLen else src
  if srcBytes.length = 0 then .panic else .ret srcBytes

/-- `routing.ModifyRoute(add, dst, gw, ifindex)` for a non-nil `dst`. -/
def routing.ModifyRoute (k : Constants) (env : Kernel) (add : Bool) (dst : IPNet)
    (gw : Option (List Nat)) (ifindex : Int) : Run (Option GoError) :=
  match env.socket .route with
  | some e => ⟨[.socket .route (some e)], .ret (mapErrno e)⟩
  | none =>
    let msgBytes := routeMessage k add dst gw ifindex
    let r := env.write msgBytes
    let events := [Event.socket .route none, .write msgBytes r.1 r.2, .close .route]
    match r.2 with
    | some e =>
      if add = true ∧ e = EEXIST then ⟨events, .ret none⟩
      else if add = false ∧ (e = ESRCH ∨ e = ENOENT) then ⟨events, .ret none⟩
      else ⟨events, .ret (MapError e)⟩
    | none =>
      if r.1 ≠ (msgBytes.length : Int) then
        ⟨events, .ret (some (.plain "incomplete write to routing socket: %d of %d bytes"))⟩
      else ⟨events, .ret none⟩

/-- `ifc.Get(name)`: the first listed interface of that name. -/
def ifc.Get (env : Kernel) (name : GoString) : Except GoError Interface :=
  match env.ifList with
  | .error err => .error err
  | .ok ifaces =>
    match ifaces.find? (fun i => i.Name == name) with
    | some i => .ok i
    | none => .error (.sentinel .ErrNotFound)

/-- The tail shared by the four route functions: resolve the interface index,
then call `ModifyRoute`. -/
def route.resolveAndModify (k : Constants) (env : Kernel) (add : Bool) (dst : IPNet)
    (gw : Option (List Nat)) (iface : GoString) : Run (Option GoError) :=
  if iface ≠ [] then
    match ifc.Get env iface with
    | .error err => ⟨[.listInterfaces], .ret (some err)⟩
    | .ok i =>
      let r := routing.ModifyRoute k env add dst gw i.Index
      ⟨.listInterfaces :: r.events, r.out⟩
  else routing.ModifyRoute k env add dst gw 0

/-- The body shared by `route.AddRoute4` and `route.DelRoute4`. -/
def route.modify4 (k : Constants) (env : Kernel) (add : Bool) (dst : Option IPNet)
    (gw : Option (List Nat)) (iface : GoString) : Run (Option GoError) :=
  match dst with
  | none => ⟨[], .panic⟩
  | some d =>
    if To4 d.IP = none then ⟨[], .ret (some (.plain "not an IPv4 network: %v"))⟩
    else if To4 (bytesOf gw) = none then ⟨[], .ret (some (.plain "not an IPv4 address: %v"))⟩
    else route.resolveAndModify k env add d (To4 (bytesOf gw)) iface

/-- The body shared by `route.AddRoute6` and `route.DelRoute6`. -/
def route.modify6 (k : Constants) (env : Kernel) (add : Bool) (dst : Option IPNet)
    (gw : Option (List Nat)) (iface : GoString) : Run (Option GoError) :=
  match dst with
  | none => ⟨[], .panic⟩
  | some d =>
    if To4 d.IP ≠ none then ⟨[], .ret (some (.plain "not an IPv6 network: %v"))⟩
    else if To4 (bytesOf gw) ≠ none then ⟨[], .ret (some (.plain "not an IPv6 address: %v"))⟩
    else route.resolveAndModify k env add d gw iface

/-- `route.AddRoute4(dst, gw, iface)`; `dst = none` is a nil pointer. -/
def route.AddRoute4 (k : Constants) (env : Kernel) (dst : Option IPNet)
    (gw : Option (List Nat)) (iface : GoString) : Run (Option GoError) :=
  route.modify4 k env true dst gw iface

/-- `route.DelRoute4(dst, gw, iface)`. -/
def route.DelRoute4 (k : Constants) (env : Kernel) (dst : Option IPNet)
    (gw : Option (List Nat)) (iface : GoString) : Run (Option GoError) :=
  route.modify4 k env false dst gw iface

/-- `route.AddRoute6(dst, gw, iface)`. -/
def route.AddRoute6 (k : Constants) (env : Kernel) (dst : Option IPNet)
    (gw : Option (List Nat)) (iface : GoString) : Run (Option GoError) :=
  route.modify6 k env true dst gw iface

/-- `route.DelRoute6(dst, gw, iface)`. -/
def route.DelRoute6 (k : Constants) (env : Kernel) (dst : Option IPNet)
    (gw : Option (List Nat)) (iface : GoString) : Run (Option GoError) :=
  route.modify6 k env false dst gw iface

/-! ## Ioctl-backed operations (`internal/bridgeops`, `internal/ipaddr`, `internal/vlanops`) -/

/-- The shared tail of the idempotent operations: issue the ioctl on the open
socket, return nil when the mapped error is the sentinel to swallow
(`err != nil && err == swallow`), the error itself otherwise; the deferred
`Close` runs last. -/
def issueSwallow (env : Kernel) (kind : SockKind) (req : IoctlReq) (swallow : Sentinel) :
    Run (Option GoError) :=
  let answer := env.ioctl req
  let err := Ioctl answer
  ⟨[.socket kind none, .ioctl req answer, .close kind],
    .ret (if err = some (.sentinel swallow) then none else err)⟩

/-- A call that ends after the socket was opened and before any ioctl. -/
def endEarly (kind : SockKind) (out : Outcome (Option GoError)) : Run (Option GoError) :=
  ⟨[.socket kind none, .close kind], out⟩

/-- The body shared by `bridgeops.AddMember` (`cmd = BRDGADD`, swallowing
`ErrExists`) and `bridgeops.DelMember` (`cmd = BRDGDEL`, swallowing `ErrNotFound`). -/
def bridgeops.member (k : Constants) (env : Kernel) (cmd : Nat) (swallow : Sentinel)
    (bridge member : GoString) : Run (Option GoError) :=
  match env.socket .inet with
  | some e => ⟨[.socket .inet (some e)], .ret (mapErrno e)⟩
  | none =>
    if bridge.length ≥ k.IFNAMSIZ ∨ member.length ≥ k.IFNAMSIZ then
      endEarly .inet (.ret (some (.plain "interface name too long")))
    else
      match CopyString member k.IFNAMSIZ with
      | .panic => endEarly .inet .panic
      | .ret ifsname =>
        match CopyString bridge k.IFNAMSIZ with
        | .panic => endEarly .inet .panic
        | .ret ifdname =>
          issueSwallow env .inet
            { request := k.SIOCSDRVSPEC, cmd := some cmd, name := ifdname, arg := ifsname,
              num := 0 } swallow

/-- `bridgeops.AddMember(bridge, member)`. -/
def bridgeops.AddMember (k : Constants) (env : Kernel) (bridge member : GoString) :
    Run (Option GoError) :=
  bridgeops.member k env k.BRDGADD .ErrExists bridge member

/-- `bridgeops.DelMember(bridge, member)`. -/
def bridgeops.DelMember (k : Constants) (env : Kernel) (bridge member : GoString) :
    Run (Option GoError) :=
  bridgeops.member k env k.BRDGDEL .ErrNotFound bridge member

/-- `ipaddr.Add4(iface, ip, mask)`. Taking `&ip[0]` and `&mask[0]` panics on an
empty slice, and the broadcast loop indexes `ip[i]` and `mask[i]` for `i < 4`. -/
def ipaddr.Add4 (k : Constants) (env : Kernel) (iface : GoString) (ip mask : List Nat) :
    Run (Option GoError) :=
  match env.socket .inet with
  | some e => ⟨[.socket .inet (some e)], .ret (mapErrno e)⟩
  | none =>
    if iface.length ≥ k.IFNAMSIZ then
      endEarly .inet (.ret (some (.plain "interface name too long: %s")))
    else
      match CopyString iface k.IFNAMSIZ with
      | .panic => endEarly .inet .panic
      | .ret name =>
        if ip.length = 0 then endEarly .inet .panic
        else if mask.length = 0 then endEarly .inet .panic
        else if ip.length < 4 ∨ mask.length < 4 then endEarly .inet .panic
        else
          issueSwallow env .inet
            { request := k.SIOCAIFADDR, cmd := none, name := name, arg := [], num := 0 }
            .ErrExists

/-- `ipaddr.Del4(iface, ip, mask)`. -/
def ipaddr.Del4 (k : Constants) (env : Kernel) (iface : GoString) (ip _mask : List Nat) :
    Run (Option GoError) :=
  match env.socket .inet with
  | some e => ⟨[.socket .inet (some e)], .ret (mapErrno e)⟩
  | none =>
    if iface.length ≥ k.IFNAMSIZ then
      endEarly .inet (.ret (some (.plain "interface name too long: %s")))
    else
      match CopyString iface k.IFNAMSIZ with
      | .panic => endEarly .inet .panic
      | .ret name =>
        if ip.length = 0 then endEarly .inet .panic
        else
          issueSwallow env .inet
            { request := k.SIOCDIFADDR, cmd := none, name := name, arg := [], num := 0 }
            .ErrNotFound

/-- The byte loop of `net.CIDRMask`: `l` bytes holding `n` leading one bits. -/
def cidrBytes : Nat → Nat → List Nat
  | 0, _ => []
  | l + 1, n =>
    if n ≥ 8 then 0xff :: cidrBytes l (n - 8) else (255 - 255 / 2 ^ n) :: cidrBytes l 0

/-- `net.CIDRMask(ones, bits)`; `none` is the nil mask. -/
def CIDRMask (ones bits : Int) : Option (List Nat) :=
  if bits ≠ 32 ∧ bits ≠ 128 then none
  else if ones < 0 ∨ ones > bits then none
  else some (cidrBytes (bits / 8).toNat ones.toNat)

/-- `ipaddr.Add6(iface, ip, prefixLen)`. Taking `&ip[0]` and `&prefixMask[0]`
panics on an empty slice. -/
def ipaddr.Add6 (k : Constants) (env : Kernel) (iface : GoString) (ip : List Nat)
    (prefixLen : Int) : Run (Option GoError) :=
  match env.socket .inet6 with
  | some e => ⟨[.socket .inet6 (some e)], .ret (mapErrno e)⟩
  | none =>
    if iface.length ≥ k.IFNAMSIZ then
      endEarly .inet6 (.ret (some (.plain "interface name too long: %s")))
    else
      match CopyString iface k.IFNAMSIZ with
      | .panic => endEarly .inet6 .panic
      | .ret name =>
        if ip.length = 0 then endEarly .inet6 .panic
        else if (bytesOf (CIDRMask prefixLen 128)).length = 0 then endEarly .inet6 .panic
        else
          issueSwallow env .inet6
            { request := k.SIOCAIFADDR_IN6, cmd := none, name := name, arg := [], num := 0 }
            .ErrExists

/-- `ipaddr.Del6(iface, ip, prefixLen)`. -/
def ipaddr.Del6 (k : Constants) (env : Kernel) (iface : GoString) (ip : List Nat)
    (_prefixLen : Int) : Run (Option GoError) :=
  match env.socket .inet6 with
  | some e => ⟨[.socket .inet6 (some e)], .ret (mapErrno e)⟩
  | none =>
    if iface.length ≥ k.IFNAMSIZ then
      endEarly .inet6 (.ret (some (.plain "interface name too long: %s")))
    else
      match CopyString iface k.IFNAMSIZ with
      | .panic => endEarly .inet6 .panic
      | .ret name =>
        if ip.length = 0 then endEarly .inet6 .panic
        else
          issueSwallow env .inet6
            { request := k.SIOCDIFADDR_IN6, cmd := none, name := name, arg := [], num := 0 }
            .ErrNotFound

/-- `fmt.Sprintf("%d", n)` for a non-negative `n`. -/
def sprintfD (n : Nat) : GoString := (Nat.toDigits 10 n).map Char.toNat

/-- `vlanops.Configure(name, tag, parent)`; `tag` is a `uint16`. -/
def vlanops.Configure (k : Constants) (env : Kernel) (name : GoString) (tag : Nat)
    (parent : GoString) : Run (Option GoError) :=
  match env.socket .inet with
  | some e => ⟨[.socket .inet (some e)], .ret (mapErrno e)⟩
  | none =>
    if name.length ≥ k.IFNAMSIZ ∨ parent.length ≥ k.IFNAMSIZ then
      endEarly .inet (.ret (NewValidationError "interface name" name "name too long"))
    else if tag = 0 ∨ tag > 4094 then
      endEarly .inet
        (.ret (NewValidationError "tag" (sprintfD tag) "must be between 1 and 4094"))
    else
      match CopyString parent k.IFNAMSIZ with
      | .panic => endEarly .inet .panic
      | .ret vlrParent =>
        match CopyString name k.IFNAMSIZ with
        | .panic => endEarly .inet .panic
        | .ret ifrName =>
          let req : IoctlReq :=
            { request := k.SIOCSETVLAN, cmd := none, name := ifrName, arg := vlrParent,
              num := tag }
          let answer := env.ioctl req
          ⟨[.socket .inet none, .ioctl req answer, .close .inet], .ret (Ioctl answer)⟩

/-! ## Public wrappers (`bridge`, `ip`, `vlan`) -/

/-- The pattern `if err := f(...); err != nil { return fmt.Errorf("...: %w", err) };
return nil` around a finished call. -/
def wrapErr (msg : String) (r : Run (Option GoError)) : Run (Option GoError) :=
  match r.out with
  | .ret (some err) => ⟨r.events, .ret (some (.wrapped msg err))⟩
  | .ret none => ⟨r.events, .ret none⟩
  | .panic => ⟨r.events, .panic⟩

/-- `bridge.AddMember(bridge, member)`. -/
def bridge.AddMember (k : Constants) (env : Kernel) (bridge member : GoString) :
    Run (Option GoError) :=
  wrapErr "add member %s to bridge %s: %w" (bridgeops.AddMember k env bridge member)

/-- `bridge.DelMember(bridge, member)`. -/
def bridge.DelMember (k : Constants) (env : Kernel) (bridge member : GoString) :
    Run (Option GoError) :=
  wrapErr "remove member %s from bridge %s: %w" (bridgeops.DelMember k env bridge member)

/-- `ip.Add4(iface, ip, mask)`. In this and the next three functions the `Value`
text of a validation error (`ip.String()`, `fmt.Sprintf(...)`) is not rendered
and is left empty. -/
def ip.Add4 (k : Constants) (env : Kernel) (iface : GoString) (ip mask : List Nat) :
    Run (Option GoError) :=
  if To4 ip = none then ⟨[], .ret (NewValidationError "ip" [] "not an IPv4 address")⟩
  else if mask.length ≠ 4 then
    ⟨[], .ret (NewValidationError "mask" [] "invalid IPv4 mask length")⟩
  else wrapErr "add IPv4 %s/%s to %s: %w" (ipaddr.Add4 k env iface (bytesOf (To4 ip)) mask)

/-- `ip.Del4(iface, ip, mask)`. -/
def ip.Del4 (k : Constants) (env : Kernel) (iface : GoString) (ip mask : List Nat) :
    Run (Option GoError) :=
  if To4 ip = none then ⟨[], .ret (NewValidationError "ip" [] "not an IPv4 address")⟩
  else if mask.length ≠ 4 then
    ⟨[], .ret (NewValidationError "mask" [] "invalid IPv4 mask length")⟩
  else wrapErr "delete IPv4 %s/%s from %s: %w" (ipaddr.Del4 k env iface (bytesOf (To4 ip)) mask)

/-- `ip.Add6(iface, ip, prefixLen)`. -/
def ip.Add6 (k : Constants) (env : Kernel) (iface : GoString) (ip : List Nat)
    (prefixLen : Int) : Run (Option GoError) :=
  if To4 ip ≠ none then ⟨[], .ret (NewValidationError "ip" [] "not an IPv6 address")⟩
  else if prefixLen < 0 ∨ prefixLen > 128 then
    ⟨[], .ret (NewValidationError "prefixLen" [] "must be between 0 and 128")⟩
  else wrapErr "add IPv6 %s/%d to %s: %w" (ipaddr.Add6 k env iface ip prefixLen)

/-- `ip.Del6(iface, ip, prefixLen)`. -/
def ip.Del6 (k : Constants) (env : Kernel) (iface : GoString) (ip : List Nat)
    (prefixLen : Int) : Run (Option GoError) :=
  if To4 ip ≠ none then ⟨[], .ret (NewValidationError "ip" [] "not an IPv6 address")⟩
  else if prefixLen < 0 ∨ prefixLen > 128 then
    ⟨[], .ret (NewValidationError "prefixLen" [] "must be between 0 and 128")⟩
  else wrapErr "delete IPv6 %s/%d from %s: %w" (ipaddr.Del6 k env iface ip prefixLen)

/-- `vlan.Configure(name, tag, parent)`. -/
def vlan.Configure (k : Constants) (env : Kernel) (name : GoString) (tag : Nat)
    (parent : GoString) : Run (Option GoError) :=
  wrapErr "configure vlan %s (tag=%d, parent=%s): %w" (vlanops.Configure k env name tag parent)

/-! ## Vocabulary of the specification -/

/-- `binary.LittleEndian.Uint16(b)`: the first two bytes read as a number. -/
def leUint16 (b : List Nat) : Nat := b.getD 0 0 + 256 * b.getD 1 0

/-- The first `n` bytes of `src`, filled up with zero bytes to length `n`: what a
zeroed region of `n` bytes holds after `copy(region, src)`. -/
def zeroFill (n : Nat) (src : List Nat) : List Nat :=
  src.take n ++ List.replicate (n - src.length) 0

/-- The 16-byte IPv4 socket address: length 16, family `AF_INET`, two zero bytes
(port), the address, eight zero bytes. -/
def sockaddrIn (addr : List Nat) : List Nat :=
  [16, 2, 0, 0] ++ addr ++ List.replicate 8 0

/-- The 28-byte IPv6 socket address: length 28, family `AF_INET6`, six zero bytes
(port, flow), the address, four zero bytes (scope). -/
def sockaddrIn6 (addr : List Nat) : List Nat :=
  [28, 28, 0, 0, 0, 0, 0, 0] ++ addr ++ List.replicate 4 0

/-- The destination block: the destination address in the block of its family. -/
def specDstBlock (dst : IPNet) : List Nat :=
  match To4 dst.IP with
  | some a => sockaddrIn a
  | none => sockaddrIn6 (zeroFill 16 (bytesOf (To16 dst.IP)))

/-- The gateway block: the gateway (the all-zero address when none is given) in
the block of the destination's family. -/
def specGwBlock (dst : IPNet) (gw : Option (List Nat)) : List Nat :=
  match To4 dst.IP, gw with
  | some _, none => sockaddrIn [0, 0, 0, 0]
  | some _, some g => sockaddrIn (zeroFill 4 (bytesOf (To4 g)))
  | none, none => sockaddrIn6 (List.replicate 16 0)
  | none, some g => sockaddrIn6 (zeroFill 16 (bytesOf (To16 g)))

/-- The netmask block: the destination mask in the block of the destination's
family. -/
def specMaskBlock (dst : IPNet) : List Nat :=
  match To4 dst.IP with
  | some _ => sockaddrIn (zeroFill 4 dst.Mask)
  | none => sockaddrIn6 (zeroFill 16 dst.Mask)

/-- A kernel in which every socket opens, every ioctl is answered `ioctl`, every
write is answered `write`, no interface is listed, and every reply is empty. -/
def kernelWith (ioctl : Option Errno) (write : Int × Option Errno) : Kernel where
  socket := fun _ => none
  ioctl := fun _ => ioctl
  write := fun _ => write
  ifList := .ok []
  reply := fun _ => ⟨0, [], 0, 0, []⟩

/-- A finished call returned nil exactly when it issued an ioctl that succeeded
or failed with one of the `swallowed` codes. -/
def returnsNilIffIoctl (swallowed : List Errno) (r : Run (Option GoError)) : Prop :=
  r.out = .ret none ↔
    ∃ req ans, Event.ioctl req ans ∈ r.events ∧ (ans = none ∨ ∃ e, ans = some e ∧ e ∈ swallowed)

/-- A finished call whose ioctl failed with a code outside `swallowed` returned
the taxonomy error of that code. -/
def returnsMappedError (swallowed : List Errno) (r : Run (Option GoError)) : Prop :=
  ∀ req e, Event.ioctl req (some e) ∈ r.events → e ∉ swallowed → r.out = .ret (mapErrno e)

/-- A finished call opened the socket, issued exactly one ioctl with the given
request code on it, received the kernel's answer, and closed the socket. -/
def issuesOneIoctl (env : Kernel) (kind : SockKind) (request : Nat)
    (r : Run (Option GoError)) : Prop :=
  ∃ req, req.request = request ∧
    r.events = [.socket kind none, .ioctl req (env.ioctl req), .close kind]

/-! ## The shape shared by the remaining transport operations -/

/-- The opening of every transport function: `s, err := Create…Socket()`, return
`fail(err)` when it fails, `defer s.Close()`, then the body; the events of the
body lie between the open and the deferred close. -/
def withSocket {α : Type} (env : Kernel) (kind : SockKind) (fail : Option GoError → α)
    (body : Run α) : Run α :=
  match env.socket kind with
  | some e => ⟨[.socket kind (some e)], .ret (fail (mapErrno e))⟩
  | none => ⟨.socket kind none :: (body.events ++ [.close kind]), body.out⟩

/-- `if len(name) >= IFNAMSIZ { return tooLong }` followed by `CopyString` of the
name; `cont` receives the bytes copied into the request block. -/
def checkedName {α : Type} (k : Constants) (name : GoString) (tooLong : α)
    (cont : List Nat → Run α) : Run α :=
  if name.length ≥ k.IFNAMSIZ then ⟨[], .ret tooLong⟩
  else
    match CopyString name k.IFNAMSIZ with
    | .panic => ⟨[], .panic⟩
    | .ret b => cont b

/-- `if len(first) >= IFNAMSIZ || len(second) >= IFNAMSIZ { return tooLong }`
followed by `CopyString` of `first`, then of `second`. -/
def checkedNames {α : Type} (k : Constants) (first second : GoString) (tooLong : α)
    (cont : List Nat → List Nat → Run α) : Run α :=
  if first.length ≥ k.IFNAMSIZ ∨ second.length ≥ k.IFNAMSIZ then ⟨[], .ret tooLong⟩
  else
    match CopyString first k.IFNAMSIZ with
    | .panic => ⟨[], .panic⟩
    | .ret b1 =>
      match CopyString second k.IFNAMSIZ with
      | .panic => ⟨[], .panic⟩
      | .ret b2 => cont b1 b2

/-- One ioctl, and how the function ends for the kernel's answer. -/
def issue {α : Type} (env : Kernel) (req : IoctlReq) (finish : Option Errno → Outcome α) :
    Run α :=
  ⟨[.ioctl req (env.ioctl req)], finish (env.ioctl req)⟩

/-- The conversion `C.int(x)` / `C.u_int(x)` of a Go `int`: its low 32 bits. -/
def toWord32 (x : Int) : Nat := (x % 4294967296).toNat

/-- The conversion `int(c)` of a C `int` given by its bit pattern. -/
def toInt32 (w : Nat) : Int :=
  if w % 4294967296 < 2147483648 then ((w % 4294967296 : Nat) : Int)
  else ((w % 4294967296 : Nat) : Int) - 4294967296

/-! ## Interface flags, MTU and rename (`internal/ifops/ioctl.go`) -/

/-- The flags word `SetFlags` writes back: `oldFlags | C.int(flag)` when `set`,
`oldFlags & ^C.int(flag)` otherwise, on 32-bit patterns. -/
def newFlagsWord (oldFlags flag : Nat) (set : Bool) : Nat :=
  if set then oldFlags % 4294967296 ||| flag % 4294967296
  else oldFlags % 4294967296 &&& (4294967295 - flag % 4294967296)

/-- `ifops.SetFlags(name, flag, set)`. -/
def ifops.SetFlags (k : Constants) (env : Kernel) (name : GoString) (flag : Nat) (set : Bool) :
    Run (Option GoError) :=
  withSocket env .inet id
    (checkedName k name (some (.plain "interface name too long: %s")) fun ifrName =>
      match env.ioctl ⟨k.SIOCGIFFLAGS, none, ifrName, [], 0⟩ with
      | some e => ⟨[.ioctl ⟨k.SIOCGIFFLAGS, none, ifrName, [], 0⟩ (some e)], .ret (mapErrno e)⟩
      | none =>
        let oldFlags := (env.reply ⟨k.SIOCGIFFLAGS, none, ifrName, [], 0⟩).word
        let put : IoctlReq := ⟨k.SIOCSIFFLAGS, none, ifrName, [], newFlagsWord oldFlags flag set⟩
        ⟨[.ioctl ⟨k.SIOCGIFFLAGS, none, ifrName, [], 0⟩ none, .ioctl put (env.ioctl put)],
          .ret (Ioctl (env.ioctl put))⟩)

/-- `ifops.GetMTU(name)`. -/
def ifops.GetMTU (k : Constants) (env : Kernel) (name : GoString) :
    Run (Int × Option GoError) :=
  withSocket env .inet (fun err => (0, err))
    (checkedName k name (0, some (.plain "interface name too long: %s")) fun ifrName =>
      issue env ⟨k.SIOCGIFMTU, none, ifrName, [], 0⟩ fun ans =>
        match ans with
        | some e => .ret (0, mapErrno e)
        | none => .ret (toInt32 (env.reply ⟨k.SIOCGIFMTU, none, ifrName, [], 0⟩).word, none))

/-- `ifops.SetMTU(name, mtu)`. -/
def ifops.SetMTU (k : Constants) (env : Kernel) (name : GoString) (mtu : Int) :
    Run (Option GoError) :=
  withSocket env .inet id
    (checkedName k name (some (.plain "interface name too long: %s")) fun ifrName =>
      issue env ⟨k.SIOCSIFMTU, none, ifrName, [], toWord32 mtu⟩ fun ans => .ret (Ioctl ans))

/-- `ifops.Rename(oldName, newName)`. -/
def ifops.Rename (k : Constants) (env : Kernel) (oldName newName : GoString) :
    Run (Option GoError) :=
  withSocket env .inet id
    (checkedNames k oldName newName (some (.plain "interface name too long"))
      fun ifrName ifru =>
        issue env ⟨k.SIOCSIFNAME, none, ifrName, ifru, 0⟩ fun ans => .ret (Ioctl ans))

/-! ## Clone create and destroy (`internal/cloneops/clone.go`) -/

/-- `cloneops.Create(prefix)`: the name the kernel stores in `ifr_name`. -/
def cloneops.Create (k : Constants) (env : Kernel) (pfx : GoString) :
    Run (GoString × Option GoError) :=
  withSocket env .inet (fun err => ([], err))
    (checkedName k pfx ([], some (.plain "interface name too long: %s")) fun ifrName =>
      issue env ⟨k.SIOCIFCREATE, none, ifrName, [], 0⟩ fun ans =>
        match ans with
        | some e => .ret ([], mapErrno e)
        | none => .ret ((env.reply ⟨k.SIOCIFCREATE, none, ifrName, [], 0⟩).name, none))

/-- `cloneops.Destroy(name)`. -/
def cloneops.Destroy (k : Constants) (env : Kernel) (name : GoString) : Run (Option GoError) :=
  withSocket env .inet id
    (checkedName k name (some (.plain "interface name too long: %s")) fun ifrName =>
      issue env ⟨k.SIOCIFDESTROY, none, ifrName, [], 0⟩ fun ans => .ret (Ioctl ans))

/-! ## LAGG operations (`internal/laggops/lagg.go`) -/

/-- The struct `LAGGConfig`. -/
structure LAGGConfig where
  Proto : Int
  Ports : List GoString
  deriving DecidableEq, Repr

/-- `laggops.SetProto(name, proto)`. -/
def laggops.SetProto (k : Constants) (env : Kernel) (name : GoString) (proto : Int) :
    Run (Option GoError) :=
  withSocket env .inet id
    (checkedName k name (NewValidationError "name" name "interface name too long")
      fun ifrName =>
        issue env ⟨k.SIOCSLAGG, none, ifrName, [], toWord32 proto⟩ fun ans => .ret (Ioctl ans))

/-- `laggops.AddPort(lagg, port)`. -/
def laggops.AddPort (k : Constants) (env : Kernel) (lagg port : GoString) :
    Run (Option GoError) :=
  withSocket env .inet id
    (checkedNames k lagg port (NewValidationError "interface name" lagg "name too long")
      fun ifrName portname =>
        issue env ⟨k.SIOCSLAGGPORT, none, ifrName, portname, 0⟩ fun ans => .ret (Ioctl ans))

/-- `laggops.DelPort(lagg, port)`. -/
def laggops.DelPort (k : Constants) (env : Kernel) (lagg port : GoString) :
    Run (Option GoError) :=
  withSocket env .inet id
    (checkedNames k lagg port (NewValidationError "interface name" lagg "name too long")
      fun ifrName portname =>
        issue env ⟨k.SIOCSLAGGDELPORT, none, ifrName, portname, 0⟩ fun ans => .ret (Ioctl ans))

/-- The port loop of `laggops.Get`: `for i := 0; i < numPorts && i < maxPorts; i++`
with `maxPorts = 32`, appending the name of record `i` when it is not empty. -/
def laggops.portNames (numPorts : Int) (records : List GoString) : List GoString :=
  ((List.range (min numPorts.toNat 32)).map fun i => records.getD i []).filter
    fun name => name ≠ []

/-- `laggops.Get(name)`. `make([]string, 0, numPorts)` panics for a negative
`numPorts` (`ra_ports` is a C `int`). -/
def laggops.Get (k : Constants) (env : Kernel) (name : GoString) :
    Run (LAGGConfig × Option GoError) :=
  withSocket env .inet (fun err => (⟨0, []⟩, err))
    (checkedName k name (⟨0, []⟩, NewValidationError "name" name "interface name too long")
      fun ifrName =>
        issue env ⟨k.SIOCGLAGG, none, ifrName, [], 0⟩ fun ans =>
          match ans with
          | some e => .ret (⟨0, []⟩, mapErrno e)
          | none =>
            let r := env.reply ⟨k.SIOCGLAGG, none, ifrName, [], 0⟩
            if r.ports < 0 then .panic
            else .ret (⟨(r.word % 4294967296 : Nat), laggops.portNames r.ports r.records⟩, none))

/-! ## VLAN and bridge "get" operations -/

/-- The struct `VLANConfig`. -/
structure VLANConfig where
  Tag : Nat
  Parent : GoString
  deriving DecidableEq, Repr

/-- `vlanops.Get(name)`. -/
def vlanops.Get (k : Constants) (env : Kernel) (name : GoString) :
    Run (VLANConfig × Option GoError) :=
  withSocket env .inet (fun err => (⟨0, []⟩, err))
    (checkedName k name (⟨0, []⟩, NewValidationError "name" name "interface name too long")
      fun ifrName =>
        issue env ⟨k.SIOCGETVLAN, none, ifrName, [], 0⟩ fun ans =>
          match ans with
          | some e => .ret (⟨0, []⟩, mapErrno e)
          | none =>
            let r := env.reply ⟨k.SIOCGETVLAN, none, ifrName, [], 0⟩
            .ret (⟨r.word % 65536, r.name⟩, none))

/-- The decoding loop of `GetMembers`: `for i := 0; i < numMembers; i++` reads the
name of record `i`; taking `&buf[i*reqSize]` panics once `i` reaches the 32
records the buffer holds. -/
def bridgeops.decodeMembers (numMembers : Nat) (records : List GoString) :
    Outcome (List GoString × Option GoError) :=
  if numMembers > 32 then .panic
  else .ret ((List.range numMembers).map (fun i => records.getD i []), none)

/-- `bridgeops.GetMembers(bridge)`. The buffer holds 32 records of
`sizeof(struct ifbreq)` bytes; taking `&buf[0]` panics on an empty buffer. -/
def bridgeops.GetMembers (k : Constants) (env : Kernel) (bridge : GoString) :
    Run (List GoString × Option GoError) :=
  withSocket env .inet (fun err => ([], err))
    (if 32 * k.sizeofIfbreq = 0 then ⟨[], .panic⟩
     else
      checkedName k bridge ([], some (.plain "interface name too long")) fun ifdName =>
        issue env ⟨k.SIOCGDRVSPEC, some k.BRDGGIFS, ifdName, [], 0⟩ fun ans =>
          match ans with
          | some e => .ret ([], mapErrno e)
          | none =>
            let r := env.reply ⟨k.SIOCGDRVSPEC, some k.BRDGGIFS, ifdName, [], 0⟩
            bridgeops.decodeMembers (r.len % 4294967296 / k.sizeofIfbreq) r.records)

/-! ## Public wrappers (`lagg`, `tap`, `tun`, `epair`) and interface flags (`if`) -/

/-- The bytes of an ASCII string literal. -/
def str (s : String) : GoString := s.toList.map Char.toNat

/-- `fmt.Sprintf("%d", i)` for a Go `int`: a minus sign for a negative value, then
the decimal digits. -/
def fmtInt (i : Int) : GoString :=
  if i < 0 then 45 :: sprintfD (-i).toNat else sprintfD i.toNat

def lagg.ProtoFailover : Int := 1
def lagg.ProtoLoadBalance : Int := 2
def lagg.ProtoLACP : Int := 3
def lagg.ProtoRoundRobin : Int := 4
def lagg.ProtoBroadcast : Int := 5

/-- `Proto.String`: the `switch` over the protocol value. -/
def lagg.Proto.String (p : Int) : GoString :=
  if p = lagg.ProtoFailover then str "failover"
  else if p = lagg.ProtoLoadBalance then str "loadbalance"
  else if p = lagg.ProtoLACP then str "lacp"
  else if p = lagg.ProtoRoundRobin then str "roundrobin"
  else if p = lagg.ProtoBroadcast then str "broadcast"
  else str "unknown(" ++ fmtInt p ++ str ")"

/-- `lagg.SetProto(name, proto)`. -/
def lagg.SetProto (k : Constants) (env : Kernel) (name : GoString) (proto : Int) :
    Run (Option GoError) :=
  wrapErr "set lagg %s protocol to %s: %w" (laggops.SetProto k env name proto)

/-- `tap.Destroy(name)`. -/
def tap.Destroy (k : Constants) (env : Kernel) (name : GoString) : Run (Option GoError) :=
  wrapErr "destroy tap %s: %w" (cloneops.Destroy k env name)

/-- `tun.Destroy(name)`. -/
def tun.Destroy (k : Constants) (env : Kernel) (name : GoString) : Run (Option GoError) :=
  wrapErr "destroy tun %s: %w" (cloneops.Destroy k env name)

/-- `strings.TrimSuffix(s, suffix)`. -/
def TrimSuffix (s suffix : GoString) : GoString :=
  if suffix.isSuffixOf s then s.take (s.length - suffix.length) else s

/-- The struct `epair.Pair`. -/
structure Pair where
  A : GoString
  B : GoString
  deriving DecidableEq, Repr

/-- `epair.Create()`. -/
def epair.Create (k : Constants) (env : Kernel) : Run (Pair × Option GoError) :=
  match (cloneops.Create k env (str "epair")).out with
  | .panic => ⟨(cloneops.Create k env (str "epair")).events, .panic⟩
  | .ret (_, some err) => ⟨(cloneops.Create k env (str "epair")).events, .ret (⟨[], []⟩, some err)⟩
  | .ret (nameA, none) =>
    ⟨(cloneops.Create k env (str "epair")).events,
      .ret (⟨nameA, TrimSuffix nameA (str "a") ++ str "b"⟩, none)⟩

def FlagUp : Nat := 0x1
def FlagLoopback : Nat := 0x8
def FlagRunning : Nat := 0x40

/-- `InterfaceFlags.IsUp`. -/
def IsUp (f : Nat) : Bool := f &&& FlagUp != 0

/-- `InterfaceFlags.IsRunning`. -/
def IsRunning (f : Nat) : Bool := f &&& FlagRunning != 0

/-- `InterfaceFlags.IsLoopback`. -/
def IsLoopback (f : Nat) : Bool := f &&& FlagLoopback != 0

/-- `IsValidation(err)`: `errors.As` finds a `*ValidationError` in the chain. -/
def GoError.asValidation : GoError → Bool
  | .sentinel _ => false
  | .syscallError _ => false
  | .wrapped _ inner => inner.asValidation
  | .plain _ => false
  | .validation _ _ _ => true
  | .opError _ _ err => err.asValidation

/-! ## The transport operations as one family -/

/-- A call of one of the socket-opening transport functions, with its arguments. -/
inductive TransportCall
  | SetFlags (name : GoString) (flag : Nat) (set : Bool)
  | GetMTU (name : GoString)
  | SetMTU (name : GoString) (mtu : Int)
  | Rename (oldName newName : GoString)
  | Create (pfx : GoString)
  | Destroy (name : GoString)
  | AddMember (bridge member : GoString)
  | DelMember (bridge member : GoString)
  | GetMembers (bridge : GoString)
  | Configure (name : GoString) (tag : Nat) (parent : GoString)
  | vlanGet (name : GoString)
  | SetProto (name : GoString) (proto : Int)
  | AddPort (lagg port : GoString)
  | DelPort (lagg port : GoString)
  | laggGet (name : GoString)
  | Add4 (iface : GoString) (addr mask : List Nat)
  | Del4 (iface : GoString) (addr mask : List Nat)
  | Add6 (iface : GoString) (addr : List Nat) (prefixLen : Int)
  | Del6 (iface : GoString) (addr : List Nat) (prefixLen : Int)
  | ModifyRoute (add : Bool) (dst : IPNet) (gw : Option (List Nat)) (ifindex : Int)

/-- A finished call reduced to its events and its `error` result. -/
def errorOf {α : Type} (f : α → Option GoError) (r : Run α) : Run (Option GoError) :=
  match r.out with
  | .ret v => ⟨r.events, .ret (f v)⟩
  | .panic => ⟨r.events, .panic⟩

/-- The function a call names, run against the kernel. -/
def TransportCall.run (k : Constants) (env : Kernel) : TransportCall → Run (Option GoError)
  | .SetFlags name flag set => ifops.SetFlags k env name flag set
  | .GetMTU name => errorOf Prod.snd (ifops.GetMTU k env name)
  | .SetMTU name mtu => ifops.SetMTU k env name mtu
  | .Rename oldName newName => ifops.Rename k env oldName newName
  | .Create pfx => errorOf Prod.snd (cloneops.Create k env pfx)
  | .Destroy name => cloneops.Destroy k env name
  | .AddMember bridge member => bridgeops.AddMember k env bridge member
  | .DelMember bridge member => bridgeops.DelMember k env bridge member
  | .GetMembers bridge => errorOf Prod.snd (bridgeops.GetMembers k env bridge)
  | .Configure name tag parent => vlanops.Configure k env name tag parent
  | .vlanGet name => errorOf Prod.snd (vlanops.Get k env name)
  | .SetProto name proto => laggops.SetProto k env name proto
  | .AddPort lagg port => laggops.AddPort k env lagg port
  | .DelPort lagg port => laggops.DelPort k env lagg port
  | .laggGet name => errorOf Prod.snd (laggops.Get k env name)
  | .Add4 iface addr mask => ipaddr.Add4 k env iface addr mask
  | .Del4 iface addr mask => ipaddr.Del4 k env iface addr mask
  | .Add6 iface addr prefixLen => ipaddr.Add6 k env iface addr prefixLen
  | .Del6 iface addr prefixLen => ipaddr.Del6 k env iface addr prefixLen
  | .ModifyRoute add dst gw ifindex => routing.ModifyRoute k env add dst gw ifindex

/-- The kind of socket the function opens. -/
def TransportCall.kind : TransportCall → SockKind
  | .Add6 _ _ _ => .inet6
  | .Del6 _ _ _ => .inet6
  | .ModifyRoute _ _ _ _ => .route
  | _ => .inet

/-- The interface names a call passes: the name for the outer request block
first, then the name for the payload, if any. -/
def TransportCall.names : TransportCall → List GoString
  | .SetFlags name _ _ => [name]
  | .GetMTU name => [name]
  | .SetMTU name _ => [name]
  | .Rename oldName newName => [oldName, newName]
  | .Create pfx => [pfx]
  | .Destroy name => [name]
  | .AddMember bridge member => [bridge, member]
  | .DelMember bridge member => [bridge, member]
  | .GetMembers bridge => [bridge]
  | .Configure name _ parent => [name, parent]
  | .vlanGet name => [name]
  | .SetProto name _ => [name]
  | .AddPort lagg port => [lagg, port]
  | .DelPort lagg port => [lagg, port]
  | .laggGet name => [name]
  | .Add4 iface _ _ => [iface]
  | .Del4 iface _ _ => [iface]
  | .Add6 iface _ _ => [iface]
  | .Del6 iface _ _ => [iface]
  | .ModifyRoute _ _ _ _ => []

/-- The call is `vlanops.Configure` with a tag of 0 or above 4094. -/
def TransportCall.tagOutOfRange : TransportCall → Prop
  | .Configure _ tag _ => tag = 0 ∨ tag > 4094
  | _ => False

/-- An event that uses an open socket: an ioctl or a write. -/
def Event.usesSocket : Event → Bool
  | .ioctl _ _ => true
  | .write _ _ _ => true
  | _ => false

/-- Scoped acquisition: when socket creation fails the creation attempt is the
only event (no ioctl, no write, no close); when it succeeds the events are the
open, then only ioctls and writes, then exactly one close as the last event. -/
def socketScoped {α : Type} (env : Kernel) (kind : SockKind) (r : Run α) : Prop :=
  match env.socket kind with
  | some e => r.events = [.socket kind (some e)]
  | none =>
    ∃ mid, r.events = .socket kind none :: (mid ++ [.close kind]) ∧
      ∀ ev, ev ∈ mid → ev.usesSocket = true

/-- Modelled from the spec: the numeric codes the kernel's lagg(4) driver assigns
to its protocols (`LAGG_PROTO_*` of `<net/if_lagg.h>`, a header that is not
part of the repository): round-robin 1, failover 2, load-balance 3, LACP 4,
broadcast 5. -/
def kernelLaggProto : List (String × Int) :=
  [("roundrobin", 1), ("failover", 2), ("loadbalance", 3), ("lacp", 4), ("broadcast", 5)]

/-- The name the kernel's table gives to a protocol code. -/
def kernelLaggName (code : Int) : Option String :=
  (kernelLaggProto.find? fun e => e.2 == code).map Prod.fst

/-- A kernel in which every socket opens, every ioctl succeeds and leaves the
reply `r`. -/
def kernelReplying (r : Reply) : Kernel where
  socket := fun _ => none
  ioctl := fun _ => none
  write := fun _ => (0, none)
  ifList := .ok []
  reply := fun _ => r

/-- A kernel in which no socket can be created: `socket` fails with errno `e`. -/
def kernelNoSocket (e : Errno) : Kernel where
  socket := fun _ => some e
  ioctl := fun _ => none
  write := fun _ => (0, none)
  ifList := .ok []
  reply := fun _ => ⟨0, [], 0, 0, []⟩

/-- A kernel whose interface enumeration has the result `l`. -/
def kernelListing (l : Except GoError (List Interface)) : Kernel where
  socket := fun _ => none
  ioctl := fun _ => none
  write := fun _ => (0, none)
  ifList := l
  reply := fun _ => ⟨0, [], 0, 0, []⟩

/-- The number a string of decimal digits denotes: the reading of what `%d`
prints for a non-negative number. -/
def decimalValue (digits : GoString) : Nat :=
  digits.foldl (fun acc c => acc * 10 + (c - 48)) 0

/-- The integer a decimal rendering with an optional leading minus sign (byte
45) denotes. -/
def signedDecimalValue (s : GoString) : Int :=
  if s.head? = some 45 then -(decimalValue s.tail : Int) else (decimalValue s : Int)

/-! # Theorems -/

/-! ## Error taxonomy mapper -/

theorem GoError.is_sentinel (s t : Sentinel) :
    (GoError.sentinel s).is t = true ↔ t = s := by
  simp only [GoError.is, beq_iff_eq]
  exact eq_comm

theorem GoError.is_syscallError (e : Errno) (t : Sentinel) :
    (GoError.syscallError e).is t = true ↔ t = Sentinel.ErrSyscall := by
  simp only [GoError.is, beq_iff_eq]
  exact eq_comm

theorem mapErrno_cases (e : Errno) :
    (∃ s, s ≠ Sentinel.ErrSyscall ∧ e ∈ tableCodes ∧ mapErrno e = some (.sentinel s)) ∨
    (e ∉ tableCodes ∧ mapErrno e = some (.syscallError e)) := by
  unfold mapErrno tableCodes
  simp only [EPERM, EACCES, ENOENT, ENXIO, EEXIST, EINVAL, EBUSY, EOPNOTSUPP, ENETDOWN,
    EADDRINUSE, List.mem_cons, List.mem_singleton, List.not_mem_nil, or_false]
  split_ifs with h1 h2 h3 h4 h5 h6 h7 h8
  · exact Or.inl ⟨_, by decide, by tauto, rfl⟩
  · exact Or.inl ⟨_, by decide, by tauto, rfl⟩
  · exact Or.inl ⟨_, by decide, by tauto, rfl⟩
  · exact Or.inl ⟨_, by decide, by tauto, rfl⟩
  · exact Or.inl ⟨_, by decide, by tauto, rfl⟩
  · exact Or.inl ⟨_, by decide, by tauto, rfl⟩
  · exact Or.inl ⟨_, by decide, by tauto, rfl⟩
  · exact Or.inl ⟨_, by decide, by tauto, rfl⟩
  · exact Or.inr ⟨by tauto, rfl⟩

/-- C1. For every errno `e`, `mapErrno e` (and `MapError e`, which is the same
value) is a non-nil error that matches exactly one of the nine taxonomy
sentinels under `errors.Is`; the ten table codes give the sentinel of their
row, and every code outside the table (0 included) gives the error that wraps
`ErrSyscall`, keeps the code, and matches none of the other eight kinds. -/
theorem mapErrno_exactly_one_kind (e : Errno) :
    MapError e = mapErrno e ∧
    (∃ err s, mapErrno e = some err ∧ ∀ t, errorsIs (some err) t = true ↔ t = s) ∧
    (mapErrno EPERM = some (.sentinel .ErrPermission) ∧
      mapErrno EACCES = some (.sentinel .ErrPermission) ∧
      mapErrno ENOENT = some (.sentinel .ErrNotFound) ∧
      mapErrno ENXIO = some (.sentinel .ErrNotFound) ∧
      mapErrno EEXIST = some (.sentinel .ErrExists) ∧
      mapErrno EINVAL = some (.sentinel .ErrInvalidArgument) ∧
      mapErrno EBUSY = some (.sentinel .ErrBusy) ∧
      mapErrno EOPNOTSUPP = some (.sentinel .ErrNotSupported) ∧
      mapErrno ENETDOWN = some (.sentinel .ErrNetworkDown) ∧
      mapErrno EADDRINUSE = some (.sentinel .ErrAddressInUse)) ∧
    (e ∉ tableCodes →
      mapErrno e = some (.syscallError e) ∧
      GoError.Unwrap (.syscallError e) = some (.sentinel .ErrSyscall) ∧
      ∀ t, errorsIs (mapErrno e) t = true ↔ t = Sentinel.ErrSyscall) := by
  refine ⟨rfl, ?_, ?_, ?_⟩
  · rcases mapErrno_cases e with ⟨s, -, -, h⟩ | ⟨-, h⟩
    · exact ⟨_, s, h, fun t => by simp [errorsIs, GoError.is_sentinel]⟩
    · exact ⟨_, .ErrSyscall, h, fun t => by simp [errorsIs, GoError.is_syscallError]⟩
  · decide
  · intro hne
    rcases mapErrno_cases e with ⟨s, -, hin, -⟩ | ⟨-, h⟩
    · exact absurd hin hne
    · refine ⟨h, rfl, fun t => ?_⟩
      rw [h]
      simp [errorsIs, GoError.is_syscallError]

/-- Witness of C1 at the code 0, which is outside the table. -/
theorem mapErrno_exactly_one_kind_witness :
    (0 : Errno) ∉ tableCodes ∧ mapErrno 0 = some (.syscallError 0) ∧
      ∀ t, errorsIs (mapErrno 0) t = true ↔ t = Sentinel.ErrSyscall :=
  ⟨by decide, ((mapErrno_exactly_one_kind 0).2.2.2 (by decide)).1,
    ((mapErrno_exactly_one_kind 0).2.2.2 (by decide)).2.2⟩

/-! ## Routing-socket codec: building blocks -/

theorem copyInto_zero_region (pre post src : List Nat) (n : Nat) :
    copyInto (pre ++ List.replicate n 0 ++ post) pre.length (pre.length + n) src
      = pre ++ zeroFill n src ++ post := by
  unfold copyInto zeroFill
  have h1 : pre.length + n - pre.length = n := by omega
  rw [h1, List.append_assoc pre, List.take_left, List.drop_append,
    List.drop_append_eq_append_drop, List.drop_replicate]
  have h2 : min n src.length - (List.replicate n 0).length = 0 := by simp
  have h3 : n - min n src.length = n - src.length := by omega
  rw [h2, h3]
  simp

theorem padLoop_spec (w : Nat) : ∀ (fuel : Nat) (buf : List Nat),
    ∃ n, n ≤ fuel ∧ padLoop w fuel buf = buf ++ List.replicate n 0 ∧
      (∀ j, j < n → (buf.length + j) % w ≠ 0) ∧ (n < fuel → (buf.length + n) % w = 0) := by
  intro fuel
  induction fuel with
  | zero =>
    intro buf
    exact ⟨0, le_refl _, by simp [padLoop], by intro j hj; omega, by intro h; omega⟩
  | succ fuel ih =>
    intro buf
    by_cases h : buf.length % w ≠ 0
    · obtain ⟨n, hn, heq, hmin, hal⟩ := ih (buf ++ [0])
      refine ⟨n + 1, by omega, ?_, ?_, ?_⟩
      · rw [padLoop, if_pos h, heq]
        simp [List.replicate_succ]
      · intro j hj
        cases j with
        | zero => simpa using h
        | succ j =>
          have := hmin j (by omega)
          simpa [Nat.add_assoc, Nat.add_comm 1 j] using this
      · intro hlt
        have := hal (by omega)
        simpa [Nat.add_assoc, Nat.add_comm 1 n] using this
    · refine ⟨0, by omega, ?_, by intro j hj; omega, ?_⟩
      · rw [padLoop, if_neg h]; simp
      · intro _; simpa using h

theorem aligned_within (w len : Nat) (hw : 0 < w) :
    ∃ j, j < w ∧ (len + j) % w = 0 := by
  by_cases h : len % w = 0
  · exact ⟨0, hw, by simpa using h⟩
  · refine ⟨w - len % w, by omega, ?_⟩
    have hlt : len % w < w := Nat.mod_lt _ hw
    have hdm := Nat.div_add_mod len w
    have : len + (w - len % w) = w * (len / w + 1) := by
      rw [Nat.mul_succ]; omega
    rw [this]; exact Nat.mul_mod_right _ _

/-- The alignment loop appends only zero bytes, at most `w` of them; for a
positive word size it appends fewer than `w` and stops at a multiple of `w`. -/
theorem alignWord_spec (w : Nat) (buf : List Nat) :
    ∃ n, alignWord w buf = buf ++ List.replicate n 0 ∧ n ≤ w ∧
      (0 < w → n < w ∧ (buf.length + n) % w = 0) := by
  obtain ⟨n, hn, heq, hmin, hal⟩ := padLoop_spec w w buf
  refine ⟨n, heq, hn, fun hw => ?_⟩
  obtain ⟨j, hj, hj0⟩ := aligned_within w buf.length hw
  have hlt : n < w := by
    by_contra hge
    exact hmin j (by omega) hj0
  exact ⟨hlt, hal hlt⟩

theorem To4_some_length {ip a : List Nat} (h : To4 ip = some a) : a.length = 4 := by
  unfold To4 at h
  split_ifs at h with h1 h2
  · cases h; exact h1
  · cases h; simp [h2.1]

theorem To4_idem {ip a : List Nat} (h : To4 ip = some a) : To4 a = some a := by
  have := To4_some_length h
  simp [To4, this]

theorem To4_bytesOf_To4 (ip : List Nat) : bytesOf (To4 (bytesOf (To4 ip))) = bytesOf (To4 ip) := by
  cases h : To4 ip with
  | none => simp [bytesOf, To4]
  | some a => simp [bytesOf, To4_idem h]

theorem zeroFill_of_length {n : Nat} {a : List Nat} (h : a.length = n) : zeroFill n a = a := by
  simp [zeroFill, h, List.take_of_length_le]

theorem zeroFill_length (n : Nat) (a : List Nat) : (zeroFill n a).length = n := by
  simp [zeroFill]; omega

theorem writeSockaddr_inet (k : Constants) (buf ip : List Nat) :
    writeSockaddr k buf ip k.AF_INET
      = alignWord k.sizeofLong buf ++ sockaddrIn (zeroFill 4 (bytesOf (To4 ip))) := by
  have h := copyInto_zero_region [16, 2, 0, 0] (List.replicate 8 0) (bytesOf (To4 ip)) 4
  simp only [writeSockaddr, if_true, sockaddrIn]
  congr 1

theorem writeSockaddr_inet6 (k : Constants) (hfam : k.AF_INET ≠ k.AF_INET6) (buf ip : List Nat) :
    writeSockaddr k buf ip k.AF_INET6
      = alignWord k.sizeofLong buf ++ sockaddrIn6 (zeroFill 16 (bytesOf (To16 ip))) := by
  have h := copyInto_zero_region [28, 28, 0, 0, 0, 0, 0, 0] (List.replicate 4 0)
    (bytesOf (To16 ip)) 16
  simp only [writeSockaddr, if_neg (Ne.symm hfam), if_true, sockaddrIn6]
  congr 1

theorem writeSockaddrMask_inet (k : Constants) (buf mask : List Nat) :
    writeSockaddrMask k buf mask k.AF_INET
      = alignWord k.sizeofLong buf ++ sockaddrIn (zeroFill 4 mask) := by
  have h := copyInto_zero_region [16, 2, 0, 0] (List.replicate 8 0) mask 4
  simp only [writeSockaddrMask, if_true, sockaddrIn]
  congr 1

theorem writeSockaddrMask_inet6 (k : Constants) (hfam : k.AF_INET ≠ k.AF_INET6)
    (buf mask : List Nat) :
    writeSockaddrMask k buf mask k.AF_INET6
      = alignWord k.sizeofLong buf ++ sockaddrIn6 (zeroFill 16 mask) := by
  have h := copyInto_zero_region [28, 28, 0, 0, 0, 0, 0, 0] (List.replicate 4 0) mask 16
  simp only [writeSockaddrMask, if_neg (Ne.symm hfam), if_true, sockaddrIn6]
  congr 1

theorem three_blocks (w : Nat) (buf B1 B2 B3 : List Nat) :
    ∃ n1 n2 n3,
      alignWord w (alignWord w (alignWord w buf ++ B1) ++ B2) ++ B3
        = buf ++ List.replicate n1 0 ++ B1 ++ List.replicate n2 0 ++ B2
            ++ List.replicate n3 0 ++ B3 ∧
      n1 ≤ w ∧ n2 ≤ w ∧ n3 ≤ w ∧
      (0 < w →
        n1 < w ∧ (buf.length + n1) % w = 0 ∧
        n2 < w ∧ (buf.length + n1 + B1.length + n2) % w = 0 ∧
        n3 < w ∧ (buf.length + n1 + B1.length + n2 + B2.length + n3) % w = 0) := by
  obtain ⟨n1, h1, b1, a1⟩ := alignWord_spec w buf
  obtain ⟨n2, h2, b2, a2⟩ := alignWord_spec w (alignWord w buf ++ B1)
  obtain ⟨n3, h3, b3, a3⟩ := alignWord_spec w (alignWord w (alignWord w buf ++ B1) ++ B2)
  refine ⟨n1, n2, n3, ?_, b1, b2, b3, fun hw => ?_⟩
  · rw [h3, h2, h1]
  · have e1 := a1 hw
    have e2 := a2 hw
    have e3 := a3 hw
    rw [h2, h1] at e3
    rw [h1] at e2
    simp only [List.length_append, List.length_replicate] at e2 e3
    exact ⟨e1.1, e1.2, e2.1, e2.2, e3.1, e3.2⟩

theorem bytesOf_some (b : List Nat) : bytesOf (some b) = b := rfl

theorem To4_IPv4zero : To4 IPv4zero = some [0, 0, 0, 0] := by decide

theorem To16_IPv6zero : To16 IPv6zero = some (List.replicate 16 0) := by decide

theorem routeBuffer_eq (k : Constants) (hfam : k.AF_INET ≠ k.AF_INET6) (add : Bool)
    (dst : IPNet) (gw : Option (List Nat)) (ifindex : Int) :
    routeBuffer k add dst gw ifindex
      = alignWord k.sizeofLong (alignWord k.sizeofLong (alignWord k.sizeofLong
          (routeHeader k add dst gw ifindex).encode ++ specDstBlock dst)
            ++ specGwBlock dst gw) ++ specMaskBlock dst := by
  unfold routeBuffer specDstBlock specGwBlock specMaskBlock
  cases h : To4 dst.IP with
  | none =>
    cases gw with
    | none =>
      simp only [if_true, writeSockaddr_inet6 k hfam, writeSockaddrMask_inet6 k hfam,
        To16_IPv6zero, bytesOf_some]
      rw [zeroFill_of_length (List.length_replicate 16 0)]
    | some g =>
      simp only [if_true, writeSockaddr_inet6 k hfam, writeSockaddrMask_inet6 k hfam]
  | some a =>
    have hne : ¬ (some a = (none : Option (List Nat))) := by simp
    cases gw with
    | none =>
      simp only [if_neg hne, writeSockaddr_inet, writeSockaddrMask_inet, To4_IPv4zero,
        bytesOf_some, To4_idem h]
      rw [zeroFill_of_length (To4_some_length h),
        zeroFill_of_length (show [0, 0, 0, 0].length = 4 from rfl)]
    | some g =>
      simp only [if_neg hne, writeSockaddr_inet, writeSockaddrMask_inet, To4_bytesOf_To4]
      simp only [bytesOf_some, To4_idem h]
      rw [zeroFill_of_length (To4_some_length h)]

theorem routeHeader_encode_length (k : Constants) (add : Bool) (dst : IPNet)
    (gw : Option (List Nat)) (ifindex : Int) :
    (routeHeader k add dst gw ifindex).encode.length = 90 := rfl

/-- The layout of the buffer `ModifyRoute` builds: the 90 encoded header bytes,
then for each of the three blocks a run of zero bytes and the block. -/
theorem routeBuffer_layout (k : Constants) (hfam : k.AF_INET ≠ k.AF_INET6) (add : Bool)
    (dst : IPNet) (gw : Option (List Nat)) (ifindex : Int) :
    ∃ n1 n2 n3,
      routeBuffer k add dst gw ifindex
        = (routeHeader k add dst gw ifindex).encode ++ List.replicate n1 0 ++ specDstBlock dst
            ++ List.replicate n2 0 ++ specGwBlock dst gw
            ++ List.replicate n3 0 ++ specMaskBlock dst ∧
      n1 ≤ k.sizeofLong ∧ n2 ≤ k.sizeofLong ∧ n3 ≤ k.sizeofLong ∧
      (0 < k.sizeofLong →
        n1 < k.sizeofLong ∧ (90 + n1) % k.sizeofLong = 0 ∧
        n2 < k.sizeofLong ∧ (90 + n1 + (specDstBlock dst).length + n2) % k.sizeofLong = 0 ∧
        n3 < k.sizeofLong ∧
          (90 + n1 + (specDstBlock dst).length + n2 + (specGwBlock dst gw).length + n3)
            % k.sizeofLong = 0) := by
  obtain ⟨n1, n2, n3, heq, b1, b2, b3, hal⟩ :=
    three_blocks k.sizeofLong (routeHeader k add dst gw ifindex).encode
      (specDstBlock dst) (specGwBlock dst gw) (specMaskBlock dst)
  refine ⟨n1, n2, n3, ?_, b1, b2, b3, ?_⟩
  · rw [routeBuffer_eq k hfam, heq]
  · intro hw
    have := hal hw
    rwa [routeHeader_encode_length] at this

theorem PutUint16_layout (hdr rest : List Nat) (v : Nat) (h : 2 ≤ hdr.length) :
    PutUint16 (hdr ++ rest) v = (le16 v ++ hdr.drop 2) ++ rest := by
  unfold PutUint16
  rw [List.drop_append_of_le_length h, List.append_assoc]

theorem PutUint16_length (b : List Nat) (v : Nat) (h : 2 ≤ b.length) :
    (PutUint16 b v).length = b.length := by
  simp [PutUint16, le16]; omega

theorem leUint16_PutUint16 (b : List Nat) (v : Nat) (h : v < 65536) :
    leUint16 (PutUint16 b v) = v := by
  simp [leUint16, PutUint16, le16]; omega

theorem writeSockaddr_any (k : Constants) (buf ip : List Nat) (family : Nat) :
    ∃ B, writeSockaddr k buf ip family = alignWord k.sizeofLong buf ++ B ∧ B.length ≤ 28 := by
  by_cases h4 : family = k.AF_INET
  · subst h4
    exact ⟨_, writeSockaddr_inet k buf ip, by simp [sockaddrIn, zeroFill_length]⟩
  · by_cases h6 : family = k.AF_INET6
    · subst h6
      exact ⟨_, writeSockaddr_inet6 k (Ne.symm h4) buf ip, by simp [sockaddrIn6, zeroFill_length]⟩
    · exact ⟨[], by simp [writeSockaddr, h4, h6], by simp⟩

theorem writeSockaddrMask_any (k : Constants) (buf mask : List Nat) (family : Nat) :
    ∃ B, writeSockaddrMask k buf mask family = alignWord k.sizeofLong buf ++ B ∧
      B.length ≤ 28 := by
  by_cases h4 : family = k.AF_INET
  · subst h4
    exact ⟨_, writeSockaddrMask_inet k buf mask, by simp [sockaddrIn, zeroFill_length]⟩
  · by_cases h6 : family = k.AF_INET6
    · subst h6
      exact ⟨_, writeSockaddrMask_inet6 k (Ne.symm h4) buf mask,
        by simp [sockaddrIn6, zeroFill_length]⟩
    · exact ⟨[], by simp [writeSockaddrMask, h4, h6], by simp⟩

theorem block_step_length (w : Nat) (buf B : List Nat) (hB : B.length ≤ 28) :
    buf.length ≤ (alignWord w buf ++ B).length ∧
      (alignWord w buf ++ B).length ≤ buf.length + w + 28 := by
  obtain ⟨n, heq, hn, -⟩ := alignWord_spec w buf
  rw [heq]
  simp only [List.length_append, List.length_replicate]
  omega

theorem routeBuffer_length_bounds (k : Constants) (add : Bool) (dst : IPNet)
    (gw : Option (List Nat)) (ifindex : Int) :
    90 ≤ (routeBuffer k add dst gw ifindex).length ∧
      (routeBuffer k add dst gw ifindex).length ≤ 174 + 3 * k.sizeofLong := by
  have key : ∀ (ip1 ip2 : List Nat) (f1 f2 f3 : Nat),
      90 ≤ (writeSockaddrMask k (writeSockaddr k (writeSockaddr k
          (routeHeader k add dst gw ifindex).encode ip1 f1) ip2 f2) dst.Mask f3).length ∧
      (writeSockaddrMask k (writeSockaddr k (writeSockaddr k
          (routeHeader k add dst gw ifindex).encode ip1 f1) ip2 f2) dst.Mask f3).length
        ≤ 174 + 3 * k.sizeofLong := by
    intro ip1 ip2 f1 f2 f3
    obtain ⟨B1, e1, l1⟩ := writeSockaddr_any k (routeHeader k add dst gw ifindex).encode ip1 f1
    obtain ⟨B2, e2, l2⟩ := writeSockaddr_any k
      (writeSockaddr k (routeHeader k add dst gw ifindex).encode ip1 f1) ip2 f2
    obtain ⟨B3, e3, l3⟩ := writeSockaddrMask_any k (writeSockaddr k
      (writeSockaddr k (routeHeader k add dst gw ifindex).encode ip1 f1) ip2 f2) dst.Mask f3
    have s1 := block_step_length k.sizeofLong (routeHeader k add dst gw ifindex).encode B1 l1
    rw [← e1, routeHeader_encode_length] at s1
    have s2 := block_step_length k.sizeofLong
      (writeSockaddr k (routeHeader k add dst gw ifindex).encode ip1 f1) B2 l2
    rw [← e2] at s2
    have s3 := block_step_length k.sizeofLong (writeSockaddr k
      (writeSockaddr k (routeHeader k add dst gw ifindex).encode ip1 f1) ip2 f2) B3 l3
    rw [← e3] at s3
    omega
  unfold routeBuffer
  cases gw <;> by_cases h : To4 dst.IP = none <;> simp only [h, if_true, if_false] <;>
    exact key _ _ _ _ _

theorem ModifyRoute_write_events (k : Constants) (env : Kernel) (add : Bool) (dst : IPNet)
    (gw : Option (List Nat)) (ifindex : Int) (m : List Nat) (n : Int) (err : Option Errno)
    (h : Event.write m n err ∈ (routing.ModifyRoute k env add dst gw ifindex).events) :
    m = routeMessage k add dst gw ifindex := by
  unfold routing.ModifyRoute at h
  cases hs : env.socket .route with
  | some e => simp [hs] at h
  | none =>
    simp only [hs] at h
    cases hw : (env.write (routeMessage k add dst gw ifindex)).2 with
    | some e =>
      simp only [hw] at h
      split_ifs at h <;> simp at h <;> exact h.1
    | none =>
      simp only [hw] at h
      split_ifs at h <;> simp at h <;> exact h.1

/-! ## Routing-socket codec: the claims -/

/-- C2. For every destination network, gateway (given or nil) and interface
index, on a platform whose `long` has at most 8 bytes, the message `ModifyRoute`
builds has its first two bytes, read as a little-endian 16-bit number, equal to
the total byte length of the message; and every message `ModifyRoute` writes to
the routing socket is that message. -/
theorem routeMessage_length_field (k : Constants) (hw : k.sizeofLong ≤ 8) (add : Bool)
    (dst : IPNet) (gw : Option (List Nat)) (ifindex : Int) :
    leUint16 (routeMessage k add dst gw ifindex) = (routeMessage k add dst gw ifindex).length ∧
    (routeMessage k add dst gw ifindex).take 2
      = le16 (routeMessage k add dst gw ifindex).length ∧
    ∀ (env : Kernel) (m : List Nat) (n : Int) (err : Option Errno),
      Event.write m n err ∈ (routing.ModifyRoute k env add dst gw ifindex).events →
        leUint16 m = m.length := by
  obtain ⟨hlo, hhi⟩ := routeBuffer_length_bounds k add dst gw ifindex
  have hlt : (routeBuffer k add dst gw ifindex).length < 65536 := by omega
  have hlen : (routeMessage k add dst gw ifindex).length
      = (routeBuffer k add dst gw ifindex).length :=
    PutUint16_length _ _ (by omega)
  have hfield : leUint16 (routeMessage k add dst gw ifindex)
      = (routeMessage k add dst gw ifindex).length := by
    rw [hlen]
    unfold routeMessage
    rw [leUint16_PutUint16 _ _ (Nat.mod_lt _ (by norm_num)), Nat.mod_eq_of_lt hlt]
  refine ⟨hfield, ?_, ?_⟩
  · rw [hlen]
    simp [routeMessage, PutUint16, le16, Nat.mod_eq_of_lt hlt]
  · intro env m n err hm
    rw [ModifyRoute_write_events k env add dst gw ifindex m n err hm]
    exact hfield

/-- Witness of C2: an IPv4 route on 64-bit FreeBSD, whose message is 144 bytes. -/
theorem routeMessage_length_field_witness :
    freebsd64.sizeofLong ≤ 8 ∧
    leUint16 (routeMessage freebsd64 true ⟨[10, 0, 0, 0], [255, 255, 255, 0]⟩
        (some [10, 0, 0, 1]) 3)
      = (routeMessage freebsd64 true ⟨[10, 0, 0, 0], [255, 255, 255, 0]⟩
        (some [10, 0, 0, 1]) 3).length :=
  ⟨by decide, (routeMessage_length_field freebsd64 (by decide) true
    ⟨[10, 0, 0, 0], [255, 255, 255, 0]⟩ (some [10, 0, 0, 1]) 3).1⟩

/-- The layout of the message `ModifyRoute` writes: a 90-byte header (the patched
length field, then the encoded header from its third byte on) and, for each
of the three blocks, a run of zero bytes followed by the block. -/
theorem routeMessage_layout (k : Constants) (hfam : k.AF_INET ≠ k.AF_INET6) (add : Bool)
    (dst : IPNet) (gw : Option (List Nat)) (ifindex : Int) :
    ∃ hdr n1 n2 n3,
      routeMessage k add dst gw ifindex
        = hdr ++ List.replicate n1 0 ++ specDstBlock dst
            ++ List.replicate n2 0 ++ specGwBlock dst gw
            ++ List.replicate n3 0 ++ specMaskBlock dst ∧
      hdr = le16 ((routeBuffer k add dst gw ifindex).length % 65536)
              ++ (routeHeader k add dst gw ifindex).encode.drop 2 ∧
      hdr.length = 90 ∧
      (0 < k.sizeofLong →
        n1 < k.sizeofLong ∧ (90 + n1) % k.sizeofLong = 0 ∧
        n2 < k.sizeofLong ∧ (90 + n1 + (specDstBlock dst).length + n2) % k.sizeofLong = 0 ∧
        n3 < k.sizeofLong ∧
          (90 + n1 + (specDstBlock dst).length + n2 + (specGwBlock dst gw).length + n3)
            % k.sizeofLong = 0) := by
  obtain ⟨n1, n2, n3, hbuf, -, -, -, hal⟩ := routeBuffer_layout k hfam add dst gw ifindex
  refine ⟨_, n1, n2, n3, ?_, rfl, rfl, hal⟩
  have h2 : 2 ≤ (routeHeader k add dst gw ifindex).encode.length := by
    rw [routeHeader_encode_length]; norm_num
  have hassoc : routeBuffer k add dst gw ifindex
      = (routeHeader k add dst gw ifindex).encode ++ (List.replicate n1 0 ++ specDstBlock dst
            ++ List.replicate n2 0 ++ specGwBlock dst gw
            ++ List.replicate n3 0 ++ specMaskBlock dst) := by
    rw [hbuf]; simp only [List.append_assoc]
  have key : ∀ v, PutUint16 (routeBuffer k add dst gw ifindex) v
      = (le16 v ++ (routeHeader k add dst gw ifindex).encode.drop 2)
          ++ (List.replicate n1 0 ++ specDstBlock dst
            ++ List.replicate n2 0 ++ specGwBlock dst gw
            ++ List.replicate n3 0 ++ specMaskBlock dst) := by
    intro v
    rw [hassoc]
    exact PutUint16_layout _ _ _ h2
  exact (key _).trans (by simp only [List.append_assoc])

/-- C3. For every destination, the message `ModifyRoute` builds is a 90-byte
header followed by exactly three socket-address blocks, in the order
destination, gateway, netmask, each preceded only by zero padding; the header's
address bitmask (its bytes 10..13) is `RTA_DST|RTA_GATEWAY|RTA_NETMASK`; for an
IPv4 destination all three blocks are `AF_INET` blocks and for any other
destination all three are `AF_INET6` blocks; with a nil gateway the gateway
block carries the all-zero address of that family. -/
theorem routeMessage_three_blocks (k : Constants) (hfam : k.AF_INET ≠ k.AF_INET6)
    (add : Bool) (dst : IPNet) (gw : Option (List Nat)) (ifindex : Int) :
    ∃ hdr n1 n2 n3,
      routeMessage k add dst gw ifindex
        = hdr ++ List.replicate n1 0 ++ specDstBlock dst
            ++ List.replicate n2 0 ++ specGwBlock dst gw
            ++ List.replicate n3 0 ++ specMaskBlock dst ∧
      hdr.length = 90 ∧
      (hdr.drop 10).take 4 = le32 (k.RTA_DST ||| k.RTA_GATEWAY ||| k.RTA_NETMASK) ∧
      (∀ a, To4 dst.IP = some a →
        specDstBlock dst = sockaddrIn a ∧ a.length = 4 ∧
        (∃ g, specGwBlock dst gw = sockaddrIn g ∧ g.length = 4 ∧
          (gw = none → g = [0, 0, 0, 0])) ∧
        ∃ m, specMaskBlock dst = sockaddrIn m ∧ m.length = 4 ∧
          (dst.Mask.length = 4 → m = dst.Mask)) ∧
      (To4 dst.IP = none →
        (∃ a, specDstBlock dst = sockaddrIn6 a ∧ a.length = 16 ∧
          (dst.IP.length = 16 → a = dst.IP)) ∧
        (∃ g, specGwBlock dst gw = sockaddrIn6 g ∧ g.length = 16 ∧
          (gw = none → g = List.replicate 16 0)) ∧
        ∃ m, specMaskBlock dst = sockaddrIn6 m ∧ m.length = 16 ∧
          (dst.Mask.length = 16 → m = dst.Mask)) := by
  obtain ⟨hdr, n1, n2, n3, hmsg, hhdr, hlen, -⟩ := routeMessage_layout k hfam add dst gw ifindex
  refine ⟨hdr, n1, n2, n3, hmsg, hlen, ?_, ?_, ?_⟩
  · rw [hhdr]; rfl
  · intro a ha
    refine ⟨by simp [specDstBlock, ha], To4_some_length ha, ?_, ?_⟩
    · cases gw with
      | none => exact ⟨[0, 0, 0, 0], by simp [specGwBlock, ha], rfl, fun _ => rfl⟩
      | some g =>
        exact ⟨zeroFill 4 (bytesOf (To4 g)), by simp [specGwBlock, ha], zeroFill_length _ _,
          fun h => by cases h⟩
    · exact ⟨zeroFill 4 dst.Mask, by simp [specMaskBlock, ha], zeroFill_length _ _,
        fun h => zeroFill_of_length h⟩
  · intro ha
    refine ⟨⟨zeroFill 16 (bytesOf (To16 dst.IP)), by simp [specDstBlock, ha],
      zeroFill_length _ _, fun h => ?_⟩, ?_, ?_⟩
    · have h16 : To16 dst.IP = some dst.IP := by simp [To16, h]
      rw [h16, bytesOf_some, zeroFill_of_length h]
    · cases gw with
      | none =>
        exact ⟨List.replicate 16 0, by simp [specGwBlock, ha], by simp, fun _ => rfl⟩
      | some g =>
        exact ⟨zeroFill 16 (bytesOf (To16 g)), by simp [specGwBlock, ha], zeroFill_length _ _,
          fun h => by cases h⟩
    · exact ⟨zeroFill 16 dst.Mask, by simp [specMaskBlock, ha], zeroFill_length _ _,
        fun h => zeroFill_of_length h⟩

/-- Witness of C3: the constants of 64-bit FreeBSD keep the two families apart,
so the layout holds for an IPv6 route without a gateway. -/
theorem routeMessage_three_blocks_witness :
    freebsd64.AF_INET ≠ freebsd64.AF_INET6 ∧
    ∃ hdr n1 n2 n3,
      routeMessage freebsd64 true ⟨List.replicate 16 1, List.replicate 16 255⟩ none 0
        = hdr ++ List.replicate n1 0 ++ specDstBlock ⟨List.replicate 16 1, List.replicate 16 255⟩
            ++ List.replicate n2 0
            ++ specGwBlock ⟨List.replicate 16 1, List.replicate 16 255⟩ none
            ++ List.replicate n3 0
            ++ specMaskBlock ⟨List.replicate 16 1, List.replicate 16 255⟩ ∧
      hdr.length = 90 :=
  ⟨by decide,
    let ⟨hdr, n1, n2, n3, h1, h2, _⟩ := routeMessage_three_blocks freebsd64 (by decide) true
      ⟨List.replicate 16 1, List.replicate 16 255⟩ none 0
    ⟨hdr, n1, n2, n3, h1, h2⟩⟩

/-- C5. In every message `ModifyRoute` builds, for a positive word size
`sizeof(long)`, each of the three address blocks starts at an offset that is a
multiple of the word size, and the bytes inserted before each block are zero
bytes, fewer than one word of them. -/
theorem routeMessage_blocks_aligned (k : Constants) (hfam : k.AF_INET ≠ k.AF_INET6)
    (hw : 0 < k.sizeofLong) (add : Bool) (dst : IPNet) (gw : Option (List Nat))
    (ifindex : Int) :
    ∃ hdr n1 n2 n3,
      routeMessage k add dst gw ifindex
        = hdr ++ List.replicate n1 0 ++ specDstBlock dst
            ++ List.replicate n2 0 ++ specGwBlock dst gw
            ++ List.replicate n3 0 ++ specMaskBlock dst ∧
      hdr.length = 90 ∧
      n1 < k.sizeofLong ∧ n2 < k.sizeofLong ∧ n3 < k.sizeofLong ∧
      (hdr ++ List.replicate n1 0).length % k.sizeofLong = 0 ∧
      (hdr ++ List.replicate n1 0 ++ specDstBlock dst
        ++ List.replicate n2 0).length % k.sizeofLong = 0 ∧
      (hdr ++ List.replicate n1 0 ++ specDstBlock dst ++ List.replicate n2 0
        ++ specGwBlock dst gw ++ List.replicate n3 0).length % k.sizeofLong = 0 := by
  obtain ⟨hdr, n1, n2, n3, hmsg, -, hlen, hal⟩ := routeMessage_layout k hfam add dst gw ifindex
  obtain ⟨a1, b1, a2, b2, a3, b3⟩ := hal hw
  refine ⟨hdr, n1, n2, n3, hmsg, hlen, a1, a2, a3, ?_, ?_, ?_⟩ <;>
    simp only [List.length_append, List.length_replicate, hlen] <;> assumption

/-- Witness of C5 on 64-bit FreeBSD (word size 8), for an IPv4 route. -/
theorem routeMessage_blocks_aligned_witness :
    freebsd64.AF_INET ≠ freebsd64.AF_INET6 ∧ 0 < freebsd64.sizeofLong ∧
    ∃ hdr n1 n2 n3,
      routeMessage freebsd64 true ⟨[10, 0, 0, 0], [255, 255, 255, 0]⟩ (some [10, 0, 0, 1]) 3
        = hdr ++ List.replicate n1 0 ++ specDstBlock ⟨[10, 0, 0, 0], [255, 255, 255, 0]⟩
            ++ List.replicate n2 0
            ++ specGwBlock ⟨[10, 0, 0, 0], [255, 255, 255, 0]⟩ (some [10, 0, 0, 1])
            ++ List.replicate n3 0 ++ specMaskBlock ⟨[10, 0, 0, 0], [255, 255, 255, 0]⟩ ∧
      n1 < freebsd64.sizeofLong ∧ (hdr ++ List.replicate n1 0).length % freebsd64.sizeofLong = 0 :=
  ⟨by decide, by decide,
    let ⟨hdr, n1, n2, n3, h1, _, h3, _, _, h6, _⟩ :=
      routeMessage_blocks_aligned freebsd64 (by decide) (by decide) true
        ⟨[10, 0, 0, 0], [255, 255, 255, 0]⟩ (some [10, 0, 0, 1]) 3
    ⟨hdr, n1, n2, n3, h1, h3, h6⟩⟩

theorem To16_some_length {ip a : List Nat} (h : To16 ip = some a) : a.length = 16 := by
  unfold To16 at h
  split_ifs at h with h1 h2
  · cases h; rfl
  · cases h; exact h2

/-- C6. After the alignment padding, `writeSockaddr` and `writeSockaddrMask`
append for family `AF_INET` a block of exactly 16 bytes: length byte 16, family
byte `AF_INET`, two zero bytes, four payload bytes (bytes 4..7), eight zero
bytes; and for family `AF_INET6` a block of exactly 28 bytes: length byte 28,
family byte `AF_INET6`, six zero bytes, sixteen payload bytes (bytes 8..23),
four zero bytes. The payload is the address in its 4-byte (16-byte) form,
respectively the mask when it has 4 (16) bytes; a shorter source is filled up
with zero bytes and a longer mask is cut. -/
theorem writeSockaddr_block (k : Constants) (hfam : k.AF_INET ≠ k.AF_INET6)
    (buf ip mask : List Nat) :
    writeSockaddr k buf ip k.AF_INET
      = alignWord k.sizeofLong buf
          ++ ([16, sysAF_INET, 0, 0] ++ zeroFill 4 (bytesOf (To4 ip)) ++ List.replicate 8 0) ∧
    writeSockaddr k buf ip k.AF_INET6
      = alignWord k.sizeofLong buf
          ++ ([28, sysAF_INET6, 0, 0, 0, 0, 0, 0] ++ zeroFill 16 (bytesOf (To16 ip))
              ++ List.replicate 4 0) ∧
    writeSockaddrMask k buf mask k.AF_INET
      = alignWord k.sizeofLong buf
          ++ ([16, sysAF_INET, 0, 0] ++ zeroFill 4 mask ++ List.replicate 8 0) ∧
    writeSockaddrMask k buf mask k.AF_INET6
      = alignWord k.sizeofLong buf
          ++ ([28, sysAF_INET6, 0, 0, 0, 0, 0, 0] ++ zeroFill 16 mask ++ List.replicate 4 0) ∧
    (writeSockaddr k buf ip k.AF_INET).length = (alignWord k.sizeofLong buf).length + 16 ∧
    (writeSockaddr k buf ip k.AF_INET6).length = (alignWord k.sizeofLong buf).length + 28 ∧
    (writeSockaddrMask k buf mask k.AF_INET).length = (alignWord k.sizeofLong buf).length + 16 ∧
    (writeSockaddrMask k buf mask k.AF_INET6).length
      = (alignWord k.sizeofLong buf).length + 28 ∧
    (∀ a, To4 ip = some a → a.length = 4 ∧ zeroFill 4 (bytesOf (To4 ip)) = a) ∧
    (∀ a, To16 ip = some a → a.length = 16 ∧ zeroFill 16 (bytesOf (To16 ip)) = a) ∧
    (mask.length = 4 → zeroFill 4 mask = mask) ∧
    (mask.length = 16 → zeroFill 16 mask = mask) := by
  have e1 := writeSockaddr_inet k buf ip
  have e2 := writeSockaddr_inet6 k hfam buf ip
  have e3 := writeSockaddrMask_inet k buf mask
  have e4 := writeSockaddrMask_inet6 k hfam buf mask
  refine ⟨e1, e2, e3, e4, ?_, ?_, ?_, ?_, ?_, ?_, ?_, ?_⟩
  · rw [e1]; simp [sockaddrIn, zeroFill_length]
  · rw [e2]; simp [sockaddrIn6, zeroFill_length]
  · rw [e3]; simp [sockaddrIn, zeroFill_length]
  · rw [e4]; simp [sockaddrIn6, zeroFill_length]
  · intro a ha
    exact ⟨To4_some_length ha, by rw [ha, bytesOf_some, zeroFill_of_length (To4_some_length ha)]⟩
  · intro a ha
    exact ⟨To16_some_length ha,
      by rw [ha, bytesOf_some, zeroFill_of_length (To16_some_length ha)]⟩
  · exact fun h => zeroFill_of_length h
  · exact fun h => zeroFill_of_length h

/-- Witness of C6 on 64-bit FreeBSD: the IPv4 block for 10.0.0.1 appended to an
empty buffer. -/
theorem writeSockaddr_block_witness :
    freebsd64.AF_INET ≠ freebsd64.AF_INET6 ∧
    writeSockaddr freebsd64 [] [10, 0, 0, 1] freebsd64.AF_INET
      = alignWord freebsd64.sizeofLong []
          ++ ([16, sysAF_INET, 0, 0] ++ zeroFill 4 (bytesOf (To4 [10, 0, 0, 1]))
              ++ List.replicate 8 0) :=
  ⟨by decide, (writeSockaddr_block freebsd64 (by decide) [] [10, 0, 0, 1] [255, 255, 255, 0]).1⟩

set_option maxRecDepth 100000 in
/-- C4, evaluated. The flags `ModifyRoute` computes are `RTF_UP|RTF_STATIC`, plus
`RTF_GATEWAY` exactly when the gateway is not nil, plus `RTF_HOST` exactly when
`dst.Mask.Size()` reports `ones == bits`. For every CIDR mask of 4 or 16 bytes
that is the full-length mask only; but `Size` reports `(0, 0)` for a mask that
is not a run of ones followed by zeros and for an empty mask, so the route
10.0.0.0 with mask 255.0.255.0 is flagged as a host route: its flags are
`0x807` and the header bytes 6..9 are `07 08 00 00`. -/
theorem routeFlags_host_on_noncanonical_mask :
    (∀ (k : Constants) (dst : IPNet) (gw : Option (List Nat)),
      routeFlags k dst gw
        = ((k.RTF_UP ||| k.RTF_STATIC) ||| (if gw.isSome then k.RTF_GATEWAY else 0))
            ||| (if (IPMask.Size dst.Mask).1 = (IPMask.Size dst.Mask).2
                  then k.RTF_HOST else 0)) ∧
    (∀ n, n ≤ 32 → IPMask.Size (cidrBytes 4 n) = ((n : Int), 32)) ∧
    (∀ n, n ≤ 128 → IPMask.Size (cidrBytes 16 n) = ((n : Int), 128)) ∧
    IPMask.Size [255, 0, 255, 0] = (0, 0) ∧
    IPMask.Size [] = (0, 0) ∧
    routeFlags freebsd64 ⟨[10, 0, 0, 0], [255, 0, 255, 0]⟩ (some [10, 0, 0, 1]) = 0x807 ∧
    ((routeMessage freebsd64 true ⟨[10, 0, 0, 0], [255, 0, 255, 0]⟩ (some [10, 0, 0, 1]) 0).drop
      6).take 4 = [0x07, 0x08, 0, 0] ∧
    0x807 &&& freebsd64.RTF_HOST = freebsd64.RTF_HOST := by
  refine ⟨?_, by decide, by decide, by decide, by decide, by decide, by decide, by decide⟩
  intro k dst gw
  unfold routeFlags
  cases gw <;> split_ifs <;> simp_all

/-! ## Idempotency of the route operations -/

theorem resolveAndModify_out (k : Constants) (env : Kernel) (add : Bool) (d : IPNet)
    (gw : Option (List Nat)) (iface : GoString)
    (hif : iface = [] ∨ ∃ i, ifc.Get env iface = .ok i) :
    ∃ idx, (route.resolveAndModify k env add d gw iface).out
      = (routing.ModifyRoute k env add d gw idx).out := by
  unfold route.resolveAndModify
  by_cases hi : iface = []
  · exact ⟨0, by simp [hi]⟩
  · rcases hif with h | ⟨i, h⟩
    · exact absurd h hi
    · exact ⟨i.Index, by simp [hi, h]⟩

theorem ModifyRoute_add_exists (k : Constants) (env : Kernel) (hs : env.socket .route = none)
    (dst : IPNet) (gw : Option (List Nat)) (ifindex : Int)
    (hw : (env.write (routeMessage k true dst gw ifindex)).2 = some EEXIST) :
    (routing.ModifyRoute k env true dst gw ifindex).out = .ret none := by
  simp [routing.ModifyRoute, hs, hw]

theorem ModifyRoute_del_missing (k : Constants) (env : Kernel) (hs : env.socket .route = none)
    (dst : IPNet) (gw : Option (List Nat)) (ifindex : Int)
    (hw : (env.write (routeMessage k false dst gw ifindex)).2 = some ESRCH ∨
      (env.write (routeMessage k false dst gw ifindex)).2 = some ENOENT) :
    (routing.ModifyRoute k env false dst gw ifindex).out = .ret none := by
  rcases hw with hw | hw <;> simp [routing.ModifyRoute, hs, hw]

/-- C7. When the routing socket opens: `ModifyRoute` returns nil on an add whose
write fails with `EEXIST`, and on a delete whose write fails with `ESRCH` or
`ENOENT`. Hence, for arguments that pass their family checks and an interface
name that is empty or resolves, `AddRoute4`/`AddRoute6` return nil when the
kernel answers the add with `EEXIST`, and `DelRoute4`/`DelRoute6` return nil
when it answers the delete with `ESRCH` or `ENOENT`. -/
theorem ModifyRoute_idempotent (k : Constants) (env : Kernel)
    (hs : env.socket .route = none) :
    (∀ dst gw ifindex, (env.write (routeMessage k true dst gw ifindex)).2 = some EEXIST →
      (routing.ModifyRoute k env true dst gw ifindex).out = .ret none) ∧
    (∀ dst gw ifindex,
      ((env.write (routeMessage k false dst gw ifindex)).2 = some ESRCH ∨
        (env.write (routeMessage k false dst gw ifindex)).2 = some ENOENT) →
      (routing.ModifyRoute k env false dst gw ifindex).out = .ret none) ∧
    (∀ d gw iface, To4 d.IP ≠ none → To4 (bytesOf gw) ≠ none →
      (iface = [] ∨ ∃ i, ifc.Get env iface = .ok i) →
      (∀ idx, (env.write (routeMessage k true d (To4 (bytesOf gw)) idx)).2 = some EEXIST) →
      (route.AddRoute4 k env (some d) gw iface).out = .ret none) ∧
    (∀ d gw iface, To4 d.IP = none → To4 (bytesOf gw) = none →
      (iface = [] ∨ ∃ i, ifc.Get env iface = .ok i) →
      (∀ idx, (env.write (routeMessage k true d gw idx)).2 = some EEXIST) →
      (route.AddRoute6 k env (some d) gw iface).out = .ret none) ∧
    (∀ d gw iface, To4 d.IP ≠ none → To4 (bytesOf gw) ≠ none →
      (iface = [] ∨ ∃ i, ifc.Get env iface = .ok i) →
      (∀ idx, (env.write (routeMessage k false d (To4 (bytesOf gw)) idx)).2 = some ESRCH ∨
        (env.write (routeMessage k false d (To4 (bytesOf gw)) idx)).2 = some ENOENT) →
      (route.DelRoute4 k env (some d) gw iface).out = .ret none) ∧
    (∀ d gw iface, To4 d.IP = none → To4 (bytesOf gw) = none →
      (iface = [] ∨ ∃ i, ifc.Get env iface = .ok i) →
      (∀ idx, (env.write (routeMessage k false d gw idx)).2 = some ESRCH ∨
        (env.write (routeMessage k false d gw idx)).2 = some ENOENT) →
      (route.DelRoute6 k env (some d) gw iface).out = .ret none) := by
  refine ⟨fun dst gw ifindex hw => ModifyRoute_add_exists k env hs dst gw ifindex hw,
    fun dst gw ifindex hw => ModifyRoute_del_missing k env hs dst gw ifindex hw, ?_, ?_, ?_, ?_⟩
  · intro d gw iface hd hg hif hw
    obtain ⟨idx, hidx⟩ := resolveAndModify_out k env true d (To4 (bytesOf gw)) iface hif
    simp only [route.AddRoute4, route.modify4, if_neg hd, if_neg hg, hidx]
    exact ModifyRoute_add_exists k env hs _ _ _ (hw idx)
  · intro d gw iface hd hg hif hw
    obtain ⟨idx, hidx⟩ := resolveAndModify_out k env true d gw iface hif
    simp only [route.AddRoute6, route.modify6, hd, hg, ne_eq, not_true_eq_false, if_false, hidx]
    exact ModifyRoute_add_exists k env hs _ _ _ (hw idx)
  · intro d gw iface hd hg hif hw
    obtain ⟨idx, hidx⟩ := resolveAndModify_out k env false d (To4 (bytesOf gw)) iface hif
    simp only [route.DelRoute4, route.modify4, if_neg hd, if_neg hg, hidx]
    exact ModifyRoute_del_missing k env hs _ _ _ (hw idx)
  · intro d gw iface hd hg hif hw
    obtain ⟨idx, hidx⟩ := resolveAndModify_out k env false d gw iface hif
    simp only [route.DelRoute6, route.modify6, hd, hg, ne_eq, not_true_eq_false, if_false, hidx]
    exact ModifyRoute_del_missing k env hs _ _ _ (hw idx)

/-- Witness of C7: a kernel that answers every routing write with `EEXIST`; adding
198.51.100.0/24 via 127.0.0.1 (no interface name) returns nil. -/
theorem ModifyRoute_idempotent_witness :
    (kernelWith none (-1, some EEXIST)).socket .route = none ∧
    (route.AddRoute4 freebsd64 (kernelWith none (-1, some EEXIST))
      (some ⟨[198, 51, 100, 0], [255, 255, 255, 0]⟩) (some [127, 0, 0, 1]) []).out
      = .ret none :=
  ⟨rfl, (ModifyRoute_idempotent freebsd64 (kernelWith none (-1, some EEXIST)) rfl).2.2.1
    ⟨[198, 51, 100, 0], [255, 255, 255, 0]⟩ (some [127, 0, 0, 1]) [] (by decide) (by decide)
    (Or.inl rfl) (fun _ => rfl)⟩

/-! ## Failure of the routing-socket write -/

set_option maxRecDepth 100000 in
/-- C8, counterexample. An add whose write fails with `EPERM` returns
`ErrPermission`, which is not of the `ErrSyscall` kind; and a write that
reports 10 of 144 bytes returns an error that does not wrap `ErrSyscall`. -/
theorem ModifyRoute_failure_not_generic :
    (routing.ModifyRoute freebsd64 (kernelWith none (-1, some EPERM)) true
        ⟨[10, 0, 0, 0], [255, 255, 255, 0]⟩ (some [10, 0, 0, 1]) 0).out
      = .ret (some (.sentinel .ErrPermission)) ∧
    errorsIs (some (.sentinel .ErrPermission)) .ErrSyscall = false ∧
    (routing.ModifyRoute freebsd64 (kernelWith none (10, none)) true
        ⟨[10, 0, 0, 0], [255, 255, 255, 0]⟩ (some [10, 0, 0, 1]) 0).out
      = .ret (some (.plain "incomplete write to routing socket: %d of %d bytes")) ∧
    errorsIs (some (.plain "incomplete write to routing socket: %d of %d bytes")) .ErrSyscall
      = false := by
  refine ⟨by decide, by decide, by decide, by decide⟩

/-- C8, amended. When the routing socket opens: a write that fails with a code `e`
other than the swallowed ones (`EEXIST` on add; `ESRCH`, `ENOENT` on delete)
makes `ModifyRoute` return `MapError(e)`, a non-nil error that is of the
`ErrSyscall` kind exactly when `e` is none of the ten table codes; a write
that succeeds with a byte count other than the message length makes
`ModifyRoute` return a non-nil error. -/
theorem ModifyRoute_write_failure (k : Constants) (env : Kernel)
    (hs : env.socket .route = none) (add : Bool) (dst : IPNet) (gw : Option (List Nat))
    (ifindex : Int) :
    (∀ e, (env.write (routeMessage k add dst gw ifindex)).2 = some e →
      ¬ (add = true ∧ e = EEXIST) → ¬ (add = false ∧ (e = ESRCH ∨ e = ENOENT)) →
      (routing.ModifyRoute k env add dst gw ifindex).out = .ret (MapError e) ∧
      MapError e ≠ none ∧
      (errorsIs (MapError e) .ErrSyscall = true ↔ e ∉ tableCodes)) ∧
    ((env.write (routeMessage k add dst gw ifindex)).2 = none →
      (env.write (routeMessage k add dst gw ifindex)).1
        ≠ ((routeMessage k add dst gw ifindex).length : Int) →
      ∃ err, (routing.ModifyRoute k env add dst gw ifindex).out = .ret (some err)) := by
  constructor
  · intro e he h1 h2
    refine ⟨by simp [routing.ModifyRoute, hs, he, h1, h2], ?_, ?_⟩
    · rcases mapErrno_cases e with ⟨s, -, -, h⟩ | ⟨-, h⟩ <;> simp [MapError, h]
    · rcases mapErrno_cases e with ⟨s, hs', hin, h⟩ | ⟨hout, h⟩
      · simp only [MapError, h, errorsIs, GoError.is_sentinel]
        exact ⟨fun hh => absurd hh.symm hs', fun hh => absurd hin hh⟩
      · simp only [MapError, h, errorsIs, GoError.is_syscallError]
        exact ⟨fun _ => hout, fun _ => trivial⟩
  · intro he hn
    exact ⟨.plain "incomplete write to routing socket: %d of %d bytes",
      by simp [routing.ModifyRoute, hs, he, hn]⟩

/-- Witness of C8 (amended): a kernel that answers the write with `EPERM`. -/
theorem ModifyRoute_write_failure_witness :
    (kernelWith none (-1, some EPERM)).socket .route = none ∧
    (routing.ModifyRoute freebsd64 (kernelWith none (-1, some EPERM)) true
        ⟨[10, 0, 0, 0], [255, 255, 255, 0]⟩ (some [10, 0, 0, 1]) 0).out
      = .ret (MapError EPERM) :=
  ⟨rfl, ((ModifyRoute_write_failure freebsd64 (kernelWith none (-1, some EPERM)) rfl true
    ⟨[10, 0, 0, 0], [255, 255, 255, 0]⟩ (some [10, 0, 0, 1]) 0).1 EPERM rfl
      (by decide) (by decide)).1⟩

/-! ## Idempotency of the ioctl-backed add and delete operations -/

theorem mapErrno_ne_none (e : Errno) : mapErrno e ≠ none := by
  rcases mapErrno_cases e with ⟨s, -, -, h⟩ | ⟨-, h⟩ <;> simp [h]

theorem mapErrno_eq_ErrExists (e : Errno) :
    mapErrno e = some (.sentinel .ErrExists) ↔ e ∈ [EEXIST] := by
  have key : ∀ n : Nat, mapErrno n = some (.sentinel .ErrExists) ↔ n = 17 := by
    intro n
    unfold mapErrno
    simp only [EPERM, EACCES, ENOENT, ENXIO, EEXIST, EINVAL, EBUSY, EOPNOTSUPP, ENETDOWN,
      EADDRINUSE]
    split_ifs <;> simp_all <;> (unfold Errno at *; omega)
  simpa [EEXIST] using key e

theorem mapErrno_eq_ErrNotFound (e : Errno) :
    mapErrno e = some (.sentinel .ErrNotFound) ↔ e ∈ [ENOENT, ENXIO] := by
  have key : ∀ n : Nat, mapErrno n = some (.sentinel .ErrNotFound) ↔ (n = 2 ∨ n = 6) := by
    intro n
    unfold mapErrno
    simp only [EPERM, EACCES, ENOENT, ENXIO, EEXIST, EINVAL, EBUSY, EOPNOTSUPP, ENETDOWN,
      EADDRINUSE]
    split_ifs <;> simp_all
    unfold Errno at *
    omega
  simpa [ENOENT, ENXIO] using key e

theorem issueSwallow_contract (env : Kernel) (kind : SockKind) (req : IoctlReq)
    (s : Sentinel) (codes : List Errno)
    (hc : ∀ e, mapErrno e = some (.sentinel s) ↔ e ∈ codes) :
    returnsNilIffIoctl codes (issueSwallow env kind req s) ∧
    returnsMappedError codes (issueSwallow env kind req s) ∧
    issuesOneIoctl env kind req.request (issueSwallow env kind req s) := by
  refine ⟨?_, ?_, ⟨req, rfl, rfl⟩⟩
  · unfold returnsNilIffIoctl issueSwallow
    cases ha : env.ioctl req with
    | none =>
      exact ⟨fun _ => ⟨req, none, by simp, Or.inl rfl⟩, fun _ => by simp [Ioctl]⟩
    | some e =>
      by_cases he : e ∈ codes
      · exact ⟨fun _ => ⟨req, some e, by simp, Or.inr ⟨e, rfl, he⟩⟩,
          fun _ => by simp [Ioctl, (hc e).2 he]⟩
      · have hne : mapErrno e ≠ some (.sentinel s) := fun h => he ((hc e).1 h)
        constructor
        · intro h
          simp [Ioctl, hne, mapErrno_ne_none] at h
        · rintro ⟨r, ans, hmem, hans⟩
          simp only [List.mem_cons, List.mem_singleton, Event.ioctl.injEq, List.not_mem_nil,
            or_false, false_or, reduceCtorEq] at hmem
          rcases hans with h0 | ⟨e', h1, h2⟩
          · rw [h0] at hmem; exact absurd hmem.2 (by simp)
          · rw [h1] at hmem
            have : e' = e := by simpa using hmem.2
            exact absurd (this ▸ h2) he
  · unfold returnsMappedError issueSwallow
    intro r e hmem hnot
    simp only [List.mem_cons, List.mem_singleton, Event.ioctl.injEq, List.not_mem_nil,
      or_false, false_or, reduceCtorEq] at hmem
    obtain ⟨-, hans⟩ := hmem
    have hne : mapErrno e ≠ some (.sentinel s) := fun h => hnot ((hc e).1 h)
    simp [← hans, Ioctl, hne]

theorem no_ioctl_contract (codes : List Errno) (r : Run (Option GoError))
    (hev : ∀ req ans, Event.ioctl req ans ∉ r.events) (hout : r.out ≠ .ret none) :
    returnsNilIffIoctl codes r ∧ returnsMappedError codes r := by
  constructor
  · unfold returnsNilIffIoctl
    exact ⟨fun h => absurd h hout, fun ⟨req, ans, h, _⟩ => absurd h (hev req ans)⟩
  · intro req e h _
    exact absurd h (hev req _)

theorem endEarly_contract (codes : List Errno) (kind : SockKind)
    (out : Outcome (Option GoError)) (hout : out ≠ .ret none) :
    returnsNilIffIoctl codes (endEarly kind out) ∧ returnsMappedError codes (endEarly kind out) :=
  no_ioctl_contract codes _ (by intro req ans; simp [endEarly]) hout

theorem socketFail_contract (codes : List Errno) (kind : SockKind) (e : Errno) :
    returnsNilIffIoctl codes ⟨[.socket kind (some e)], .ret (mapErrno e)⟩ ∧
    returnsMappedError codes ⟨[.socket kind (some e)], .ret (mapErrno e)⟩ :=
  no_ioctl_contract codes _ (by intro req ans; simp)
    (by intro h; exact mapErrno_ne_none e (by simpa using h))

theorem wrapErr_events (msg : String) (r : Run (Option GoError)) :
    (wrapErr msg r).events = r.events := by
  obtain ⟨ev, out⟩ := r
  cases out with
  | ret v => cases v <;> rfl
  | panic => rfl

theorem wrapErr_nil_iff (msg : String) (r : Run (Option GoError)) :
    (wrapErr msg r).out = .ret none ↔ r.out = .ret none := by
  obtain ⟨ev, out⟩ := r
  cases out with
  | ret v => cases v <;> simp [wrapErr]
  | panic => simp [wrapErr]

theorem wrapErr_contract (codes : List Errno) (msg : String) (r : Run (Option GoError))
    (h : returnsNilIffIoctl codes r) : returnsNilIffIoctl codes (wrapErr msg r) := by
  unfold returnsNilIffIoctl at *
  rw [wrapErr_nil_iff, wrapErr_events]
  exact h

theorem wrapErr_issuesOneIoctl (env : Kernel) (kind : SockKind) (request : Nat) (msg : String)
    (r : Run (Option GoError)) (h : issuesOneIoctl env kind request r) :
    issuesOneIoctl env kind request (wrapErr msg r) := by
  unfold issuesOneIoctl at *
  rw [wrapErr_events]
  exact h

theorem validation_contract (codes : List Errno) (err : GoError) :
    returnsNilIffIoctl codes ⟨[], .ret (some err)⟩ := by
  unfold returnsNilIffIoctl
  simp

theorem CopyString_ok (src : GoString) (maxLen : Nat) (h0 : src ≠ []) (hlt : src.length < maxLen) :
    CopyString src maxLen = .ret src := by
  have hpos : src.length ≠ 0 := fun h => h0 (List.length_eq_zero.mp h)
  have hle : ¬ src.length > maxLen := by omega
  simp [CopyString, hle, hpos]

theorem bridgeops_member_contract (k : Constants) (env : Kernel) (cmd : Nat) (s : Sentinel)
    (codes : List Errno) (hc : ∀ e, mapErrno e = some (.sentinel s) ↔ e ∈ codes)
    (bridge member : GoString) :
    returnsNilIffIoctl codes (bridgeops.member k env cmd s bridge member) ∧
    returnsMappedError codes (bridgeops.member k env cmd s bridge member) := by
  unfold bridgeops.member
  cases env.socket .inet with
  | some e => exact socketFail_contract codes .inet e
  | none =>
    simp only
    split_ifs
    · exact endEarly_contract codes _ _ (by simp)
    · cases CopyString member k.IFNAMSIZ with
      | panic => exact endEarly_contract codes _ _ (by simp)
      | ret a =>
        cases CopyString bridge k.IFNAMSIZ with
        | panic => exact endEarly_contract codes _ _ (by simp)
        | ret b =>
          exact ⟨(issueSwallow_contract env .inet _ s codes hc).1,
            (issueSwallow_contract env .inet _ s codes hc).2.1⟩

theorem bridgeops_member_issues (k : Constants) (env : Kernel) (cmd : Nat) (s : Sentinel)
    (bridge member : GoString) (hs : env.socket .inet = none)
    (hb : bridge ≠ []) (hm : member ≠ [])
    (hbl : bridge.length < k.IFNAMSIZ) (hml : member.length < k.IFNAMSIZ) :
    issuesOneIoctl env .inet k.SIOCSDRVSPEC (bridgeops.member k env cmd s bridge member) := by
  have hn : ¬ (bridge.length ≥ k.IFNAMSIZ ∨ member.length ≥ k.IFNAMSIZ) := by omega
  simp only [bridgeops.member, hs, if_neg hn, CopyString_ok _ _ hb hbl, CopyString_ok _ _ hm hml]
  exact ⟨_, rfl, rfl⟩

theorem cidrBytes_length : ∀ (l n : Nat), (cidrBytes l n).length = l := by
  intro l
  induction l with
  | zero => intro n; rfl
  | succ l ih =>
    intro n
    unfold cidrBytes
    split_ifs <;> simp [ih]

theorem CIDRMask_128_length (p : Int) (h0 : 0 ≤ p) (h1 : p ≤ 128) :
    (bytesOf (CIDRMask p 128)).length = 16 := by
  have hn : ¬ (p < 0 ∨ p > 128) := by omega
  simp [CIDRMask, hn, bytesOf, cidrBytes_length]

theorem ipaddr_Add4_contract (k : Constants) (env : Kernel) (iface : GoString)
    (addr mask : List Nat) :
    returnsNilIffIoctl [EEXIST] (ipaddr.Add4 k env iface addr mask) ∧
    returnsMappedError [EEXIST] (ipaddr.Add4 k env iface addr mask) := by
  unfold ipaddr.Add4
  cases env.socket .inet with
  | some e => exact socketFail_contract _ .inet e
  | none =>
    simp only
    by_cases h1 : iface.length ≥ k.IFNAMSIZ
    · rw [if_pos h1]
      exact endEarly_contract _ _ _ (by simp)
    · rw [if_neg h1]
      cases CopyString iface k.IFNAMSIZ with
      | panic => exact endEarly_contract _ _ _ (by simp)
      | ret a =>
        simp only
        split_ifs <;>
          first
          | exact endEarly_contract _ _ _ (by simp)
          | exact ⟨(issueSwallow_contract env .inet _ _ _ mapErrno_eq_ErrExists).1,
              (issueSwallow_contract env .inet _ _ _ mapErrno_eq_ErrExists).2.1⟩

theorem ipaddr_Del4_contract (k : Constants) (env : Kernel) (iface : GoString)
    (addr mask : List Nat) :
    returnsNilIffIoctl [ENOENT, ENXIO] (ipaddr.Del4 k env iface addr mask) ∧
    returnsMappedError [ENOENT, ENXIO] (ipaddr.Del4 k env iface addr mask) := by
  unfold ipaddr.Del4
  cases env.socket .inet with
  | some e => exact socketFail_contract _ .inet e
  | none =>
    simp only
    by_cases h1 : iface.length ≥ k.IFNAMSIZ
    · rw [if_pos h1]
      exact endEarly_contract _ _ _ (by simp)
    · rw [if_neg h1]
      cases CopyString iface k.IFNAMSIZ with
      | panic => exact endEarly_contract _ _ _ (by simp)
      | ret a =>
        simp only
        split_ifs <;>
          first
          | exact endEarly_contract _ _ _ (by simp)
          | exact ⟨(issueSwallow_contract env .inet _ _ _ mapErrno_eq_ErrNotFound).1,
              (issueSwallow_contract env .inet _ _ _ mapErrno_eq_ErrNotFound).2.1⟩

theorem ipaddr_Add6_contract (k : Constants) (env : Kernel) (iface : GoString)
    (addr : List Nat) (prefixLen : Int) :
    returnsNilIffIoctl [EEXIST] (ipaddr.Add6 k env iface addr prefixLen) ∧
    returnsMappedError [EEXIST] (ipaddr.Add6 k env iface addr prefixLen) := by
  unfold ipaddr.Add6
  cases env.socket .inet6 with
  | some e => exact socketFail_contract _ .inet6 e
  | none =>
    simp only
    by_cases h1 : iface.length ≥ k.IFNAMSIZ
    · rw [if_pos h1]
      exact endEarly_contract _ _ _ (by simp)
    · rw [if_neg h1]
      cases CopyString iface k.IFNAMSIZ with
      | panic => exact endEarly_contract _ _ _ (by simp)
      | ret a =>
        simp only
        split_ifs <;>
          first
          | exact endEarly_contract _ _ _ (by simp)
          | exact ⟨(issueSwallow_contract env .inet6 _ _ _ mapErrno_eq_ErrExists).1,
              (issueSwallow_contract env .inet6 _ _ _ mapErrno_eq_ErrExists).2.1⟩

theorem ipaddr_Del6_contract (k : Constants) (env : Kernel) (iface : GoString)
    (addr : List Nat) (prefixLen : Int) :
    returnsNilIffIoctl [ENOENT, ENXIO] (ipaddr.Del6 k env iface addr prefixLen) ∧
    returnsMappedError [ENOENT, ENXIO] (ipaddr.Del6 k env iface addr prefixLen) := by
  unfold ipaddr.Del6
  cases env.socket .inet6 with
  | some e => exact socketFail_contract _ .inet6 e
  | none =>
    simp only
    by_cases h1 : iface.length ≥ k.IFNAMSIZ
    · rw [if_pos h1]
      exact endEarly_contract _ _ _ (by simp)
    · rw [if_neg h1]
      cases CopyString iface k.IFNAMSIZ with
      | panic => exact endEarly_contract _ _ _ (by simp)
      | ret a =>
        simp only
        split_ifs <;>
          first
          | exact endEarly_contract _ _ _ (by simp)
          | exact ⟨(issueSwallow_contract env .inet6 _ _ _ mapErrno_eq_ErrNotFound).1,
              (issueSwallow_contract env .inet6 _ _ _ mapErrno_eq_ErrNotFound).2.1⟩

theorem ipaddr_Add4_issues (k : Constants) (env : Kernel) (iface : GoString)
    (ip mask : List Nat) (hs : env.socket .inet = none) (h0 : iface ≠ [])
    (hl : iface.length < k.IFNAMSIZ) (hip : 4 ≤ ip.length) (hmask : 4 ≤ mask.length) :
    issuesOneIoctl env .inet k.SIOCAIFADDR (ipaddr.Add4 k env iface ip mask) := by
  have h1 : ¬ iface.length ≥ k.IFNAMSIZ := by omega
  have h2 : ¬ ip.length = 0 := by omega
  have h3 : ¬ mask.length = 0 := by omega
  have h4 : ¬ (ip.length < 4 ∨ mask.length < 4) := by omega
  simp only [ipaddr.Add4, hs, if_neg h1, CopyString_ok _ _ h0 hl, if_neg h2, if_neg h3,
    if_neg h4]
  exact ⟨_, rfl, rfl⟩

theorem ipaddr_Del4_issues (k : Constants) (env : Kernel) (iface : GoString)
    (ip mask : List Nat) (hs : env.socket .inet = none) (h0 : iface ≠ [])
    (hl : iface.length < k.IFNAMSIZ) (hip : ip ≠ []) :
    issuesOneIoctl env .inet k.SIOCDIFADDR (ipaddr.Del4 k env iface ip mask) := by
  have h1 : ¬ iface.length ≥ k.IFNAMSIZ := by omega
  have h2 : ¬ ip.length = 0 := fun h => hip (List.length_eq_zero.mp h)
  simp only [ipaddr.Del4, hs, if_neg h1, CopyString_ok _ _ h0 hl, if_neg h2]
  exact ⟨_, rfl, rfl⟩

theorem ipaddr_Add6_issues (k : Constants) (env : Kernel) (iface : GoString)
    (ip : List Nat) (prefixLen : Int) (hs : env.socket .inet6 = none) (h0 : iface ≠ [])
    (hl : iface.length < k.IFNAMSIZ) (hip : ip ≠ []) (hp0 : 0 ≤ prefixLen)
    (hp1 : prefixLen ≤ 128) :
    issuesOneIoctl env .inet6 k.SIOCAIFADDR_IN6 (ipaddr.Add6 k env iface ip prefixLen) := by
  have h1 : ¬ iface.length ≥ k.IFNAMSIZ := by omega
  have h2 : ¬ ip.length = 0 := fun h => hip (List.length_eq_zero.mp h)
  have h3 : ¬ (bytesOf (CIDRMask prefixLen 128)).length = 0 := by
    rw [CIDRMask_128_length prefixLen hp0 hp1]; norm_num
  simp only [ipaddr.Add6, hs, if_neg h1, CopyString_ok _ _ h0 hl, if_neg h2, if_neg h3]
  exact ⟨_, rfl, rfl⟩

theorem ipaddr_Del6_issues (k : Constants) (env : Kernel) (iface : GoString)
    (ip : List Nat) (prefixLen : Int) (hs : env.socket .inet6 = none) (h0 : iface ≠ [])
    (hl : iface.length < k.IFNAMSIZ) (hip : ip ≠ []) :
    issuesOneIoctl env .inet6 k.SIOCDIFADDR_IN6 (ipaddr.Del6 k env iface ip prefixLen) := by
  have h1 : ¬ iface.length ≥ k.IFNAMSIZ := by omega
  have h2 : ¬ ip.length = 0 := fun h => hip (List.length_eq_zero.mp h)
  simp only [ipaddr.Del6, hs, if_neg h1, CopyString_ok _ _ h0 hl, if_neg h2]
  exact ⟨_, rfl, rfl⟩

theorem ip_Add4_contract (k : Constants) (env : Kernel) (iface : GoString) (addr mask : List Nat) :
    returnsNilIffIoctl [EEXIST] (ip.Add4 k env iface addr mask) := by
  unfold ip.Add4 NewValidationError
  split_ifs
  · exact validation_contract _ _
  · exact validation_contract _ _
  · exact wrapErr_contract _ _ _ (ipaddr_Add4_contract k env iface _ mask).1

theorem ip_Del4_contract (k : Constants) (env : Kernel) (iface : GoString) (addr mask : List Nat) :
    returnsNilIffIoctl [ENOENT, ENXIO] (ip.Del4 k env iface addr mask) := by
  unfold ip.Del4 NewValidationError
  split_ifs
  · exact validation_contract _ _
  · exact validation_contract _ _
  · exact wrapErr_contract _ _ _ (ipaddr_Del4_contract k env iface _ mask).1

theorem ip_Add6_contract (k : Constants) (env : Kernel) (iface : GoString) (addr : List Nat)
    (prefixLen : Int) :
    returnsNilIffIoctl [EEXIST] (ip.Add6 k env iface addr prefixLen) := by
  unfold ip.Add6 NewValidationError
  split_ifs
  · exact validation_contract _ _
  · exact validation_contract _ _
  · exact wrapErr_contract _ _ _ (ipaddr_Add6_contract k env iface addr prefixLen).1

theorem ip_Del6_contract (k : Constants) (env : Kernel) (iface : GoString) (addr : List Nat)
    (prefixLen : Int) :
    returnsNilIffIoctl [ENOENT, ENXIO] (ip.Del6 k env iface addr prefixLen) := by
  unfold ip.Del6 NewValidationError
  split_ifs
  · exact validation_contract _ _
  · exact validation_contract _ _
  · exact wrapErr_contract _ _ _ (ipaddr_Del6_contract k env iface addr prefixLen).1

theorem ip4_reaches (k : Constants) (env : Kernel) (iface : GoString) (addr mask : List Nat)
    (hs : env.socket .inet = none) (h0 : iface ≠ []) (hl : iface.length < k.IFNAMSIZ)
    (ha : To4 addr ≠ none) (hm : mask.length = 4) :
    issuesOneIoctl env .inet k.SIOCAIFADDR (ip.Add4 k env iface addr mask) ∧
    issuesOneIoctl env .inet k.SIOCDIFADDR (ip.Del4 k env iface addr mask) := by
  obtain ⟨a, hsome⟩ := Option.ne_none_iff_exists'.mp ha
  have hlen : 4 ≤ (bytesOf (To4 addr)).length := by
    rw [hsome, bytesOf_some, To4_some_length hsome]
  have hne : bytesOf (To4 addr) ≠ [] := by
    intro h; rw [h] at hlen; simp at hlen
  have hm' : ¬ mask.length ≠ 4 := by omega
  constructor
  · simp only [ip.Add4, if_neg ha, if_neg hm']
    exact wrapErr_issuesOneIoctl _ _ _ _ _
      (ipaddr_Add4_issues k env iface _ mask hs h0 hl hlen (by omega))
  · simp only [ip.Del4, if_neg ha, if_neg hm']
    exact wrapErr_issuesOneIoctl _ _ _ _ _ (ipaddr_Del4_issues k env iface _ mask hs h0 hl hne)

theorem ip6_reaches (k : Constants) (env : Kernel) (iface : GoString) (addr : List Nat)
    (prefixLen : Int) (hs : env.socket .inet6 = none) (h0 : iface ≠ [])
    (hl : iface.length < k.IFNAMSIZ) (ha : To4 addr = none) (hne : addr ≠ [])
    (hp0 : 0 ≤ prefixLen) (hp1 : prefixLen ≤ 128) :
    issuesOneIoctl env .inet6 k.SIOCAIFADDR_IN6 (ip.Add6 k env iface addr prefixLen) ∧
    issuesOneIoctl env .inet6 k.SIOCDIFADDR_IN6 (ip.Del6 k env iface addr prefixLen) := by
  have ha' : ¬ To4 addr ≠ none := by simp [ha]
  have hp : ¬ (prefixLen < 0 ∨ prefixLen > 128) := by omega
  constructor
  · simp only [ip.Add6, if_neg ha', if_neg hp]
    exact wrapErr_issuesOneIoctl _ _ _ _ _
      (ipaddr_Add6_issues k env iface addr prefixLen hs h0 hl hne hp0 hp1)
  · simp only [ip.Del6, if_neg ha', if_neg hp]
    exact wrapErr_issuesOneIoctl _ _ _ _ _
      (ipaddr_Del6_issues k env iface addr prefixLen hs h0 hl hne)

/-- C9. For every kernel, names, address, mask and prefix length: each add
operation (`bridgeops.AddMember`, `ipaddr.Add4`, `ipaddr.Add6`) returns nil
exactly when it issued its ioctl and the ioctl succeeded or failed with
`EEXIST`; each delete operation (`bridgeops.DelMember`, `ipaddr.Del4`,
`ipaddr.Del6`) returns nil exactly when it issued its ioctl and the ioctl
succeeded or failed with `ENOENT` or `ENXIO`; an ioctl failure with any other
code is returned as `mapErrno` of that code; and the public wrappers return
nil in exactly the same cases. The ioctl is issued whenever the control socket
opens, the names are non-empty and shorter than `IFNAMSIZ` and the address
arguments pass the wrapper's validation (with an empty name or an empty
address the transport function panics before the ioctl and returns nothing). -/
theorem add_del_idempotent (k : Constants) (env : Kernel) (br mem iface : GoString)
    (addr mask : List Nat) (prefixLen : Int) :
    (returnsNilIffIoctl [EEXIST] (bridgeops.AddMember k env br mem) ∧
      returnsMappedError [EEXIST] (bridgeops.AddMember k env br mem)) ∧
    (returnsNilIffIoctl [EEXIST] (ipaddr.Add4 k env iface addr mask) ∧
      returnsMappedError [EEXIST] (ipaddr.Add4 k env iface addr mask)) ∧
    (returnsNilIffIoctl [EEXIST] (ipaddr.Add6 k env iface addr prefixLen) ∧
      returnsMappedError [EEXIST] (ipaddr.Add6 k env iface addr prefixLen)) ∧
    (returnsNilIffIoctl [ENOENT, ENXIO] (bridgeops.DelMember k env br mem) ∧
      returnsMappedError [ENOENT, ENXIO] (bridgeops.DelMember k env br mem)) ∧
    (returnsNilIffIoctl [ENOENT, ENXIO] (ipaddr.Del4 k env iface addr mask) ∧
      returnsMappedError [ENOENT, ENXIO] (ipaddr.Del4 k env iface addr mask)) ∧
    (returnsNilIffIoctl [ENOENT, ENXIO] (ipaddr.Del6 k env iface addr prefixLen) ∧
      returnsMappedError [ENOENT, ENXIO] (ipaddr.Del6 k env iface addr prefixLen)) ∧
    (returnsNilIffIoctl [EEXIST] (bridge.AddMember k env br mem) ∧
      returnsNilIffIoctl [ENOENT, ENXIO] (bridge.DelMember k env br mem) ∧
      returnsNilIffIoctl [EEXIST] (ip.Add4 k env iface addr mask) ∧
      returnsNilIffIoctl [ENOENT, ENXIO] (ip.Del4 k env iface addr mask) ∧
      returnsNilIffIoctl [EEXIST] (ip.Add6 k env iface addr prefixLen) ∧
      returnsNilIffIoctl [ENOENT, ENXIO] (ip.Del6 k env iface addr prefixLen)) ∧
    (env.socket .inet = none → br ≠ [] → mem ≠ [] →
      br.length < k.IFNAMSIZ → mem.length < k.IFNAMSIZ →
      issuesOneIoctl env .inet k.SIOCSDRVSPEC (bridgeops.AddMember k env br mem) ∧
      issuesOneIoctl env .inet k.SIOCSDRVSPEC (bridgeops.DelMember k env br mem) ∧
      issuesOneIoctl env .inet k.SIOCSDRVSPEC (bridge.AddMember k env br mem) ∧
      issuesOneIoctl env .inet k.SIOCSDRVSPEC (bridge.DelMember k env br mem)) ∧
    (env.socket .inet = none → iface ≠ [] → iface.length < k.IFNAMSIZ →
      4 ≤ addr.length → 4 ≤ mask.length →
      issuesOneIoctl env .inet k.SIOCAIFADDR (ipaddr.Add4 k env iface addr mask) ∧
      issuesOneIoctl env .inet k.SIOCDIFADDR (ipaddr.Del4 k env iface addr mask)) ∧
    (env.socket .inet6 = none → iface ≠ [] → iface.length < k.IFNAMSIZ → addr ≠ [] →
      0 ≤ prefixLen → prefixLen ≤ 128 →
      issuesOneIoctl env .inet6 k.SIOCAIFADDR_IN6 (ipaddr.Add6 k env iface addr prefixLen) ∧
      issuesOneIoctl env .inet6 k.SIOCDIFADDR_IN6 (ipaddr.Del6 k env iface addr prefixLen)) ∧
    (env.socket .inet = none → iface ≠ [] → iface.length < k.IFNAMSIZ →
      To4 addr ≠ none → mask.length = 4 →
      issuesOneIoctl env .inet k.SIOCAIFADDR (ip.Add4 k env iface addr mask) ∧
      issuesOneIoctl env .inet k.SIOCDIFADDR (ip.Del4 k env iface addr mask)) ∧
    (env.socket .inet6 = none → iface ≠ [] → iface.length < k.IFNAMSIZ →
      To4 addr = none → addr ≠ [] → 0 ≤ prefixLen → prefixLen ≤ 128 →
      issuesOneIoctl env .inet6 k.SIOCAIFADDR_IN6 (ip.Add6 k env iface addr prefixLen) ∧
      issuesOneIoctl env .inet6 k.SIOCDIFADDR_IN6 (ip.Del6 k env iface addr prefixLen)) := by
  have hadd := bridgeops_member_contract k env k.BRDGADD .ErrExists [EEXIST]
    mapErrno_eq_ErrExists br mem
  have hdel := bridgeops_member_contract k env k.BRDGDEL .ErrNotFound [ENOENT, ENXIO]
    mapErrno_eq_ErrNotFound br mem
  refine ⟨hadd, ipaddr_Add4_contract k env iface addr mask,
    ipaddr_Add6_contract k env iface addr prefixLen, hdel,
    ipaddr_Del4_contract k env iface addr mask, ipaddr_Del6_contract k env iface addr prefixLen,
    ⟨wrapErr_contract _ _ _ hadd.1, wrapErr_contract _ _ _ hdel.1,
      ip_Add4_contract k env iface addr mask, ip_Del4_contract k env iface addr mask,
      ip_Add6_contract k env iface addr prefixLen, ip_Del6_contract k env iface addr prefixLen⟩,
    ?_, ?_, ?_, ?_, ?_⟩
  · intro hs hb hm hbl hml
    have ia := bridgeops_member_issues k env k.BRDGADD .ErrExists br mem hs hb hm hbl hml
    have id := bridgeops_member_issues k env k.BRDGDEL .ErrNotFound br mem hs hb hm hbl hml
    exact ⟨ia, id, wrapErr_issuesOneIoctl _ _ _ _ _ ia, wrapErr_issuesOneIoctl _ _ _ _ _ id⟩
  · intro hs h0 hl ha hm
    exact ⟨ipaddr_Add4_issues k env iface addr mask hs h0 hl ha hm,
      ipaddr_Del4_issues k env iface addr mask hs h0 hl
        (by intro h; rw [h] at ha; simp at ha)⟩
  · intro hs h0 hl hne hp0 hp1
    exact ⟨ipaddr_Add6_issues k env iface addr prefixLen hs h0 hl hne hp0 hp1,
      ipaddr_Del6_issues k env iface addr prefixLen hs h0 hl hne⟩
  · intro hs h0 hl ha hm
    exact ip4_reaches k env iface addr mask hs h0 hl ha hm
  · intro hs h0 hl ha hne hp0 hp1
    exact ip6_reaches k env iface addr prefixLen hs h0 hl ha hne hp0 hp1

/-- Witness of C9: on a kernel that answers every ioctl with `EEXIST`, adding the
member "em0" to "bridge0" issues one `SIOCSDRVSPEC` ioctl. -/
theorem add_del_idempotent_witness :
    issuesOneIoctl (kernelWith (some EEXIST) (0, none)) .inet freebsd64.SIOCSDRVSPEC
      (bridge.AddMember freebsd64 (kernelWith (some EEXIST) (0, none))
        [98, 114, 105, 100, 103, 101, 48] [101, 109, 48]) :=
  ((add_del_idempotent freebsd64 (kernelWith (some EEXIST) (0, none))
      [98, 114, 105, 100, 103, 101, 48] [101, 109, 48] [101, 109, 48] [10, 0, 0, 1]
      [255, 255, 255, 0] 64).2.2.2.2.2.2.2.1 rfl (by decide) (by decide) (by decide)
      (by decide)).2.2.1

/-! ## VLAN tag validation -/

theorem vlanops_Configure_rejects (k : Constants) (env : Kernel) (name parent : GoString)
    (tag : Nat) (hs : env.socket .inet = none) (hn : name.length < k.IFNAMSIZ)
    (hp : parent.length < k.IFNAMSIZ) (ht : tag = 0 ∨ tag > 4094) :
    vlanops.Configure k env name tag parent
      = endEarly .inet
          (.ret (NewValidationError "tag" (sprintfD tag) "must be between 1 and 4094")) := by
  have h1 : ¬ (name.length ≥ k.IFNAMSIZ ∨ parent.length ≥ k.IFNAMSIZ) := by omega
  simp only [vlanops.Configure, hs, if_neg h1, if_pos ht]

theorem vlanops_Configure_issues (k : Constants) (env : Kernel) (name parent : GoString)
    (tag : Nat) (hs : env.socket .inet = none) (hn : name.length < k.IFNAMSIZ)
    (hp : parent.length < k.IFNAMSIZ) (hn0 : name ≠ []) (hp0 : parent ≠ [])
    (h1 : 1 ≤ tag) (h2 : tag ≤ 4094) :
    vlanops.Configure k env name tag parent
      = ⟨[.socket .inet none,
          .ioctl ⟨k.SIOCSETVLAN, none, name, parent, tag⟩
            (env.ioctl ⟨k.SIOCSETVLAN, none, name, parent, tag⟩),
          .close .inet],
         .ret (Ioctl (env.ioctl ⟨k.SIOCSETVLAN, none, name, parent, tag⟩))⟩ := by
  have hl : ¬ (name.length ≥ k.IFNAMSIZ ∨ parent.length ≥ k.IFNAMSIZ) := by omega
  have ht : ¬ (tag = 0 ∨ tag > 4094) := by omega
  simp only [vlanops.Configure, hs, if_neg hl, if_neg ht, CopyString_ok _ _ hn0 hn,
    CopyString_ok _ _ hp0 hp]

theorem vlanops_Configure_ioctl_only_valid (k : Constants) (env : Kernel)
    (name parent : GoString) (tag : Nat) (req : IoctlReq) (ans : Option Errno)
    (h : Event.ioctl req ans ∈ (vlanops.Configure k env name tag parent).events) :
    1 ≤ tag ∧ tag ≤ 4094 := by
  unfold vlanops.Configure at h
  cases hs : env.socket .inet with
  | some e => simp [hs] at h
  | none =>
    simp only [hs] at h
    by_cases hl : name.length ≥ k.IFNAMSIZ ∨ parent.length ≥ k.IFNAMSIZ
    · rw [if_pos hl] at h; simp [endEarly] at h
    · rw [if_neg hl] at h
      by_cases ht : tag = 0 ∨ tag > 4094
      · rw [if_pos ht] at h; simp [endEarly] at h
      · omega

/-- C10, evaluated. With the control socket open and both names shorter than
`IFNAMSIZ`: a tag of 0 or above 4094 makes `vlanops.Configure` and
`vlan.Configure` return an error of kind `ErrInvalidArgument` without any
ioctl; an ioctl is issued only for a tag in 1..4094; and for non-empty names
every tag in 1..4094 reaches the `SIOCSETVLAN` ioctl with that tag. But with an
empty parent name and the valid tag 100, `Configure("vlan0", 100, "")` panics
in `CopyString` and issues no ioctl. -/
theorem vlan_Configure_tag_gate :
    vlanops.Configure freebsd64 (kernelWith none (0, none)) [118, 108, 97, 110, 48] 100 []
      = ⟨[.socket .inet none, .close .inet], .panic⟩ ∧
    vlan.Configure freebsd64 (kernelWith none (0, none)) [118, 108, 97, 110, 48] 100 []
      = ⟨[.socket .inet none, .close .inet], .panic⟩ ∧
    (∀ (k : Constants) (env : Kernel) (name parent : GoString) (tag : Nat),
      env.socket .inet = none → name.length < k.IFNAMSIZ → parent.length < k.IFNAMSIZ →
      ((tag = 0 ∨ tag > 4094) →
        (∀ req ans, Event.ioctl req ans ∉ (vlanops.Configure k env name tag parent).events) ∧
        (∀ req ans, Event.ioctl req ans ∉ (vlan.Configure k env name tag parent).events) ∧
        (∃ err, (vlanops.Configure k env name tag parent).out = .ret (some err) ∧
          errorsIs (some err) .ErrInvalidArgument = true) ∧
        (∃ err, (vlan.Configure k env name tag parent).out = .ret (some err) ∧
          errorsIs (some err) .ErrInvalidArgument = true)) ∧
      ((∃ req ans, Event.ioctl req ans ∈ (vlanops.Configure k env name tag parent).events) →
        1 ≤ tag ∧ tag ≤ 4094) ∧
      (name ≠ [] → parent ≠ [] → 1 ≤ tag → tag ≤ 4094 →
        ∃ req, req.request = k.SIOCSETVLAN ∧ req.num = tag ∧
          (vlanops.Configure k env name tag parent).events
            = [.socket .inet none, .ioctl req (env.ioctl req), .close .inet] ∧
          (vlan.Configure k env name tag parent).events
            = [.socket .inet none, .ioctl req (env.ioctl req), .close .inet])) := by
  refine ⟨by decide, by decide, ?_⟩
  intro k env name parent tag hs hn hp
  refine ⟨fun ht => ?_, fun ⟨req, ans, h⟩ => vlanops_Configure_ioctl_only_valid k env _ _ _ _ _ h,
    fun hn0 hp0 h1 h2 => ?_⟩
  · have e := vlanops_Configure_rejects k env name parent tag hs hn hp ht
    refine ⟨?_, ?_, ?_, ?_⟩
    · intro req ans; rw [e]; simp [endEarly]
    · intro req ans; rw [vlan.Configure, wrapErr_events, e]; simp [endEarly]
    · exact ⟨.validation "tag" (sprintfD tag) "must be between 1 and 4094",
        by rw [e]; rfl, rfl⟩
    · exact ⟨.wrapped "configure vlan %s (tag=%d, parent=%s): %w"
          (.validation "tag" (sprintfD tag) "must be between 1 and 4094"),
        by rw [vlan.Configure, e]; rfl, rfl⟩
  · have e := vlanops_Configure_issues k env name parent tag hs hn hp hn0 hp0 h1 h2
    refine ⟨⟨k.SIOCSETVLAN, none, name, parent, tag⟩, rfl, rfl, ?_, ?_⟩
    · rw [e]
    · rw [vlan.Configure, wrapErr_events, e]

/-! ## Scoped acquisition of the socket -/

theorem scoped_open {α : Type} (env : Kernel) (kind : SockKind) (r : Run α)
    (hs : env.socket kind = none) (mid : List Event)
    (he : r.events = .socket kind none :: (mid ++ [.close kind]))
    (hm : ∀ ev, ev ∈ mid → ev.usesSocket = true) : socketScoped env kind r := by
  unfold socketScoped
  rw [hs]
  exact ⟨mid, he, hm⟩

theorem scoped_fail {α : Type} (env : Kernel) (kind : SockKind) (r : Run α) (e : Errno)
    (hs : env.socket kind = some e) (he : r.events = [.socket kind (some e)]) :
    socketScoped env kind r := by
  unfold socketScoped
  rw [hs]
  exact he

theorem endEarly_scoped (env : Kernel) (kind : SockKind) (out : Outcome (Option GoError))
    (hs : env.socket kind = none) : socketScoped env kind (endEarly kind out) :=
  scoped_open env kind _ hs [] rfl (by simp)

theorem issueSwallow_scoped (env : Kernel) (kind : SockKind) (req : IoctlReq) (s : Sentinel)
    (hs : env.socket kind = none) : socketScoped env kind (issueSwallow env kind req s) :=
  scoped_open env kind _ hs [.ioctl req (env.ioctl req)] rfl (by simp [Event.usesSocket])

theorem withSocket_scoped {α : Type} (env : Kernel) (kind : SockKind)
    (fail : Option GoError → α) (body : Run α)
    (hb : ∀ ev, ev ∈ body.events → ev.usesSocket = true) :
    socketScoped env kind (withSocket env kind fail body) := by
  cases hs : env.socket kind with
  | some e => exact scoped_fail env kind _ e hs (by simp [withSocket, hs])
  | none => exact scoped_open env kind _ hs body.events (by simp [withSocket, hs]) hb

theorem errorOf_events {α : Type} (f : α → Option GoError) (r : Run α) :
    (errorOf f r).events = r.events := by
  unfold errorOf
  cases r.out <;> rfl

theorem errorOf_scoped {α : Type} (env : Kernel) (kind : SockKind) (f : α → Option GoError)
    (r : Run α) (h : socketScoped env kind r) : socketScoped env kind (errorOf f r) := by
  unfold socketScoped at *
  rw [errorOf_events]
  exact h

theorem wrapErr_scoped (env : Kernel) (kind : SockKind) (msg : String)
    (r : Run (Option GoError)) (h : socketScoped env kind r) :
    socketScoped env kind (wrapErr msg r) := by
  unfold socketScoped at *
  rw [wrapErr_events]
  exact h

theorem scoped_events_ne_nil {α : Type} (env : Kernel) (kind : SockKind) (r : Run α)
    (h : socketScoped env kind r) : r.events ≠ [] := by
  unfold socketScoped at h
  cases hs : env.socket kind with
  | some e => rw [hs] at h; simp [h]
  | none =>
    rw [hs] at h
    obtain ⟨mid, he, -⟩ := h
    simp [he]

theorem checkedName_events {α : Type} (k : Constants) (name : GoString) (tooLong : α)
    (cont : List Nat → Run α) (ev : Event) (h : ev ∈ (checkedName k name tooLong cont).events) :
    name ≠ [] ∧ name.length < k.IFNAMSIZ ∧ ev ∈ (cont name).events := by
  unfold checkedName at h
  by_cases hl : name.length ≥ k.IFNAMSIZ
  · rw [if_pos hl] at h; simp at h
  · rw [if_neg hl] at h
    by_cases h0 : name = []
    · subst h0
      simp [CopyString] at h
    · rw [CopyString_ok _ _ h0 (by omega)] at h
      exact ⟨h0, by omega, h⟩

theorem checkedNames_events {α : Type} (k : Constants) (first second : GoString) (tooLong : α)
    (cont : List Nat → List Nat → Run α) (ev : Event)
    (h : ev ∈ (checkedNames k first second tooLong cont).events) :
    first ≠ [] ∧ second ≠ [] ∧ first.length < k.IFNAMSIZ ∧ second.length < k.IFNAMSIZ ∧
      ev ∈ (cont first second).events := by
  unfold checkedNames at h
  by_cases hl : first.length ≥ k.IFNAMSIZ ∨ second.length ≥ k.IFNAMSIZ
  · rw [if_pos hl] at h; simp at h
  · rw [if_neg hl] at h
    by_cases h1 : first = []
    · subst h1
      simp [CopyString] at h
    · rw [CopyString_ok _ _ h1 (by omega)] at h
      by_cases h2 : second = []
      · subst h2
        simp [CopyString] at h
      · rw [CopyString_ok _ _ h2 (by omega)] at h
        exact ⟨h1, h2, by omega, by omega, h⟩

theorem checkedName_long {α : Type} (k : Constants) (name : GoString) (tooLong : α)
    (cont : List Nat → Run α) (h : k.IFNAMSIZ ≤ name.length) :
    checkedName k name tooLong cont = ⟨[], .ret tooLong⟩ := by
  simp [checkedName, h]

theorem checkedNames_long {α : Type} (k : Constants) (first second : GoString) (tooLong : α)
    (cont : List Nat → List Nat → Run α)
    (h : k.IFNAMSIZ ≤ first.length ∨ k.IFNAMSIZ ≤ second.length) :
    checkedNames k first second tooLong cont = ⟨[], .ret tooLong⟩ := by
  simp [checkedNames, h]

theorem checkedName_ok {α : Type} (k : Constants) (name : GoString) (tooLong : α)
    (cont : List Nat → Run α) (h0 : name ≠ []) (h : name.length < k.IFNAMSIZ) :
    checkedName k name tooLong cont = cont name := by
  have hl : ¬ name.length ≥ k.IFNAMSIZ := by omega
  simp [checkedName, hl, CopyString_ok _ _ h0 h]

theorem checkedNames_ok {α : Type} (k : Constants) (first second : GoString) (tooLong : α)
    (cont : List Nat → List Nat → Run α) (h1 : first ≠ []) (h2 : second ≠ [])
    (hl1 : first.length < k.IFNAMSIZ) (hl2 : second.length < k.IFNAMSIZ) :
    checkedNames k first second tooLong cont = cont first second := by
  have hl : ¬ (first.length ≥ k.IFNAMSIZ ∨ second.length ≥ k.IFNAMSIZ) := by omega
  simp [checkedNames, hl, CopyString_ok _ _ h1 hl1, CopyString_ok _ _ h2 hl2]

theorem withSocket_open {α : Type} (env : Kernel) (kind : SockKind)
    (fail : Option GoError → α) (body : Run α) (hs : env.socket kind = none) :
    withSocket env kind fail body
      = ⟨.socket kind none :: (body.events ++ [.close kind]), body.out⟩ := by
  simp [withSocket, hs]

theorem withSocket_fail {α : Type} (env : Kernel) (kind : SockKind)
    (fail : Option GoError → α) (body : Run α) (e : Errno) (hs : env.socket kind = some e) :
    withSocket env kind fail body = ⟨[.socket kind (some e)], .ret (fail (mapErrno e))⟩ := by
  simp [withSocket, hs]

theorem withSocket_ioctl_mem {α : Type} (env : Kernel) (kind : SockKind)
    (fail : Option GoError → α) (body : Run α) (req : IoctlReq) (ans : Option Errno)
    (h : Event.ioctl req ans ∈ (withSocket env kind fail body).events) :
    Event.ioctl req ans ∈ body.events := by
  unfold withSocket at h
  cases hs : env.socket kind with
  | some e => simp [hs] at h
  | none => simpa [hs] using h

theorem bridgeops_member_scoped (k : Constants) (env : Kernel) (cmd : Nat) (s : Sentinel)
    (bridge member : GoString) :
    socketScoped env .inet (bridgeops.member k env cmd s bridge member) := by
  unfold bridgeops.member
  cases hs : env.socket .inet with
  | some e => exact scoped_fail env .inet _ e hs rfl
  | none =>
    simp only
    split_ifs
    · exact endEarly_scoped env _ _ hs
    · cases CopyString member k.IFNAMSIZ with
      | panic => exact endEarly_scoped env _ _ hs
      | ret a =>
        cases CopyString bridge k.IFNAMSIZ with
        | panic => exact endEarly_scoped env _ _ hs
        | ret b => exact issueSwallow_scoped env _ _ _ hs

theorem vlanops_Configure_scoped (k : Constants) (env : Kernel) (name parent : GoString)
    (tag : Nat) : socketScoped env .inet (vlanops.Configure k env name tag parent) := by
  unfold vlanops.Configure
  cases hs : env.socket .inet with
  | some e => exact scoped_fail env .inet _ e hs rfl
  | none =>
    simp only
    by_cases h1 : name.length ≥ k.IFNAMSIZ ∨ parent.length ≥ k.IFNAMSIZ
    · rw [if_pos h1]; exact endEarly_scoped env _ _ hs
    · rw [if_neg h1]
      by_cases h2 : tag = 0 ∨ tag > 4094
      · rw [if_pos h2]; exact endEarly_scoped env _ _ hs
      · rw [if_neg h2]
        cases CopyString parent k.IFNAMSIZ with
        | panic => exact endEarly_scoped env _ _ hs
        | ret a =>
          cases CopyString name k.IFNAMSIZ with
          | panic => exact endEarly_scoped env _ _ hs
          | ret b =>
            exact scoped_open env .inet _ hs [.ioctl _ _] rfl (by simp [Event.usesSocket])

theorem ipaddr_Add4_scoped (k : Constants) (env : Kernel) (iface : GoString)
    (addr mask : List Nat) : socketScoped env .inet (ipaddr.Add4 k env iface addr mask) := by
  unfold ipaddr.Add4
  cases hs : env.socket .inet with
  | some e => exact scoped_fail env .inet _ e hs rfl
  | none =>
    simp only
    by_cases h1 : iface.length ≥ k.IFNAMSIZ
    · rw [if_pos h1]; exact endEarly_scoped env _ _ hs
    · rw [if_neg h1]
      cases CopyString iface k.IFNAMSIZ with
      | panic => exact endEarly_scoped env _ _ hs
      | ret a =>
        simp only
        split_ifs <;>
          first
          | exact endEarly_scoped env _ _ hs
          | exact issueSwallow_scoped env _ _ _ hs

theorem ipaddr_Del4_scoped (k : Constants) (env : Kernel) (iface : GoString)
    (addr mask : List Nat) : socketScoped env .inet (ipaddr.Del4 k env iface addr mask) := by
  unfold ipaddr.Del4
  cases hs : env.socket .inet with
  | some e => exact scoped_fail env .inet _ e hs rfl
  | none =>
    simp only
    by_cases h1 : iface.length ≥ k.IFNAMSIZ
    · rw [if_pos h1]; exact endEarly_scoped env _ _ hs
    · rw [if_neg h1]
      cases CopyString iface k.IFNAMSIZ with
      | panic => exact endEarly_scoped env _ _ hs
      | ret a =>
        simp only
        split_ifs <;>
          first
          | exact endEarly_scoped env _ _ hs
          | exact issueSwallow_scoped env _ _ _ hs

theorem ipaddr_Add6_scoped (k : Constants) (env : Kernel) (iface : GoString)
    (addr : List Nat) (prefixLen : Int) :
    socketScoped env .inet6 (ipaddr.Add6 k env iface addr prefixLen) := by
  unfold ipaddr.Add6
  cases hs : env.socket .inet6 with
  | some e => exact scoped_fail env .inet6 _ e hs rfl
  | none =>
    simp only
    by_cases h1 : iface.length ≥ k.IFNAMSIZ
    · rw [if_pos h1]; exact endEarly_scoped env _ _ hs
    · rw [if_neg h1]
      cases CopyString iface k.IFNAMSIZ with
      | panic => exact endEarly_scoped env _ _ hs
      | ret a =>
        simp only
        split_ifs <;>
          first
          | exact endEarly_scoped env _ _ hs
          | exact issueSwallow_scoped env _ _ _ hs

theorem ipaddr_Del6_scoped (k : Constants) (env : Kernel) (iface : GoString)
    (addr : List Nat) (prefixLen : Int) :
    socketScoped env .inet6 (ipaddr.Del6 k env iface addr prefixLen) := by
  unfold ipaddr.Del6
  cases hs : env.socket .inet6 with
  | some e => exact scoped_fail env .inet6 _ e hs rfl
  | none =>
    simp only
    by_cases h1 : iface.length ≥ k.IFNAMSIZ
    · rw [if_pos h1]; exact endEarly_scoped env _ _ hs
    · rw [if_neg h1]
      cases CopyString iface k.IFNAMSIZ with
      | panic => exact endEarly_scoped env _ _ hs
      | ret a =>
        simp only
        split_ifs <;>
          first
          | exact endEarly_scoped env _ _ hs
          | exact issueSwallow_scoped env _ _ _ hs

theorem ModifyRoute_scoped (k : Constants) (env : Kernel) (add : Bool) (dst : IPNet)
    (gw : Option (List Nat)) (ifindex : Int) :
    socketScoped env .route (routing.ModifyRoute k env add dst gw ifindex) := by
  unfold routing.ModifyRoute
  cases hs : env.socket .route with
  | some e => exact scoped_fail env .route _ e hs rfl
  | none =>
    simp only
    cases (env.write (routeMessage k add dst gw ifindex)).2 with
    | some e =>
      simp only
      split_ifs <;>
        exact scoped_open env .route _ hs [.write _ _ _] rfl (by simp [Event.usesSocket])
    | none =>
      simp only
      split_ifs <;>
        exact scoped_open env .route _ hs [.write _ _ _] rfl (by simp [Event.usesSocket])

theorem issue_events {α : Type} (env : Kernel) (req : IoctlReq)
    (finish : Option Errno → Outcome α) :
    (issue env req finish).events = [.ioctl req (env.ioctl req)] := rfl

theorem SetFlags_body_events (k : Constants) (env : Kernel) (ifrName : List Nat) (flag : Nat)
    (set : Bool) (ev : Event)
    (h : ev ∈ (match env.ioctl ⟨k.SIOCGIFFLAGS, none, ifrName, [], 0⟩ with
      | some e => (⟨[.ioctl ⟨k.SIOCGIFFLAGS, none, ifrName, [], 0⟩ (some e)],
          .ret (mapErrno e)⟩ : Run (Option GoError))
      | none =>
        ⟨[.ioctl ⟨k.SIOCGIFFLAGS, none, ifrName, [], 0⟩ none,
          .ioctl ⟨k.SIOCSIFFLAGS, none, ifrName, [],
            newFlagsWord (env.reply ⟨k.SIOCGIFFLAGS, none, ifrName, [], 0⟩).word flag set⟩
            (env.ioctl ⟨k.SIOCSIFFLAGS, none, ifrName, [],
              newFlagsWord (env.reply ⟨k.SIOCGIFFLAGS, none, ifrName, [], 0⟩).word flag set⟩)],
          .ret (Ioctl (env.ioctl ⟨k.SIOCSIFFLAGS, none, ifrName, [],
              newFlagsWord (env.reply ⟨k.SIOCGIFFLAGS, none, ifrName, [], 0⟩).word
                flag set⟩))⟩).events) :
    ∃ req ans, ev = .ioctl req ans ∧ req.name = ifrName ∧ req.arg = [] := by
  cases hg : env.ioctl ⟨k.SIOCGIFFLAGS, none, ifrName, [], 0⟩ with
  | some e =>
    rw [hg] at h
    simp only [List.mem_singleton] at h
    exact ⟨_, _, h, rfl, rfl⟩
  | none =>
    rw [hg] at h
    simp only [List.mem_cons, List.mem_singleton, List.not_mem_nil, or_false] at h
    rcases h with h | h
    · exact ⟨_, _, h, rfl, rfl⟩
    · exact ⟨_, _, h, rfl, rfl⟩

theorem ipaddr_Add4_ioctl (k : Constants) (env : Kernel) (iface : GoString)
    (addr mask : List Nat) (req : IoctlReq) (ans : Option Errno)
    (h : Event.ioctl req ans ∈ (ipaddr.Add4 k env iface addr mask).events) :
    iface ≠ [] ∧ iface.length < k.IFNAMSIZ ∧ req.name = iface ∧ req.arg = [] := by
  unfold ipaddr.Add4 at h
  cases hs : env.socket .inet with
  | some e => simp [hs] at h
  | none =>
    simp only [hs] at h
    by_cases h1 : iface.length ≥ k.IFNAMSIZ
    · rw [if_pos h1] at h; simp [endEarly] at h
    · rw [if_neg h1] at h
      by_cases h0 : iface = []
      · subst h0; simp [CopyString, endEarly] at h
      · rw [CopyString_ok _ _ h0 (by omega)] at h
        simp only at h
        split_ifs at h <;> simp [endEarly, issueSwallow] at h
        exact ⟨h0, by omega, by rw [h.1], by rw [h.1]⟩

theorem ipaddr_Del4_ioctl (k : Constants) (env : Kernel) (iface : GoString)
    (addr mask : List Nat) (req : IoctlReq) (ans : Option Errno)
    (h : Event.ioctl req ans ∈ (ipaddr.Del4 k env iface addr mask).events) :
    iface ≠ [] ∧ iface.length < k.IFNAMSIZ ∧ req.name = iface ∧ req.arg = [] := by
  unfold ipaddr.Del4 at h
  cases hs : env.socket .inet with
  | some e => simp [hs] at h
  | none =>
    simp only [hs] at h
    by_cases h1 : iface.length ≥ k.IFNAMSIZ
    · rw [if_pos h1] at h; simp [endEarly] at h
    · rw [if_neg h1] at h
      by_cases h0 : iface = []
      · subst h0; simp [CopyString, endEarly] at h
      · rw [CopyString_ok _ _ h0 (by omega)] at h
        simp only at h
        split_ifs at h <;> simp [endEarly, issueSwallow] at h
        exact ⟨h0, by omega, by rw [h.1], by rw [h.1]⟩

theorem ipaddr_Add6_ioctl (k : Constants) (env : Kernel) (iface : GoString)
    (addr : List Nat) (prefixLen : Int) (req : IoctlReq) (ans : Option Errno)
    (h : Event.ioctl req ans ∈ (ipaddr.Add6 k env iface addr prefixLen).events) :
    iface ≠ [] ∧ iface.length < k.IFNAMSIZ ∧ req.name = iface ∧ req.arg = [] := by
  unfold ipaddr.Add6 at h
  cases hs : env.socket .inet6 with
  | some e => simp [hs] at h
  | none =>
    simp only [hs] at h
    by_cases h1 : iface.length ≥ k.IFNAMSIZ
    · rw [if_pos h1] at h; simp [endEarly] at h
    · rw [if_neg h1] at h
      by_cases h0 : iface = []
      · subst h0; simp [CopyString, endEarly] at h
      · rw [CopyString_ok _ _ h0 (by omega)] at h
        simp only at h
        split_ifs at h <;> simp [endEarly, issueSwallow] at h
        exact ⟨h0, by omega, by rw [h.1], by rw [h.1]⟩

theorem ipaddr_Del6_ioctl (k : Constants) (env : Kernel) (iface : GoString)
    (addr : List Nat) (prefixLen : Int) (req : IoctlReq) (ans : Option Errno)
    (h : Event.ioctl req ans ∈ (ipaddr.Del6 k env iface addr prefixLen).events) :
    iface ≠ [] ∧ iface.length < k.IFNAMSIZ ∧ req.name = iface ∧ req.arg = [] := by
  unfold ipaddr.Del6 at h
  cases hs : env.socket .inet6 with
  | some e => simp [hs] at h
  | none =>
    simp only [hs] at h
    by_cases h1 : iface.length ≥ k.IFNAMSIZ
    · rw [if_pos h1] at h; simp [endEarly] at h
    · rw [if_neg h1] at h
      by_cases h0 : iface = []
      · subst h0; simp [CopyString, endEarly] at h
      · rw [CopyString_ok _ _ h0 (by omega)] at h
        simp only at h
        split_ifs at h <;> simp [endEarly, issueSwallow] at h
        exact ⟨h0, by omega, by rw [h.1], by rw [h.1]⟩

theorem bridgeops_member_ioctl (k : Constants) (env : Kernel) (cmd : Nat) (s : Sentinel)
    (bridge member : GoString) (req : IoctlReq) (ans : Option Errno)
    (h : Event.ioctl req ans ∈ (bridgeops.member k env cmd s bridge member).events) :
    bridge ≠ [] ∧ member ≠ [] ∧ bridge.length < k.IFNAMSIZ ∧ member.length < k.IFNAMSIZ ∧
      req.name = bridge ∧ req.arg = member := by
  unfold bridgeops.member at h
  cases hs : env.socket .inet with
  | some e => simp [hs] at h
  | none =>
    simp only [hs] at h
    by_cases h1 : bridge.length ≥ k.IFNAMSIZ ∨ member.length ≥ k.IFNAMSIZ
    · rw [if_pos h1] at h; simp [endEarly] at h
    · rw [if_neg h1] at h
      by_cases hm : member = []
      · subst hm; simp [CopyString, endEarly] at h
      · rw [CopyString_ok _ _ hm (by omega)] at h
        by_cases hb : bridge = []
        · subst hb; simp [CopyString, endEarly] at h
        · rw [CopyString_ok _ _ hb (by omega)] at h
          simp [issueSwallow] at h
          exact ⟨hb, hm, by omega, by omega, by rw [h.1], by rw [h.1]⟩

theorem vlanops_Configure_ioctl (k : Constants) (env : Kernel) (name parent : GoString)
    (tag : Nat) (req : IoctlReq) (ans : Option Errno)
    (h : Event.ioctl req ans ∈ (vlanops.Configure k env name tag parent).events) :
    name ≠ [] ∧ parent ≠ [] ∧ name.length < k.IFNAMSIZ ∧ parent.length < k.IFNAMSIZ ∧
      req.name = name ∧ req.arg = parent := by
  unfold vlanops.Configure at h
  cases hs : env.socket .inet with
  | some e => simp [hs] at h
  | none =>
    simp only [hs] at h
    by_cases h1 : name.length ≥ k.IFNAMSIZ ∨ parent.length ≥ k.IFNAMSIZ
    · rw [if_pos h1] at h; simp [endEarly] at h
    · rw [if_neg h1] at h
      by_cases h2 : tag = 0 ∨ tag > 4094
      · rw [if_pos h2] at h; simp [endEarly] at h
      · rw [if_neg h2] at h
        by_cases hp : parent = []
        · subst hp; simp [CopyString, endEarly] at h
        · rw [CopyString_ok _ _ hp (by omega)] at h
          by_cases hn : name = []
          · subst hn; simp [CopyString, endEarly] at h
          · rw [CopyString_ok _ _ hn (by omega)] at h
            simp at h
            exact ⟨hn, hp, by omega, by omega, by rw [h.1], by rw [h.1]⟩

theorem ModifyRoute_no_ioctl (k : Constants) (env : Kernel) (add : Bool) (dst : IPNet)
    (gw : Option (List Nat)) (ifindex : Int) (req : IoctlReq) (ans : Option Errno) :
    Event.ioctl req ans ∉ (routing.ModifyRoute k env add dst gw ifindex).events := by
  unfold routing.ModifyRoute
  cases hs : env.socket .route with
  | some e => simp
  | none =>
    simp only
    cases (env.write (routeMessage k add dst gw ifindex)).2 with
    | some e => simp only; split_ifs <;> simp
    | none => simp only; split_ifs <;> simp

theorem ifops_GetMTU_ioctl (k : Constants) (env : Kernel) (name : GoString)
    (req : IoctlReq) (ans : Option Errno)
    (h : Event.ioctl req ans ∈ (ifops.GetMTU k env name).events) :
    name ≠ [] ∧ name.length < k.IFNAMSIZ ∧ req.name = name ∧ req.arg = [] := by
  unfold ifops.GetMTU at h
  have h1 := withSocket_ioctl_mem _ _ _ _ _ _ h
  obtain ⟨h0, hl, h2⟩ := checkedName_events _ _ _ _ _ h1
  simp [issue] at h2
  exact ⟨h0, hl, by rw [h2.1], by rw [h2.1]⟩

theorem ifops_SetMTU_ioctl (k : Constants) (env : Kernel) (name : GoString)
    (mtu : Int) (req : IoctlReq) (ans : Option Errno)
    (h : Event.ioctl req ans ∈ (ifops.SetMTU k env name mtu).events) :
    name ≠ [] ∧ name.length < k.IFNAMSIZ ∧ req.name = name ∧ req.arg = [] := by
  unfold ifops.SetMTU at h
  have h1 := withSocket_ioctl_mem _ _ _ _ _ _ h
  obtain ⟨h0, hl, h2⟩ := checkedName_events _ _ _ _ _ h1
  simp [issue] at h2
  exact ⟨h0, hl, by rw [h2.1], by rw [h2.1]⟩

theorem cloneops_Create_ioctl (k : Constants) (env : Kernel) (name : GoString)
    (req : IoctlReq) (ans : Option Errno)
    (h : Event.ioctl req ans ∈ (cloneops.Create k env name).events) :
    name ≠ [] ∧ name.length < k.IFNAMSIZ ∧ req.name = name ∧ req.arg = [] := by
  unfold cloneops.Create at h
  have h1 := withSocket_ioctl_mem _ _ _ _ _ _ h
  obtain ⟨h0, hl, h2⟩ := checkedName_events _ _ _ _ _ h1
  simp [issue] at h2
  exact ⟨h0, hl, by rw [h2.1], by rw [h2.1]⟩

theorem cloneops_Destroy_ioctl (k : Constants) (env : Kernel) (name : GoString)
    (req : IoctlReq) (ans : Option Errno)
    (h : Event.ioctl req ans ∈ (cloneops.Destroy k env name).events) :
    name ≠ [] ∧ name.length < k.IFNAMSIZ ∧ req.name = name ∧ req.arg = [] := by
  unfold cloneops.Destroy at h
  have h1 := withSocket_ioctl_mem _ _ _ _ _ _ h
  obtain ⟨h0, hl, h2⟩ := checkedName_events _ _ _ _ _ h1
  simp [issue] at h2
  exact ⟨h0, hl, by rw [h2.1], by rw [h2.1]⟩

theorem laggops_SetProto_ioctl (k : Constants) (env : Kernel) (name : GoString)
    (proto : Int) (req : IoctlReq) (ans : Option Errno)
    (h : Event.ioctl req ans ∈ (laggops.SetProto k env name proto).events) :
    name ≠ [] ∧ name.length < k.IFNAMSIZ ∧ req.name = name ∧ req.arg = [] := by
  unfold laggops.SetProto at h
  have h1 := withSocket_ioctl_mem _ _ _ _ _ _ h
  obtain ⟨h0, hl, h2⟩ := checkedName_events _ _ _ _ _ h1
  simp [issue] at h2
  exact ⟨h0, hl, by rw [h2.1], by rw [h2.1]⟩

theorem laggops_Get_ioctl (k : Constants) (env : Kernel) (name : GoString)
    (req : IoctlReq) (ans : Option Errno)
    (h : Event.ioctl req ans ∈ (laggops.Get k env name).events) :
    name ≠ [] ∧ name.length < k.IFNAMSIZ ∧ req.name = name ∧ req.arg = [] := by
  unfold laggops.Get at h
  have h1 := withSocket_ioctl_mem _ _ _ _ _ _ h
  obtain ⟨h0, hl, h2⟩ := checkedName_events _ _ _ _ _ h1
  simp [issue] at h2
  exact ⟨h0, hl, by rw [h2.1], by rw [h2.1]⟩

theorem vlanops_Get_ioctl (k : Constants) (env : Kernel) (name : GoString)
    (req : IoctlReq) (ans : Option Errno)
    (h : Event.ioctl req ans ∈ (vlanops.Get k env name).events) :
    name ≠ [] ∧ name.length < k.IFNAMSIZ ∧ req.name = name ∧ req.arg = [] := by
  unfold vlanops.Get at h
  have h1 := withSocket_ioctl_mem _ _ _ _ _ _ h
  obtain ⟨h0, hl, h2⟩ := checkedName_events _ _ _ _ _ h1
  simp [issue] at h2
  exact ⟨h0, hl, by rw [h2.1], by rw [h2.1]⟩

theorem ifops_Rename_ioctl (k : Constants) (env : Kernel) (first second : GoString)
    (req : IoctlReq) (ans : Option Errno)
    (h : Event.ioctl req ans ∈ (ifops.Rename k env first second).events) :
    first ≠ [] ∧ second ≠ [] ∧ first.length < k.IFNAMSIZ ∧ second.length < k.IFNAMSIZ ∧
      req.name = first ∧ req.arg = second := by
  unfold ifops.Rename at h
  have h1 := withSocket_ioctl_mem _ _ _ _ _ _ h
  obtain ⟨h01, h02, hl1, hl2, h2⟩ := checkedNames_events _ _ _ _ _ _ h1
  simp [issue] at h2
  exact ⟨h01, h02, hl1, hl2, by rw [h2.1], by rw [h2.1]⟩

theorem laggops_AddPort_ioctl (k : Constants) (env : Kernel) (first second : GoString)
    (req : IoctlReq) (ans : Option Errno)
    (h : Event.ioctl req ans ∈ (laggops.AddPort k env first second).events) :
    first ≠ [] ∧ second ≠ [] ∧ first.length < k.IFNAMSIZ ∧ second.length < k.IFNAMSIZ ∧
      req.name = first ∧ req.arg = second := by
  unfold laggops.AddPort at h
  have h1 := withSocket_ioctl_mem _ _ _ _ _ _ h
  obtain ⟨h01, h02, hl1, hl2, h2⟩ := checkedNames_events _ _ _ _ _ _ h1
  simp [issue] at h2
  exact ⟨h01, h02, hl1, hl2, by rw [h2.1], by rw [h2.1]⟩

theorem laggops_DelPort_ioctl (k : Constants) (env : Kernel) (first second : GoString)
    (req : IoctlReq) (ans : Option Errno)
    (h : Event.ioctl req ans ∈ (laggops.DelPort k env first second).events) :
    first ≠ [] ∧ second ≠ [] ∧ first.length < k.IFNAMSIZ ∧ second.length < k.IFNAMSIZ ∧
      req.name = first ∧ req.arg = second := by
  unfold laggops.DelPort at h
  have h1 := withSocket_ioctl_mem _ _ _ _ _ _ h
  obtain ⟨h01, h02, hl1, hl2, h2⟩ := checkedNames_events _ _ _ _ _ _ h1
  simp [issue] at h2
  exact ⟨h01, h02, hl1, hl2, by rw [h2.1], by rw [h2.1]⟩

theorem ifops_SetFlags_ioctl (k : Constants) (env : Kernel) (name : GoString) (flag : Nat)
    (set : Bool) (req : IoctlReq) (ans : Option Errno)
    (h : Event.ioctl req ans ∈ (ifops.SetFlags k env name flag set).events) :
    name ≠ [] ∧ name.length < k.IFNAMSIZ ∧ req.name = name ∧ req.arg = [] := by
  unfold ifops.SetFlags at h
  have h1 := withSocket_ioctl_mem _ _ _ _ _ _ h
  obtain ⟨h0, hl, h2⟩ := checkedName_events _ _ _ _ _ h1
  obtain ⟨r, a, he, hn, ha⟩ := SetFlags_body_events k env name flag set _ h2
  have : req = r := by injection he
  exact ⟨h0, hl, by rw [this, hn], by rw [this, ha]⟩

theorem bridgeops_GetMembers_ioctl (k : Constants) (env : Kernel) (name : GoString)
    (req : IoctlReq) (ans : Option Errno)
    (h : Event.ioctl req ans ∈ (bridgeops.GetMembers k env name).events) :
    name ≠ [] ∧ name.length < k.IFNAMSIZ ∧ req.name = name ∧ req.arg = [] := by
  unfold bridgeops.GetMembers at h
  have h1 := withSocket_ioctl_mem _ _ _ _ _ _ h
  by_cases hz : 32 * k.sizeofIfbreq = 0
  · rw [if_pos hz] at h1; simp at h1
  · rw [if_neg hz] at h1
    obtain ⟨h0, hl, h2⟩ := checkedName_events _ _ _ _ _ h1
    simp [issue] at h2
    exact ⟨h0, hl, by rw [h2.1], by rw [h2.1]⟩

/-- Every ioctl a transport call issues carries the call's names untruncated:
all its names are non-empty and shorter than `IFNAMSIZ`, the outer block holds
the first name, the payload name is absent or the second name, and the call
is not a VLAN configuration with a tag out of range. -/
theorem call_ioctl_names (k : Constants) (env : Kernel) (call : TransportCall)
    (req : IoctlReq) (ans : Option Errno)
    (h : Event.ioctl req ans ∈ (call.run k env).events) :
    (∀ n, n ∈ call.names → n ≠ [] ∧ n.length < k.IFNAMSIZ) ∧
    req.name = call.names.headD [] ∧
    (req.arg = [] ∨ req.arg = call.names.getD 1 []) ∧
    ¬ call.tagOutOfRange := by
  cases call with
  | SetFlags name flag set =>
    obtain ⟨a, b, c, d⟩ := ifops_SetFlags_ioctl k env name flag set req ans h
    simp [TransportCall.names, TransportCall.tagOutOfRange, a, b, c, d]
  | GetMTU name =>
    rw [TransportCall.run, errorOf_events] at h
    obtain ⟨a, b, c, d⟩ := ifops_GetMTU_ioctl k env name req ans h
    simp [TransportCall.names, TransportCall.tagOutOfRange, a, b, c, d]
  | SetMTU name mtu =>
    obtain ⟨a, b, c, d⟩ := ifops_SetMTU_ioctl k env name mtu req ans h
    simp [TransportCall.names, TransportCall.tagOutOfRange, a, b, c, d]
  | Rename oldName newName =>
    obtain ⟨a, b, c, d, e, f⟩ := ifops_Rename_ioctl k env oldName newName req ans h
    simp [TransportCall.names, TransportCall.tagOutOfRange, a, b, c, d, e, f]
  | Create pfx =>
    rw [TransportCall.run, errorOf_events] at h
    obtain ⟨a, b, c, d⟩ := cloneops_Create_ioctl k env pfx req ans h
    simp [TransportCall.names, TransportCall.tagOutOfRange, a, b, c, d]
  | Destroy name =>
    obtain ⟨a, b, c, d⟩ := cloneops_Destroy_ioctl k env name req ans h
    simp [TransportCall.names, TransportCall.tagOutOfRange, a, b, c, d]
  | AddMember bridge member =>
    obtain ⟨a, b, c, d, e, f⟩ := bridgeops_member_ioctl k env _ _ bridge member req ans h
    simp [TransportCall.names, TransportCall.tagOutOfRange, a, b, c, d, e, f]
  | DelMember bridge member =>
    obtain ⟨a, b, c, d, e, f⟩ := bridgeops_member_ioctl k env _ _ bridge member req ans h
    simp [TransportCall.names, TransportCall.tagOutOfRange, a, b, c, d, e, f]
  | GetMembers bridge =>
    rw [TransportCall.run, errorOf_events] at h
    obtain ⟨a, b, c, d⟩ := bridgeops_GetMembers_ioctl k env bridge req ans h
    simp [TransportCall.names, TransportCall.tagOutOfRange, a, b, c, d]
  | Configure name tag parent =>
    obtain ⟨a, b, c, d, e, f⟩ := vlanops_Configure_ioctl k env name parent tag req ans h
    have ht := vlanops_Configure_ioctl_only_valid k env name parent tag req ans h
    have ht' : ¬ (tag = 0 ∨ tag > 4094) := by omega
    simp [TransportCall.names, TransportCall.tagOutOfRange, a, b, c, d, e, f, ht']
  | vlanGet name =>
    rw [TransportCall.run, errorOf_events] at h
    obtain ⟨a, b, c, d⟩ := vlanops_Get_ioctl k env name req ans h
    simp [TransportCall.names, TransportCall.tagOutOfRange, a, b, c, d]
  | SetProto name proto =>
    obtain ⟨a, b, c, d⟩ := laggops_SetProto_ioctl k env name proto req ans h
    simp [TransportCall.names, TransportCall.tagOutOfRange, a, b, c, d]
  | AddPort lagg port =>
    obtain ⟨a, b, c, d, e, f⟩ := laggops_AddPort_ioctl k env lagg port req ans h
    simp [TransportCall.names, TransportCall.tagOutOfRange, a, b, c, d, e, f]
  | DelPort lagg port =>
    obtain ⟨a, b, c, d, e, f⟩ := laggops_DelPort_ioctl k env lagg port req ans h
    simp [TransportCall.names, TransportCall.tagOutOfRange, a, b, c, d, e, f]
  | laggGet name =>
    rw [TransportCall.run, errorOf_events] at h
    obtain ⟨a, b, c, d⟩ := laggops_Get_ioctl k env name req ans h
    simp [TransportCall.names, TransportCall.tagOutOfRange, a, b, c, d]
  | Add4 iface addr mask =>
    obtain ⟨a, b, c, d⟩ := ipaddr_Add4_ioctl k env iface addr mask req ans h
    simp [TransportCall.names, TransportCall.tagOutOfRange, a, b, c, d]
  | Del4 iface addr mask =>
    obtain ⟨a, b, c, d⟩ := ipaddr_Del4_ioctl k env iface addr mask req ans h
    simp [TransportCall.names, TransportCall.tagOutOfRange, a, b, c, d]
  | Add6 iface addr prefixLen =>
    obtain ⟨a, b, c, d⟩ := ipaddr_Add6_ioctl k env iface addr prefixLen req ans h
    simp [TransportCall.names, TransportCall.tagOutOfRange, a, b, c, d]
  | Del6 iface addr prefixLen =>
    obtain ⟨a, b, c, d⟩ := ipaddr_Del6_ioctl k env iface addr prefixLen req ans h
    simp [TransportCall.names, TransportCall.tagOutOfRange, a, b, c, d]
  | ModifyRoute add dst gw ifindex =>
    exact absurd h (ModifyRoute_no_ioctl k env add dst gw ifindex req ans)

theorem checkedName_uses {α : Type} (k : Constants) (name : GoString) (tooLong : α)
    (cont : List Nat → Run α)
    (hc : ∀ b ev, ev ∈ (cont b).events → ev.usesSocket = true) (ev : Event)
    (h : ev ∈ (checkedName k name tooLong cont).events) : ev.usesSocket = true :=
  hc name ev (checkedName_events k name tooLong cont ev h).2.2

theorem checkedNames_uses {α : Type} (k : Constants) (first second : GoString) (tooLong : α)
    (cont : List Nat → List Nat → Run α)
    (hc : ∀ a b ev, ev ∈ (cont a b).events → ev.usesSocket = true) (ev : Event)
    (h : ev ∈ (checkedNames k first second tooLong cont).events) : ev.usesSocket = true :=
  hc first second ev (checkedNames_events k first second tooLong cont ev h).2.2.2.2

theorem issue_uses {α : Type} (env : Kernel) (req : IoctlReq)
    (finish : Option Errno → Outcome α) (ev : Event) (h : ev ∈ (issue env req finish).events) :
    ev.usesSocket = true := by
  simp only [issue, List.mem_singleton] at h
  rw [h]
  rfl

/-- Every transport call acquires its socket in a scoped way. -/
theorem call_scoped (k : Constants) (env : Kernel) (call : TransportCall) :
    socketScoped env call.kind (call.run k env) := by
  cases call with
  | SetFlags name flag set =>
    exact withSocket_scoped _ _ _ _ (checkedName_uses _ _ _ _ (fun b ev h => by
      obtain ⟨r, a, he, -, -⟩ := SetFlags_body_events k env b flag set ev h
      rw [he]
      rfl))
  | GetMTU name =>
    exact errorOf_scoped _ _ _ _ (withSocket_scoped _ _ _ _
      (checkedName_uses _ _ _ _ (fun b ev h => issue_uses _ _ _ ev h)))
  | SetMTU name mtu =>
    exact withSocket_scoped _ _ _ _
      (checkedName_uses _ _ _ _ (fun b ev h => issue_uses _ _ _ ev h))
  | Rename oldName newName =>
    exact withSocket_scoped _ _ _ _
      (checkedNames_uses _ _ _ _ _ (fun a b ev h => issue_uses _ _ _ ev h))
  | Create pfx =>
    exact errorOf_scoped _ _ _ _ (withSocket_scoped _ _ _ _
      (checkedName_uses _ _ _ _ (fun b ev h => issue_uses _ _ _ ev h)))
  | Destroy name =>
    exact withSocket_scoped _ _ _ _
      (checkedName_uses _ _ _ _ (fun b ev h => issue_uses _ _ _ ev h))
  | AddMember bridge member => exact bridgeops_member_scoped k env _ _ bridge member
  | DelMember bridge member => exact bridgeops_member_scoped k env _ _ bridge member
  | GetMembers bridge =>
    refine errorOf_scoped _ _ _ _ (withSocket_scoped _ _ _ _ ?_)
    intro ev h
    by_cases hz : 32 * k.sizeofIfbreq = 0
    · rw [if_pos hz] at h
      simp at h
    · rw [if_neg hz] at h
      exact checkedName_uses _ _ _ _ (fun b ev h => issue_uses _ _ _ ev h) ev h
  | Configure name tag parent => exact vlanops_Configure_scoped k env name parent tag
  | vlanGet name =>
    exact errorOf_scoped _ _ _ _ (withSocket_scoped _ _ _ _
      (checkedName_uses _ _ _ _ (fun b ev h => issue_uses _ _ _ ev h)))
  | SetProto name proto =>
    exact withSocket_scoped _ _ _ _
      (checkedName_uses _ _ _ _ (fun b ev h => issue_uses _ _ _ ev h))
  | AddPort lagg port =>
    exact withSocket_scoped _ _ _ _
      (checkedNames_uses _ _ _ _ _ (fun a b ev h => issue_uses _ _ _ ev h))
  | DelPort lagg port =>
    exact withSocket_scoped _ _ _ _
      (checkedNames_uses _ _ _ _ _ (fun a b ev h => issue_uses _ _ _ ev h))
  | laggGet name =>
    exact errorOf_scoped _ _ _ _ (withSocket_scoped _ _ _ _
      (checkedName_uses _ _ _ _ (fun b ev h => issue_uses _ _ _ ev h)))
  | Add4 iface addr mask => exact ipaddr_Add4_scoped k env iface addr mask
  | Del4 iface addr mask => exact ipaddr_Del4_scoped k env iface addr mask
  | Add6 iface addr prefixLen => exact ipaddr_Add6_scoped k env iface addr prefixLen
  | Del6 iface addr prefixLen => exact ipaddr_Del6_scoped k env iface addr prefixLen
  | ModifyRoute add dst gw ifindex => exact ModifyRoute_scoped k env add dst gw ifindex

/-- When socket creation fails with errno `e`, every transport call ends there:
the attempt is its only event and it returns the mapped error of `e`. -/
theorem call_socket_fail (k : Constants) (env : Kernel) (call : TransportCall) (e : Errno)
    (hs : env.socket call.kind = some e) :
    call.run k env = ⟨[.socket call.kind (some e)], .ret (mapErrno e)⟩ := by
  cases call <;> simp only [TransportCall.kind] at hs <;>
    simp [TransportCall.run, TransportCall.kind, ifops.SetFlags, ifops.GetMTU, ifops.SetMTU,
      ifops.Rename, cloneops.Create, cloneops.Destroy, bridgeops.AddMember, bridgeops.DelMember,
      bridgeops.member, bridgeops.GetMembers, vlanops.Configure, vlanops.Get, laggops.SetProto,
      laggops.AddPort, laggops.DelPort, laggops.Get, ipaddr.Add4, ipaddr.Del4, ipaddr.Add6,
      ipaddr.Del6, routing.ModifyRoute, withSocket, errorOf, hs]

/-- With the socket open, a transport call given a name of `IFNAMSIZ` bytes or
more, or a VLAN tag out of range, opens the socket, closes it and returns a
non-nil error; the record size of the bridge member list is positive. -/
theorem call_rejects (k : Constants) (env : Kernel) (call : TransportCall)
    (hrec : 0 < k.sizeofIfbreq) (hs : env.socket call.kind = none)
    (h : (∃ n, n ∈ call.names ∧ k.IFNAMSIZ ≤ n.length) ∨ call.tagOutOfRange) :
    ∃ err, call.run k env = ⟨[.socket call.kind none, .close call.kind], .ret (some err)⟩ := by
  cases call with
  | SetFlags name flag set =>
    have hs' : env.socket SockKind.inet = none := hs
    simp [TransportCall.names, TransportCall.tagOutOfRange] at h
    simp only [TransportCall.run, TransportCall.kind, ifops.SetFlags]
    rw [withSocket_open _ _ _ _ hs', checkedName_long _ _ _ _ h]
    exact ⟨_, rfl⟩
  | GetMTU name =>
    have hs' : env.socket SockKind.inet = none := hs
    simp [TransportCall.names, TransportCall.tagOutOfRange] at h
    simp only [TransportCall.run, TransportCall.kind, ifops.GetMTU]
    rw [withSocket_open _ _ _ _ hs', checkedName_long _ _ _ _ h]
    exact ⟨_, rfl⟩
  | SetMTU name mtu =>
    have hs' : env.socket SockKind.inet = none := hs
    simp [TransportCall.names, TransportCall.tagOutOfRange] at h
    simp only [TransportCall.run, TransportCall.kind, ifops.SetMTU]
    rw [withSocket_open _ _ _ _ hs', checkedName_long _ _ _ _ h]
    exact ⟨_, rfl⟩
  | Rename oldName newName =>
    have hs' : env.socket SockKind.inet = none := hs
    simp [TransportCall.names, TransportCall.tagOutOfRange] at h
    simp only [TransportCall.run, TransportCall.kind, ifops.Rename]
    rw [withSocket_open _ _ _ _ hs', checkedNames_long _ _ _ _ _ h]
    exact ⟨_, rfl⟩
  | Create pfx =>
    have hs' : env.socket SockKind.inet = none := hs
    simp [TransportCall.names, TransportCall.tagOutOfRange] at h
    simp only [TransportCall.run, TransportCall.kind, cloneops.Create]
    rw [withSocket_open _ _ _ _ hs', checkedName_long _ _ _ _ h]
    exact ⟨_, rfl⟩
  | Destroy name =>
    have hs' : env.socket SockKind.inet = none := hs
    simp [TransportCall.names, TransportCall.tagOutOfRange] at h
    simp only [TransportCall.run, TransportCall.kind, cloneops.Destroy]
    rw [withSocket_open _ _ _ _ hs', checkedName_long _ _ _ _ h]
    exact ⟨_, rfl⟩
  | AddMember bridge member =>
    have hs' : env.socket SockKind.inet = none := hs
    simp [TransportCall.names, TransportCall.tagOutOfRange] at h
    have hl : bridge.length ≥ k.IFNAMSIZ ∨ member.length ≥ k.IFNAMSIZ := h
    simp only [TransportCall.run, TransportCall.kind, bridgeops.AddMember, bridgeops.member, hs']
    rw [if_pos hl]
    exact ⟨_, rfl⟩
  | DelMember bridge member =>
    have hs' : env.socket SockKind.inet = none := hs
    simp [TransportCall.names, TransportCall.tagOutOfRange] at h
    have hl : bridge.length ≥ k.IFNAMSIZ ∨ member.length ≥ k.IFNAMSIZ := h
    simp only [TransportCall.run, TransportCall.kind, bridgeops.DelMember, bridgeops.member, hs']
    rw [if_pos hl]
    exact ⟨_, rfl⟩
  | GetMembers bridge =>
    have hs' : env.socket SockKind.inet = none := hs
    simp [TransportCall.names, TransportCall.tagOutOfRange] at h
    have hz : ¬ 32 * k.sizeofIfbreq = 0 := by omega
    simp only [TransportCall.run, TransportCall.kind, bridgeops.GetMembers]
    rw [withSocket_open _ _ _ _ hs', if_neg hz, checkedName_long _ _ _ _ h]
    exact ⟨_, rfl⟩
  | Configure name tag parent =>
    have hs' : env.socket SockKind.inet = none := hs
    simp [TransportCall.names, TransportCall.tagOutOfRange] at h
    simp only [TransportCall.run, TransportCall.kind, vlanops.Configure, hs']
    by_cases hl : name.length ≥ k.IFNAMSIZ ∨ parent.length ≥ k.IFNAMSIZ
    · rw [if_pos hl]
      exact ⟨_, rfl⟩
    · rw [if_neg hl]
      have ht : tag = 0 ∨ tag > 4094 := by
        rcases h with h | h
        · exact absurd h hl
        · exact h
      rw [if_pos ht]
      exact ⟨_, rfl⟩
  | vlanGet name =>
    have hs' : env.socket SockKind.inet = none := hs
    simp [TransportCall.names, TransportCall.tagOutOfRange] at h
    simp only [TransportCall.run, TransportCall.kind, vlanops.Get]
    rw [withSocket_open _ _ _ _ hs', checkedName_long _ _ _ _ h]
    exact ⟨_, rfl⟩
  | SetProto name proto =>
    have hs' : env.socket SockKind.inet = none := hs
    simp [TransportCall.names, TransportCall.tagOutOfRange] at h
    simp only [TransportCall.run, TransportCall.kind, laggops.SetProto]
    rw [withSocket_open _ _ _ _ hs', checkedName_long _ _ _ _ h]
    exact ⟨_, rfl⟩
  | AddPort lagg port =>
    have hs' : env.socket SockKind.inet = none := hs
    simp [TransportCall.names, TransportCall.tagOutOfRange] at h
    simp only [TransportCall.run, TransportCall.kind, laggops.AddPort]
    rw [withSocket_open _ _ _ _ hs', checkedNames_long _ _ _ _ _ h]
    exact ⟨_, rfl⟩
  | DelPort lagg port =>
    have hs' : env.socket SockKind.inet = none := hs
    simp [TransportCall.names, TransportCall.tagOutOfRange] at h
    simp only [TransportCall.run, TransportCall.kind, laggops.DelPort]
    rw [withSocket_open _ _ _ _ hs', checkedNames_long _ _ _ _ _ h]
    exact ⟨_, rfl⟩
  | laggGet name =>
    have hs' : env.socket SockKind.inet = none := hs
    simp [TransportCall.names, TransportCall.tagOutOfRange] at h
    simp only [TransportCall.run, TransportCall.kind, laggops.Get]
    rw [withSocket_open _ _ _ _ hs', checkedName_long _ _ _ _ h]
    exact ⟨_, rfl⟩
  | Add4 iface addr mask =>
    have hs' : env.socket SockKind.inet = none := hs
    simp [TransportCall.names, TransportCall.tagOutOfRange] at h
    have hl : iface.length ≥ k.IFNAMSIZ := h
    simp only [TransportCall.run, TransportCall.kind, ipaddr.Add4, hs']
    rw [if_pos hl]
    exact ⟨_, rfl⟩
  | Del4 iface addr mask =>
    have hs' : env.socket SockKind.inet = none := hs
    simp [TransportCall.names, TransportCall.tagOutOfRange] at h
    have hl : iface.length ≥ k.IFNAMSIZ := h
    simp only [TransportCall.run, TransportCall.kind, ipaddr.Del4, hs']
    rw [if_pos hl]
    exact ⟨_, rfl⟩
  | Add6 iface addr prefixLen =>
    have hs' : env.socket SockKind.inet6 = none := hs
    simp [TransportCall.names, TransportCall.tagOutOfRange] at h
    have hl : iface.length ≥ k.IFNAMSIZ := h
    simp only [TransportCall.run, TransportCall.kind, ipaddr.Add6, hs']
    rw [if_pos hl]
    exact ⟨_, rfl⟩
  | Del6 iface addr prefixLen =>
    have hs' : env.socket SockKind.inet6 = none := hs
    simp [TransportCall.names, TransportCall.tagOutOfRange] at h
    have hl : iface.length ≥ k.IFNAMSIZ := h
    simp only [TransportCall.run, TransportCall.kind, ipaddr.Del6, hs']
    rw [if_pos hl]
    exact ⟨_, rfl⟩
  | ModifyRoute add dst gw ifindex =>
    simp [TransportCall.names, TransportCall.tagOutOfRange] at h


/-! ## Validation in the public address and route functions -/

/-- C11. For every interface name, address and mask, `ip.Add4` and `ip.Del4`
return a validation error of kind InvalidArgument without any transport event
whenever `ip.To4()` is nil or the mask is not exactly 4 bytes long; in every
other case they call the transport function (whose first event is the socket
creation, so the event list is not empty) with the 4-byte form of the address
and the given 4-byte mask. -/
theorem ip_Add4_Del4_validation (k : Constants) (env : Kernel) (iface : GoString)
    (addr mask : List Nat) :
    ((To4 addr = none ∨ mask.length ≠ 4) →
      ∃ e1 e2, ip.Add4 k env iface addr mask = ⟨[], .ret (some e1)⟩ ∧
        ip.Del4 k env iface addr mask = ⟨[], .ret (some e2)⟩ ∧
        e1.asValidation = true ∧ e1.is .ErrInvalidArgument = true ∧
        e2.asValidation = true ∧ e2.is .ErrInvalidArgument = true) ∧
    (¬ (To4 addr = none ∨ mask.length ≠ 4) →
      ∃ a, To4 addr = some a ∧ a.length = 4 ∧ mask.length = 4 ∧
        ip.Add4 k env iface addr mask
          = wrapErr "add IPv4 %s/%s to %s: %w" (ipaddr.Add4 k env iface a mask) ∧
        ip.Del4 k env iface addr mask
          = wrapErr "delete IPv4 %s/%s from %s: %w" (ipaddr.Del4 k env iface a mask) ∧
        (ip.Add4 k env iface addr mask).events ≠ [] ∧
        (ip.Del4 k env iface addr mask).events ≠ []) := by
  constructor
  · intro h
    by_cases h1 : To4 addr = none
    · exact ⟨.validation "ip" [] "not an IPv4 address", .validation "ip" [] "not an IPv4 address",
        by simp [ip.Add4, h1, NewValidationError], by simp [ip.Del4, h1, NewValidationError],
        rfl, rfl, rfl, rfl⟩
    · have h2 : mask.length ≠ 4 := h.resolve_left h1
      exact ⟨.validation "mask" [] "invalid IPv4 mask length",
        .validation "mask" [] "invalid IPv4 mask length",
        by simp [ip.Add4, h1, h2, NewValidationError],
        by simp [ip.Del4, h1, h2, NewValidationError], rfl, rfl, rfl, rfl⟩
  · intro h
    have h1 : To4 addr ≠ none := fun h' => h (Or.inl h')
    have h2 : mask.length = 4 := by
      by_contra h'
      exact h (Or.inr h')
    obtain ⟨a, ha⟩ := Option.ne_none_iff_exists'.mp h1
    have hadd : ip.Add4 k env iface addr mask
        = wrapErr "add IPv4 %s/%s to %s: %w" (ipaddr.Add4 k env iface a mask) := by
      simp [ip.Add4, ha, h2, bytesOf]
    have hdel : ip.Del4 k env iface addr mask
        = wrapErr "delete IPv4 %s/%s from %s: %w" (ipaddr.Del4 k env iface a mask) := by
      simp [ip.Del4, ha, h2, bytesOf]
    refine ⟨a, ha, To4_some_length ha, h2, hadd, hdel, ?_, ?_⟩
    · rw [hadd, wrapErr_events]
      exact scoped_events_ne_nil env .inet _ (ipaddr_Add4_scoped k env iface a mask)
    · rw [hdel, wrapErr_events]
      exact scoped_events_ne_nil env .inet _ (ipaddr_Del4_scoped k env iface a mask)

/-- C12. For every interface name, address and prefix length, `ip.Add6` and
`ip.Del6` return a validation error of kind InvalidArgument without any
transport event whenever `ip.To4()` is non-nil or the prefix length is below
0 or above 128, and call the transport function with the address and prefix
length in every other case; for an address whose `To4()` is nil, the prefix
lengths -1 and 129 are rejected and 0 and 128 reach the transport. -/
theorem ip_Add6_Del6_validation (k : Constants) (env : Kernel) (iface : GoString)
    (addr : List Nat) (prefixLen : Int) :
    ((To4 addr ≠ none ∨ prefixLen < 0 ∨ prefixLen > 128) →
      ∃ e1 e2, ip.Add6 k env iface addr prefixLen = ⟨[], .ret (some e1)⟩ ∧
        ip.Del6 k env iface addr prefixLen = ⟨[], .ret (some e2)⟩ ∧
        e1.asValidation = true ∧ e1.is .ErrInvalidArgument = true ∧
        e2.asValidation = true ∧ e2.is .ErrInvalidArgument = true) ∧
    (¬ (To4 addr ≠ none ∨ prefixLen < 0 ∨ prefixLen > 128) →
      ip.Add6 k env iface addr prefixLen
        = wrapErr "add IPv6 %s/%d to %s: %w" (ipaddr.Add6 k env iface addr prefixLen) ∧
      ip.Del6 k env iface addr prefixLen
        = wrapErr "delete IPv6 %s/%d from %s: %w" (ipaddr.Del6 k env iface addr prefixLen) ∧
      (ip.Add6 k env iface addr prefixLen).events ≠ [] ∧
      (ip.Del6 k env iface addr prefixLen).events ≠ []) ∧
    (To4 addr = none →
      (ip.Add6 k env iface addr (-1)).events = [] ∧ (ip.Del6 k env iface addr (-1)).events = [] ∧
      (ip.Add6 k env iface addr 129).events = [] ∧ (ip.Del6 k env iface addr 129).events = [] ∧
      (ip.Add6 k env iface addr 0).events ≠ [] ∧ (ip.Del6 k env iface addr 0).events ≠ [] ∧
      (ip.Add6 k env iface addr 128).events ≠ [] ∧
      (ip.Del6 k env iface addr 128).events ≠ []) := by
  have hacc : ∀ p : Int, To4 addr = none → ¬ (p < 0 ∨ p > 128) →
      ip.Add6 k env iface addr p
        = wrapErr "add IPv6 %s/%d to %s: %w" (ipaddr.Add6 k env iface addr p) ∧
      ip.Del6 k env iface addr p
        = wrapErr "delete IPv6 %s/%d from %s: %w" (ipaddr.Del6 k env iface addr p) ∧
      (ip.Add6 k env iface addr p).events ≠ [] ∧ (ip.Del6 k env iface addr p).events ≠ [] := by
    intro p h1 h2
    have hadd : ip.Add6 k env iface addr p
        = wrapErr "add IPv6 %s/%d to %s: %w" (ipaddr.Add6 k env iface addr p) := by
      unfold ip.Add6
      rw [if_neg (by simp [h1]), if_neg h2]
    have hdel : ip.Del6 k env iface addr p
        = wrapErr "delete IPv6 %s/%d from %s: %w" (ipaddr.Del6 k env iface addr p) := by
      unfold ip.Del6
      rw [if_neg (by simp [h1]), if_neg h2]
    refine ⟨hadd, hdel, ?_, ?_⟩
    · rw [hadd, wrapErr_events]
      exact scoped_events_ne_nil env .inet6 _ (ipaddr_Add6_scoped k env iface addr p)
    · rw [hdel, wrapErr_events]
      exact scoped_events_ne_nil env .inet6 _ (ipaddr_Del6_scoped k env iface addr p)
  have hrej : ∀ p : Int, To4 addr = none → (p < 0 ∨ p > 128) →
      ip.Add6 k env iface addr p
        = ⟨[], .ret (some (.validation "prefixLen" [] "must be between 0 and 128"))⟩ ∧
      ip.Del6 k env iface addr p
        = ⟨[], .ret (some (.validation "prefixLen" [] "must be between 0 and 128"))⟩ := by
    intro p h1 h2
    constructor
    · unfold ip.Add6
      rw [if_neg (by simp [h1]), if_pos h2]
      rfl
    · unfold ip.Del6
      rw [if_neg (by simp [h1]), if_pos h2]
      rfl
  refine ⟨?_, ?_, ?_⟩
  · intro h
    by_cases h1 : To4 addr ≠ none
    · exact ⟨.validation "ip" [] "not an IPv6 address", .validation "ip" [] "not an IPv6 address",
        by simp [ip.Add6, h1, NewValidationError], by simp [ip.Del6, h1, NewValidationError],
        rfl, rfl, rfl, rfl⟩
    · have h1' : To4 addr = none := by
        by_contra h'
        exact h1 h'
      have h2 : prefixLen < 0 ∨ prefixLen > 128 := h.resolve_left h1
      obtain ⟨ha, hd⟩ := hrej prefixLen h1' h2
      exact ⟨_, _, ha, hd, rfl, rfl, rfl, rfl⟩
  · intro h
    have h1 : To4 addr = none := by
      by_contra h'
      exact h (Or.inl h')
    exact hacc prefixLen h1 (fun h' => h (Or.inr h'))
  · intro h1
    have r1 := hrej (-1) h1 (by decide)
    have r2 := hrej 129 h1 (by decide)
    have a1 := hacc 0 h1 (by decide)
    have a2 := hacc 128 h1 (by decide)
    refine ⟨by rw [r1.1], by rw [r1.2], by rw [r2.1], by rw [r2.2], a1.2.2.1, a1.2.2.2,
      a2.2.2.1, a2.2.2.2⟩

/-- C13. For every non-nil destination network, `AddRoute4` and `DelRoute4`
return a non-nil error with no event at all (no interface lookup, no routing
socket, no write) whenever the destination or the gateway has a nil `To4()`;
`AddRoute6` and `DelRoute6` do the same whenever the destination or the
gateway has a non-nil `To4()`. -/
theorem route_family_mismatch_rejected (k : Constants) (env : Kernel) (d : IPNet)
    (gw : Option (List Nat)) (iface : GoString) :
    ((To4 d.IP = none ∨ To4 (bytesOf gw) = none) →
      (∃ err, route.AddRoute4 k env (some d) gw iface = ⟨[], .ret (some err)⟩) ∧
      (∃ err, route.DelRoute4 k env (some d) gw iface = ⟨[], .ret (some err)⟩)) ∧
    ((To4 d.IP ≠ none ∨ To4 (bytesOf gw) ≠ none) →
      (∃ err, route.AddRoute6 k env (some d) gw iface = ⟨[], .ret (some err)⟩) ∧
      (∃ err, route.DelRoute6 k env (some d) gw iface = ⟨[], .ret (some err)⟩)) := by
  constructor
  · intro h
    have key : ∀ add, ∃ err, route.modify4 k env add (some d) gw iface
        = ⟨[], .ret (some err)⟩ := by
      intro add
      unfold route.modify4
      by_cases h1 : To4 d.IP = none
      · exact ⟨.plain "not an IPv4 network: %v", by simp only [h1, if_true]⟩
      · have h2 : To4 (bytesOf gw) = none := h.resolve_left h1
        exact ⟨.plain "not an IPv4 address: %v", by simp only [if_neg h1, h2, if_true]⟩
    exact ⟨key true, key false⟩
  · intro h
    have key : ∀ add, ∃ err, route.modify6 k env add (some d) gw iface
        = ⟨[], .ret (some err)⟩ := by
      intro add
      unfold route.modify6
      by_cases h1 : To4 d.IP ≠ none
      · exact ⟨.plain "not an IPv6 network: %v", by simp only [if_pos h1]⟩
      · have h2 : To4 (bytesOf gw) ≠ none := h.resolve_left h1
        exact ⟨.plain "not an IPv6 address: %v", by simp only [if_neg h1, if_pos h2]⟩
    exact ⟨key true, key false⟩

/-- C22. `route.AddRoute4` called with a nil destination network does not
return an error: for every gateway and interface name it dereferences the nil
pointer (`dst.IP`) before anything else and ends abnormally, with no event. -/
theorem AddRoute4_nil_destination_panics (k : Constants) (env : Kernel)
    (gw : Option (List Nat)) (iface : GoString) :
    route.AddRoute4 k env none gw iface = ⟨[], .panic⟩ ∧
    ¬ ∃ err, (route.AddRoute4 k env none gw iface).out = .ret (some err) := by
  refine ⟨rfl, ?_⟩
  rintro ⟨err, h⟩
  simp [route.AddRoute4, route.modify4] at h


/-! ## Lookup of one interface -/

/-- C21 (counterexample). When the enumeration itself fails with `ErrNotFound`,
which is what `MapError` makes of the errno `ENOENT`, `ifc.Get` returns
`ErrNotFound` although `List` has not succeeded. -/
theorem ifc_Get_NotFound_from_List :
    MapError ENOENT = some (.sentinel .ErrNotFound) ∧
    ifc.Get (kernelListing (.error (.sentinel .ErrNotFound))) (str "em0")
      = .error (.sentinel .ErrNotFound) ∧
    ¬ ∃ l, (kernelListing (.error (.sentinel .ErrNotFound))).ifList = .ok l := by
  refine ⟨by decide, rfl, ?_⟩
  rintro ⟨l, h⟩
  simp [kernelListing] at h

/-- C21 (amended). When `List` succeeds and no listed interface has the name,
`ifc.Get` returns `ErrNotFound`; when `List` succeeds and some interface has the
name, it returns a listed interface of that name with a nil error; when `List`
fails, it returns the error of `List`. Hence it returns `ErrNotFound` exactly
when `List` succeeds without such an interface or `List` itself fails with
`ErrNotFound`. -/
theorem ifc_Get_result (env : Kernel) (name : GoString) :
    (∀ l, env.ifList = .ok l →
      ((∀ i, i ∈ l → i.Name ≠ name) → ifc.Get env name = .error (.sentinel .ErrNotFound)) ∧
      ((∃ i, i ∈ l ∧ i.Name = name) →
        ∃ i, i ∈ l ∧ i.Name = name ∧ ifc.Get env name = .ok i)) ∧
    (∀ err, env.ifList = .error err → ifc.Get env name = .error err) ∧
    (ifc.Get env name = .error (.sentinel .ErrNotFound) ↔
      (∃ l, env.ifList = .ok l ∧ ∀ i, i ∈ l → i.Name ≠ name) ∨
      env.ifList = .error (.sentinel .ErrNotFound)) := by
  have hok : ∀ l, env.ifList = .ok l →
      ((∀ i, i ∈ l → i.Name ≠ name) → ifc.Get env name = .error (.sentinel .ErrNotFound)) ∧
      ((∃ i, i ∈ l ∧ i.Name = name) →
        ∃ i, i ∈ l ∧ i.Name = name ∧ ifc.Get env name = .ok i) := by
    intro l hl
    constructor
    · intro hno
      have hf : l.find? (fun i => i.Name == name) = none := by
        rw [List.find?_eq_none]
        intro i hi
        simpa using hno i hi
      simp only [ifc.Get, hl, hf]
    · rintro ⟨i, hi, hn⟩
      cases hf : l.find? (fun i => i.Name == name) with
      | none =>
        rw [List.find?_eq_none] at hf
        have := hf i hi
        simp [hn] at this
      | some j =>
        have hj : j.Name = name := by simpa using List.find?_some hf
        exact ⟨j, List.mem_of_find?_eq_some hf, hj, by simp only [ifc.Get, hl, hf]⟩
  have herr : ∀ err, env.ifList = .error err → ifc.Get env name = .error err := by
    intro err he
    simp only [ifc.Get, he]
  refine ⟨hok, herr, ?_⟩
  constructor
  · intro h
    cases hl : env.ifList with
    | error err =>
      right
      rw [herr err hl] at h
      injection h with h
      rw [h]
    | ok l =>
      left
      refine ⟨l, rfl, ?_⟩
      intro i hi hn
      obtain ⟨j, -, -, hj⟩ := (hok l hl).2 ⟨i, hi, hn⟩
      rw [hj] at h
      cases h
  · rintro (⟨l, hl, hno⟩ | he)
    · exact (hok l hl).1 hno
    · exact herr _ he

/-! ## Destroying a tap or tun interface -/

theorem cloneops_Destroy_ok (k : Constants) (env : Kernel) (name : GoString)
    (hs : env.socket .inet = none) (h0 : name ≠ []) (hl : name.length < k.IFNAMSIZ) :
    cloneops.Destroy k env name
      = ⟨[.socket .inet none,
          .ioctl ⟨k.SIOCIFDESTROY, none, name, [], 0⟩
            (env.ioctl ⟨k.SIOCIFDESTROY, none, name, [], 0⟩),
          .close .inet],
        .ret (Ioctl (env.ioctl ⟨k.SIOCIFDESTROY, none, name, [], 0⟩))⟩ := by
  unfold cloneops.Destroy
  rw [withSocket_open _ _ _ _ hs, checkedName_ok _ _ _ _ h0 hl]
  rfl

/-- C23 (counterexample). On a kernel whose destroy ioctl fails with `ENOENT`
(the interface is already absent), `tap.Destroy` and `tun.Destroy` return a
non-nil error that wraps `ErrNotFound`. -/
theorem Destroy_absent_returns_error :
    (tap.Destroy freebsd64 (kernelWith (some ENOENT) (0, none)) (str "tap0")).out
      = .ret (some (.wrapped "destroy tap %s: %w" (.sentinel .ErrNotFound))) ∧
    (tun.Destroy freebsd64 (kernelWith (some ENOENT) (0, none)) (str "tun0")).out
      = .ret (some (.wrapped "destroy tun %s: %w" (.sentinel .ErrNotFound))) ∧
    Event.ioctl ⟨freebsd64.SIOCIFDESTROY, none, str "tap0", [], 0⟩ (some ENOENT)
      ∈ (tap.Destroy freebsd64 (kernelWith (some ENOENT) (0, none)) (str "tap0")).events := by
  have h1 := cloneops_Destroy_ok freebsd64 (kernelWith (some ENOENT) (0, none)) (str "tap0")
    rfl (by decide) (by decide)
  have h2 := cloneops_Destroy_ok freebsd64 (kernelWith (some ENOENT) (0, none)) (str "tun0")
    rfl (by decide) (by decide)
  refine ⟨?_, ?_, ?_⟩
  · rw [tap.Destroy, h1]
    rfl
  · rw [tun.Destroy, h2]
    rfl
  · rw [tap.Destroy, wrapErr_events, h1]
    simp [kernelWith]

/-- C23 (amended). With the control socket open and a non-empty name shorter
than `IFNAMSIZ`, `tap.Destroy` and `tun.Destroy` issue the destroy ioctl once;
they return nil exactly when it succeeds, and when it fails with errno `e`
they return the mapped error of `e` wrapped in their message, which is
`ErrNotFound` for `ENOENT` and `ENXIO`: the NotFound failure is not swallowed. -/
theorem Destroy_not_idempotent (k : Constants) (env : Kernel) (name : GoString)
    (hs : env.socket .inet = none) (h0 : name ≠ []) (hl : name.length < k.IFNAMSIZ) :
    (tap.Destroy k env name).events
      = [.socket .inet none,
          .ioctl ⟨k.SIOCIFDESTROY, none, name, [], 0⟩
            (env.ioctl ⟨k.SIOCIFDESTROY, none, name, [], 0⟩), .close .inet] ∧
    (tun.Destroy k env name).events = (tap.Destroy k env name).events ∧
    (env.ioctl ⟨k.SIOCIFDESTROY, none, name, [], 0⟩ = none →
      (tap.Destroy k env name).out = .ret none ∧ (tun.Destroy k env name).out = .ret none) ∧
    (∀ e, env.ioctl ⟨k.SIOCIFDESTROY, none, name, [], 0⟩ = some e →
      ∃ inner, mapErrno e = some inner ∧
        (tap.Destroy k env name).out = .ret (some (.wrapped "destroy tap %s: %w" inner)) ∧
        (tun.Destroy k env name).out = .ret (some (.wrapped "destroy tun %s: %w" inner)) ∧
        ((e = ENOENT ∨ e = ENXIO) → inner = .sentinel .ErrNotFound)) := by
  have h := cloneops_Destroy_ok k env name hs h0 hl
  refine ⟨?_, ?_, ?_, ?_⟩
  · rw [tap.Destroy, wrapErr_events, h]
  · rw [tap.Destroy, tun.Destroy, wrapErr_events, wrapErr_events]
  · intro hi
    rw [tap.Destroy, tun.Destroy, h, hi]
    exact ⟨rfl, rfl⟩
  · intro e hi
    cases hm : mapErrno e with
    | none => exact absurd hm (mapErrno_ne_none e)
    | some inner =>
      refine ⟨inner, rfl, ?_, ?_, ?_⟩
      · rw [tap.Destroy, h, hi]
        simp [wrapErr, Ioctl, hm]
      · rw [tun.Destroy, h, hi]
        simp [wrapErr, Ioctl, hm]
      · intro he
        have := (mapErrno_eq_ErrNotFound e).2 (by simpa using he)
        rw [hm] at this
        exact Option.some.inj this

/-- Witness of C23 (amended): a kernel whose destroy ioctl fails with `ENXIO`. -/
theorem Destroy_not_idempotent_witness :
    (tap.Destroy freebsd64 (kernelWith (some ENXIO) (0, none)) (str "tap7")).events
      = [.socket .inet none,
          .ioctl ⟨freebsd64.SIOCIFDESTROY, none, str "tap7", [], 0⟩ (some ENXIO),
          .close .inet] :=
  (Destroy_not_idempotent freebsd64 (kernelWith (some ENXIO) (0, none)) (str "tap7")
    rfl (by decide) (by decide)).1


/-! ## Copying names and addresses into request blocks -/

/-- C29. `CopyString` does not complete normally for every input: on the empty
string (for every `maxLen`) and with `maxLen = 0` it takes the address of the
first byte of an empty slice and panics; for a non-empty source and a
positive `maxLen` it copies the leading `min(len(src), maxLen)` bytes. An
operation called with an empty interface name, which passes the length check,
therefore ends abnormally after opening and closing its socket. -/
theorem CopyString_empty_panics :
    (∀ maxLen, CopyString [] maxLen = .panic) ∧
    (∀ src, CopyString src 0 = .panic) ∧
    (∀ src maxLen, src ≠ [] → 0 < maxLen →
      CopyString src maxLen = .ret (src.take (min src.length maxLen))) ∧
    (∀ (k : Constants) (env : Kernel) (flag : Nat) (set : Bool),
      env.socket .inet = none → 0 < k.IFNAMSIZ →
      ifops.SetFlags k env [] flag set = ⟨[.socket .inet none, .close .inet], .panic⟩) ∧
    ifops.SetFlags freebsd64 (kernelWith none (0, none)) [] FlagUp true
      = ⟨[.socket .inet none, .close .inet], .panic⟩ := by
  have hempty : ∀ maxLen, CopyString [] maxLen = .panic := by
    intro maxLen
    simp [CopyString]
  have hgen : ∀ (k : Constants) (env : Kernel) (flag : Nat) (set : Bool),
      env.socket .inet = none → 0 < k.IFNAMSIZ →
      ifops.SetFlags k env [] flag set = ⟨[.socket .inet none, .close .inet], .panic⟩ := by
    intro k env flag set hs hn
    have hl : ¬ ([] : GoString).length ≥ k.IFNAMSIZ := by
      simp only [List.length_nil]
      omega
    unfold ifops.SetFlags
    rw [withSocket_open _ _ _ _ hs]
    unfold checkedName
    rw [if_neg hl, hempty]
    rfl
  refine ⟨hempty, ?_, ?_, hgen, hgen _ _ _ _ rfl (by decide)⟩
  · intro src
    unfold CopyString
    by_cases h : src.length > 0
    · simp [h]
    · have : src.length = 0 := by omega
      simp [this]
  · intro src maxLen h0 hm
    have hpos : 0 < src.length := List.length_pos.mpr h0
    unfold CopyString
    by_cases h : src.length > maxLen
    · have hmin : min src.length maxLen = maxLen := by omega
      have hne : ¬ min maxLen src.length = 0 := by omega
      simp [h, hmin, hne]
    · have hmin : min src.length maxLen = src.length := by omega
      have hne : ¬ src.length = 0 := by omega
      simp [h, hmin, hne]

/-- C30. The validation of `ip.Add6` and `ip.Del6` does not bound the length
of the address: a nil or empty address has a nil `To4()` and passes it, and the
transport function then takes `&ip[0]` of the empty slice and panics, for every
open inet6 socket and every non-empty interface name shorter than `IFNAMSIZ`;
a 7-byte address passes as well and reaches the ioctl, whose 16-byte copy then
starts at a slice of 7 bytes. -/
theorem ip_Add6_accepts_short_address :
    To4 ([] : List Nat) = none ∧
    (∀ (k : Constants) (env : Kernel) (iface : GoString) (prefixLen : Int),
      env.socket .inet6 = none → iface ≠ [] → iface.length < k.IFNAMSIZ →
      0 ≤ prefixLen → prefixLen ≤ 128 →
      ip.Add6 k env iface [] prefixLen = ⟨[.socket .inet6 none, .close .inet6], .panic⟩ ∧
      ip.Del6 k env iface [] prefixLen = ⟨[.socket .inet6 none, .close .inet6], .panic⟩) ∧
    ip.Add6 freebsd64 (kernelWith none (0, none)) (str "em0") [] 64
      = ⟨[.socket .inet6 none, .close .inet6], .panic⟩ ∧
    To4 [1, 2, 3, 4, 5, 6, 7] = none ∧
    ip.Add6 freebsd64 (kernelWith none (0, none)) (str "em0") [1, 2, 3, 4, 5, 6, 7] 64
      = ⟨[.socket .inet6 none,
          .ioctl ⟨freebsd64.SIOCAIFADDR_IN6, none, str "em0", [], 0⟩ none,
          .close .inet6], .ret none⟩ := by
  have hgen : ∀ (k : Constants) (env : Kernel) (iface : GoString) (prefixLen : Int),
      env.socket .inet6 = none → iface ≠ [] → iface.length < k.IFNAMSIZ →
      0 ≤ prefixLen → prefixLen ≤ 128 →
      ip.Add6 k env iface [] prefixLen = ⟨[.socket .inet6 none, .close .inet6], .panic⟩ ∧
      ip.Del6 k env iface [] prefixLen = ⟨[.socket .inet6 none, .close .inet6], .panic⟩ := by
    intro k env iface prefixLen hs h0 hl hp0 hp1
    have hv : ¬ (prefixLen < 0 ∨ prefixLen > 128) := by omega
    have hn : ¬ iface.length ≥ k.IFNAMSIZ := by omega
    have h4 : ¬ To4 ([] : List Nat) ≠ none := by simp [To4]
    constructor
    · unfold ip.Add6
      rw [if_neg h4, if_neg hv]
      unfold ipaddr.Add6
      simp only [hs]
      rw [if_neg hn, CopyString_ok _ _ h0 hl]
      rfl
    · unfold ip.Del6
      rw [if_neg h4, if_neg hv]
      unfold ipaddr.Del6
      simp only [hs]
      rw [if_neg hn, CopyString_ok _ _ h0 hl]
      rfl
  refine ⟨by decide, hgen, (hgen _ _ _ _ rfl (by decide) (by decide) (by decide) (by decide)).1,
    by decide, ?_⟩
  have h4 : ¬ To4 [1, 2, 3, 4, 5, 6, 7] ≠ none := by decide
  have hv : ¬ ((64 : Int) < 0 ∨ (64 : Int) > 128) := by decide
  have hn : ¬ (str "em0").length ≥ freebsd64.IFNAMSIZ := by decide
  unfold ip.Add6
  rw [if_neg h4, if_neg hv]
  unfold ipaddr.Add6
  have hs : (kernelWith none (0, none)).socket .inet6 = none := rfl
  simp only [hs]
  rw [if_neg hn, CopyString_ok _ _ (by decide) (by decide)]
  have hlen : ¬ ([1, 2, 3, 4, 5, 6, 7] : List Nat).length = 0 := by decide
  have hmask : ¬ (bytesOf (CIDRMask 64 128)).length = 0 := by decide
  simp only [if_neg hlen, if_neg hmask]
  rfl

/-! ## The routing message header and the LAGG protocol codes -/

set_option maxRecDepth 100000 in
/-- C24. The header `ModifyRoute` encodes is the packed image of the struct
the source declares, not the routing message header of the 64-bit ABI: it is
90 bytes long (not 152), the interface index is at offset 4, and the flags,
the address bitmask, the pid and the sequence number are at offsets 6, 10, 14
and 18 (not 8, 12, 16 and 20); on 64-bit FreeBSD the first address block
begins at offset 96 and a whole IPv4 message is 144 bytes. -/
theorem routeHeader_packed_layout (k : Constants) (add : Bool) (dst : IPNet)
    (gw : Option (List Nat)) (ifindex : Int) :
    (routeHeader k add dst gw ifindex).encode.length = 90 ∧
    ((routeHeader k add dst gw ifindex).encode.drop 4).take 2 = le16 (toUint16 ifindex) ∧
    ((routeHeader k add dst gw ifindex).encode.drop 6).take 4 = le32 (routeFlags k dst gw) ∧
    ((routeHeader k add dst gw ifindex).encode.drop 10).take 4
      = le32 (k.RTA_DST ||| k.RTA_GATEWAY ||| k.RTA_NETMASK) ∧
    ((routeHeader k add dst gw ifindex).encode.drop 14).take 4 = le32 0 ∧
    ((routeHeader k add dst gw ifindex).encode.drop 18).take 4 = le32 1 ∧
    (routeMessage freebsd64 true ⟨[10, 0, 0, 0], [255, 255, 255, 0]⟩
      (some [10, 0, 0, 1]) 3).length = 144 ∧
    ((routeMessage freebsd64 true ⟨[10, 0, 0, 0], [255, 255, 255, 0]⟩
      (some [10, 0, 0, 1]) 3).drop 6).take 4
      = le32 (routeFlags freebsd64 ⟨[10, 0, 0, 0], [255, 255, 255, 0]⟩ (some [10, 0, 0, 1])) ∧
    ((routeMessage freebsd64 true ⟨[10, 0, 0, 0], [255, 255, 255, 0]⟩
      (some [10, 0, 0, 1]) 3).drop 8).take 4
      ≠ le32 (routeFlags freebsd64 ⟨[10, 0, 0, 0], [255, 255, 255, 0]⟩ (some [10, 0, 0, 1])) ∧
    ((routeMessage freebsd64 true ⟨[10, 0, 0, 0], [255, 255, 255, 0]⟩
      (some [10, 0, 0, 1]) 3).drop 96).take 16 = sockaddrIn [10, 0, 0, 0] :=
  ⟨rfl, rfl, rfl, rfl, rfl, rfl, by decide, by decide, by decide, by decide⟩

theorem laggops_SetProto_ok (k : Constants) (env : Kernel) (name : GoString) (proto : Int)
    (hs : env.socket .inet = none) (h0 : name ≠ []) (hl : name.length < k.IFNAMSIZ) :
    laggops.SetProto k env name proto
      = ⟨[.socket .inet none,
          .ioctl ⟨k.SIOCSLAGG, none, name, [], toWord32 proto⟩
            (env.ioctl ⟨k.SIOCSLAGG, none, name, [], toWord32 proto⟩),
          .close .inet],
        .ret (Ioctl (env.ioctl ⟨k.SIOCSLAGG, none, name, [], toWord32 proto⟩))⟩ := by
  unfold laggops.SetProto
  rw [withSocket_open _ _ _ _ hs, checkedName_ok _ _ _ _ h0 hl]
  rfl

/-- C25. The `lagg.Proto` constants do not carry the kernel's codes of the
protocols they are named after: in the kernel's table the code of
`ProtoFailover` (1) is round-robin, that of `ProtoLoadBalance` (2) is failover,
that of `ProtoLACP` (3) is load-balance and that of `ProtoRoundRobin` (4) is
LACP; only `ProtoBroadcast` (5) agrees. `SetProto` passes the constant to the
kernel unchanged, so `SetProto(name, ProtoFailover)` asks for code 1. -/
theorem lagg_Proto_codes_differ_from_kernel :
    kernelLaggName lagg.ProtoFailover = some "roundrobin" ∧
    kernelLaggName lagg.ProtoLoadBalance = some "failover" ∧
    kernelLaggName lagg.ProtoLACP = some "loadbalance" ∧
    kernelLaggName lagg.ProtoRoundRobin = some "lacp" ∧
    kernelLaggName lagg.ProtoBroadcast = some "broadcast" ∧
    lagg.Proto.String lagg.ProtoFailover = str "failover" ∧
    (lagg.SetProto freebsd64 (kernelWith none (0, none)) (str "lagg0") lagg.ProtoFailover).events
      = [.socket .inet none,
          .ioctl ⟨freebsd64.SIOCSLAGG, none, str "lagg0", [], 1⟩ none,
          .close .inet] := by
  refine ⟨by decide, by decide, by decide, by decide, by decide, by decide, ?_⟩
  rw [lagg.SetProto, wrapErr_events,
    laggops_SetProto_ok freebsd64 (kernelWith none (0, none)) (str "lagg0") lagg.ProtoFailover
      rfl (by decide) (by decide)]
  rfl


/-! ## Interface flag predicates and epair names -/

theorem and_two_pow_ne_zero (f i : Nat) : (f &&& 2 ^ i != 0) = f.testBit i := by
  rw [Nat.and_two_pow]
  cases f.testBit i
  · simp
  · have : 2 ^ i ≠ 0 := by positivity
    simp [this]

theorem testBit_compl32 (m i : Nat) (hi : i < 32) :
    (4294967295 - m % 4294967296).testBit i = !m.testBit i := by
  have h32 : (2 : Nat) ^ 32 = 4294967296 := by norm_num
  have hlt : m % 2 ^ 32 < 2 ^ 32 := Nat.mod_lt _ (by positivity)
  have e : 4294967295 - m % 4294967296 = 2 ^ 32 - (m % 2 ^ 32 + 1) := by
    rw [h32]
    omega
  rw [e, Nat.testBit_two_pow_sub_succ hlt, Nat.testBit_mod_two_pow]
  simp [hi]

theorem testBit_mod32 (m i : Nat) (hi : i < 32) :
    (m % 4294967296).testBit i = m.testBit i := by
  have h32 : (4294967296 : Nat) = 2 ^ 32 := by norm_num
  rw [h32, Nat.testBit_mod_two_pow]
  simp [hi]

theorem IsUp_eq_testBit (f : Nat) : IsUp f = f.testBit 0 := and_two_pow_ne_zero f 0

theorem IsRunning_eq_testBit (f : Nat) : IsRunning f = f.testBit 6 := and_two_pow_ne_zero f 6

theorem IsLoopback_eq_testBit (f : Nat) : IsLoopback f = f.testBit 3 := and_two_pow_ne_zero f 3

/-- C28. For every flags word `f`, `IsUp` holds exactly when bit 0 (`0x1`) is
set, `IsRunning` exactly when bit 6 (`0x40`) is set and `IsLoopback` exactly
when bit 3 (`0x8`) is set; each predicate is true on its own flag constant,
false on 0, and unchanged when bits other than its own are set (`f | m`) or
cleared (`f &^ m` on 32-bit words). -/
theorem flag_predicates_test_one_bit (f : Nat) :
    IsUp f = f.testBit 0 ∧ IsRunning f = f.testBit 6 ∧ IsLoopback f = f.testBit 3 ∧
    IsUp FlagUp = true ∧ IsRunning FlagRunning = true ∧ IsLoopback FlagLoopback = true ∧
    IsUp 0 = false ∧ IsRunning 0 = false ∧ IsLoopback 0 = false ∧
    (∀ m, m.testBit 0 = false →
      IsUp (f ||| m) = IsUp f ∧ IsUp (f &&& (4294967295 - m % 4294967296)) = IsUp f) ∧
    (∀ m, m.testBit 6 = false →
      IsRunning (f ||| m) = IsRunning f ∧
      IsRunning (f &&& (4294967295 - m % 4294967296)) = IsRunning f) ∧
    (∀ m, m.testBit 3 = false →
      IsLoopback (f ||| m) = IsLoopback f ∧
      IsLoopback (f &&& (4294967295 - m % 4294967296)) = IsLoopback f) := by
  refine ⟨IsUp_eq_testBit f, IsRunning_eq_testBit f, IsLoopback_eq_testBit f, by decide,
    by decide, by decide, by decide, by decide, by decide, ?_, ?_, ?_⟩
  · intro m hm
    rw [IsUp_eq_testBit, IsUp_eq_testBit, IsUp_eq_testBit, Nat.testBit_or, Nat.testBit_and,
      testBit_compl32 m 0 (by norm_num), hm]
    simp
  · intro m hm
    rw [IsRunning_eq_testBit, IsRunning_eq_testBit, IsRunning_eq_testBit, Nat.testBit_or,
      Nat.testBit_and, testBit_compl32 m 6 (by norm_num), hm]
    simp
  · intro m hm
    rw [IsLoopback_eq_testBit, IsLoopback_eq_testBit, IsLoopback_eq_testBit, Nat.testBit_or,
      Nat.testBit_and, testBit_compl32 m 3 (by norm_num), hm]
    simp

theorem TrimSuffix_append (pre suffix : GoString) : TrimSuffix (pre ++ suffix) suffix = pre := by
  have h : suffix.isSuffixOf (pre ++ suffix) = true :=
    List.isSuffixOf_iff_suffix.mpr (List.suffix_append pre suffix)
  simp [TrimSuffix, h]

theorem cloneops_Create_ok (k : Constants) (env : Kernel) (pfx : GoString)
    (hs : env.socket .inet = none) (h0 : pfx ≠ []) (hl : pfx.length < k.IFNAMSIZ)
    (hi : env.ioctl ⟨k.SIOCIFCREATE, none, pfx, [], 0⟩ = none) :
    cloneops.Create k env pfx
      = ⟨[.socket .inet none, .ioctl ⟨k.SIOCIFCREATE, none, pfx, [], 0⟩ none, .close .inet],
        .ret ((env.reply ⟨k.SIOCIFCREATE, none, pfx, [], 0⟩).name, none)⟩ := by
  unfold cloneops.Create
  rw [withSocket_open _ _ _ _ hs, checkedName_ok _ _ _ _ h0 hl]
  simp [issue, hi]

/-- C27. When the clone ioctl for the prefix "epair" succeeds and leaves the
name `A`, `epair.Create` returns the pair with A-side `A` and B-side
`TrimSuffix(A, "a") + "b"` and a nil error. For every `A` that B-side name
ends in "b", and whenever `A` is `pre + "a"` it is `pre + "b"`: of the same
length as `A` and different from it only in the last character. -/
theorem epair_Create_names (k : Constants) (env : Kernel)
    (hs : env.socket .inet = none) (hn : 5 < k.IFNAMSIZ)
    (hi : env.ioctl ⟨k.SIOCIFCREATE, none, str "epair", [], 0⟩ = none) :
    (epair.Create k env).out
      = .ret (⟨(env.reply ⟨k.SIOCIFCREATE, none, str "epair", [], 0⟩).name,
          TrimSuffix (env.reply ⟨k.SIOCIFCREATE, none, str "epair", [], 0⟩).name (str "a")
            ++ str "b"⟩, none) ∧
    (∀ A : GoString, ∃ pre, TrimSuffix A (str "a") ++ str "b" = pre ++ str "b") ∧
    (∀ A pre : GoString, A = pre ++ str "a" →
      TrimSuffix A (str "a") ++ str "b" = pre ++ str "b" ∧
      (TrimSuffix A (str "a") ++ str "b").length = A.length ∧
      (TrimSuffix A (str "a") ++ str "b").dropLast = A.dropLast ∧
      TrimSuffix A (str "a") ++ str "b" ≠ A) := by
  refine ⟨?_, fun A => ⟨_, rfl⟩, ?_⟩
  · have h := cloneops_Create_ok k env (str "epair") hs (by decide)
      (by
        have : (str "epair").length = 5 := by decide
        omega) hi
    unfold epair.Create
    rw [h]
  · intro A pre hA
    subst hA
    rw [TrimSuffix_append]
    have hb : str "b" = [98] := by decide
    have ha : str "a" = [97] := by decide
    rw [hb, ha]
    refine ⟨rfl, by simp, by simp, ?_⟩
    intro h
    have := List.append_cancel_left h
    simp at this

/-- Witness of C27: the kernel names the new interface "epair0a". -/
theorem epair_Create_names_witness :
    (epair.Create freebsd64 (kernelReplying ⟨0, str "epair0a", 0, 0, []⟩)).out
      = .ret (⟨str "epair0a", TrimSuffix (str "epair0a") (str "a") ++ str "b"⟩, none) ∧
    TrimSuffix (str "epair0a") (str "a") ++ str "b" = str "epair0b" :=
  ⟨(epair_Create_names freebsd64 (kernelReplying ⟨0, str "epair0a", 0, 0, []⟩) rfl
    (by decide) rfl).1, by decide⟩


/-! ## Socket scoping, name bounds and the order of validation -/

/-- C20. In every socket-opening transport call: if socket creation fails, the
failed creation is the only event (no ioctl, no write, no close) and the call
returns the mapped error; if it succeeds, the events are the open, then only
ioctls and writes, then the close as the last event, and the close occurs
exactly once, on every exit path (validation failure, ioctl or write failure,
success, abnormal end). -/
theorem socket_closed_once_in_every_call (k : Constants) (env : Kernel)
    (call : TransportCall) :
    (∀ e, env.socket call.kind = some e →
      call.run k env = ⟨[.socket call.kind (some e)], .ret (mapErrno e)⟩) ∧
    (env.socket call.kind = none →
      ∃ mid, (call.run k env).events = .socket call.kind none :: (mid ++ [.close call.kind]) ∧
        (∀ ev, ev ∈ mid → ev.usesSocket = true) ∧
        (call.run k env).events.count (.close call.kind) = 1 ∧
        (call.run k env).events.getLast? = some (.close call.kind)) := by
  refine ⟨fun e hs => call_socket_fail k env call e hs, ?_⟩
  intro hs
  have h := call_scoped k env call
  unfold socketScoped at h
  rw [hs] at h
  obtain ⟨mid, he, hm⟩ := h
  refine ⟨mid, he, hm, ?_, ?_⟩
  · have hc : mid.count (.close call.kind) = 0 := by
      rw [List.count_eq_zero]
      intro hmem
      have := hm _ hmem
      simp [Event.usesSocket] at this
    rw [he, List.count_cons, List.count_append, hc]
    simp
  · rw [he]
    simp [List.getLast?_cons, List.getLast?_append]

/-- C16. For a positive size of the bridge member record: a transport call
given an interface name of `IFNAMSIZ` bytes or more returns a non-nil error
and issues no ioctl; and every ioctl a call issues carries in its request
block the call's first name, and as payload name no name or the call's second
name, in full, each shorter than `IFNAMSIZ`: no request carries a truncated
name. -/
theorem long_name_never_reaches_ioctl (k : Constants) (env : Kernel) (call : TransportCall)
    (hrec : 0 < k.sizeofIfbreq) :
    ((∃ n, n ∈ call.names ∧ k.IFNAMSIZ ≤ n.length) →
      (∃ err, (call.run k env).out = .ret (some err)) ∧
      ∀ req ans, Event.ioctl req ans ∉ (call.run k env).events) ∧
    (∀ req ans, Event.ioctl req ans ∈ (call.run k env).events →
      (∀ n, n ∈ call.names → n ≠ [] ∧ n.length < k.IFNAMSIZ) ∧
      req.name = call.names.headD [] ∧ req.name.length < k.IFNAMSIZ ∧
      (req.arg = [] ∨ (req.arg = call.names.getD 1 [] ∧ req.arg.length < k.IFNAMSIZ))) := by
  constructor
  · rintro ⟨n, hn, hl⟩
    constructor
    · cases hs : env.socket call.kind with
      | some e =>
        rw [call_socket_fail k env call e hs]
        cases hm : mapErrno e with
        | none => exact absurd hm (mapErrno_ne_none e)
        | some err => exact ⟨err, rfl⟩
      | none =>
        obtain ⟨err, he⟩ := call_rejects k env call hrec hs (Or.inl ⟨n, hn, hl⟩)
        exact ⟨err, by rw [he]⟩
    · intro req ans hmem
      have := ((call_ioctl_names k env call req ans hmem).1 n hn).2
      omega
  · intro req ans hmem
    obtain ⟨hnames, hname, harg, -⟩ := call_ioctl_names k env call req ans hmem
    have hne : call.names ≠ [] := by
      intro h0
      cases call <;> simp [TransportCall.names] at h0
      exact ModifyRoute_no_ioctl k env _ _ _ _ req ans hmem
    have hhead : call.names.headD [] ∈ call.names := by
      cases hc : call.names with
      | nil => exact absurd hc hne
      | cons a t => simp
    refine ⟨hnames, hname, ?_, ?_⟩
    · rw [hname]
      exact (hnames _ hhead).2
    · rcases harg with h | h
      · exact Or.inl h
      · by_cases h1 : req.arg = []
        · exact Or.inl h1
        · right
          refine ⟨h, ?_⟩
          have hmem2 : call.names.getD 1 [] ∈ call.names := by
            rw [h] at h1
            cases hc : call.names with
            | nil => exact absurd hc hne
            | cons a t =>
              cases t with
              | nil => rw [hc] at h1; simp at h1
              | cons b u => simp
          rw [h]
          exact (hnames _ hmem2).2

/-- Witness of C16: on 64-bit FreeBSD, `ifops.SetMTU` with a 16-byte name
issues no ioctl. -/
theorem long_name_never_reaches_ioctl_witness :
    0 < freebsd64.sizeofIfbreq ∧
    ∀ req ans, Event.ioctl req ans ∉
      (TransportCall.run freebsd64 (kernelWith none (0, none))
        (.SetMTU (List.replicate 16 97) 1500)).events :=
  ⟨by decide,
    ((long_name_never_reaches_ioctl freebsd64 (kernelWith none (0, none))
      (.SetMTU (List.replicate 16 97) 1500) (by decide)).1
      ⟨List.replicate 16 97, by simp [TransportCall.names], by decide⟩).2⟩

/-- C15 (counterexample). `vlanops.Configure` with the out-of-range tag 0
creates the control socket before it looks at the tag: on a kernel where
socket creation fails with `EPERM` it returns `ErrPermission`, and on a kernel
where it succeeds it opens and closes the socket and returns the validation
error, so the result depends on whether socket creation succeeds. The same
holds for `ifops.SetMTU` with a 16-byte name. -/
theorem validation_after_socket_open :
    vlanops.Configure freebsd64 (kernelNoSocket EPERM) (str "vlan0") 0 (str "em0")
      = ⟨[.socket .inet (some EPERM)], .ret (some (.sentinel .ErrPermission))⟩ ∧
    vlanops.Configure freebsd64 (kernelWith none (0, none)) (str "vlan0") 0 (str "em0")
      = ⟨[.socket .inet none, .close .inet],
          .ret (some (.validation "tag" (str "0") "must be between 1 and 4094"))⟩ ∧
    ifops.SetMTU freebsd64 (kernelNoSocket EPERM) (List.replicate 16 97) 1500
      = ⟨[.socket .inet (some EPERM)], .ret (some (.sentinel .ErrPermission))⟩ ∧
    ifops.SetMTU freebsd64 (kernelWith none (0, none)) (List.replicate 16 97) 1500
      = ⟨[.socket .inet none, .close .inet],
          .ret (some (.plain "interface name too long: %s"))⟩ := by
  refine ⟨by decide, by decide, by decide, by decide⟩

/-- C15 (amended). For a positive size of the bridge member record, in each
transport call whose name has `IFNAMSIZ` bytes or more, or whose VLAN tag is
out of range: the socket is created first; when the creation fails the call
returns the mapped socket error and nothing else happens; when it succeeds
the call closes the socket and returns a non-nil error; in both cases no
ioctl is issued. -/
theorem validation_follows_socket (k : Constants) (env : Kernel) (call : TransportCall)
    (hrec : 0 < k.sizeofIfbreq)
    (h : (∃ n, n ∈ call.names ∧ k.IFNAMSIZ ≤ n.length) ∨ call.tagOutOfRange) :
    (∀ e, env.socket call.kind = some e →
      call.run k env = ⟨[.socket call.kind (some e)], .ret (mapErrno e)⟩) ∧
    (env.socket call.kind = none →
      ∃ err, call.run k env
        = ⟨[.socket call.kind none, .close call.kind], .ret (some err)⟩) ∧
    (∀ req ans, Event.ioctl req ans ∉ (call.run k env).events) := by
  refine ⟨fun e hs => call_socket_fail k env call e hs,
    fun hs => call_rejects k env call hrec hs h, ?_⟩
  intro req ans hmem
  obtain ⟨hnames, -, -, htag⟩ := call_ioctl_names k env call req ans hmem
  rcases h with ⟨n, hn, hl⟩ | ht
  · have := (hnames n hn).2
    omega
  · exact htag ht

/-- Witness of C15 (amended): `vlanops.Configure` with tag 4095 on 64-bit
FreeBSD. -/
theorem validation_follows_socket_witness :
    0 < freebsd64.sizeofIfbreq ∧
    (TransportCall.Configure (str "vlan0") 4095 (str "em0")).tagOutOfRange ∧
    ∀ req ans, Event.ioctl req ans ∉
      (TransportCall.run freebsd64 (kernelWith none (0, none))
        (.Configure (str "vlan0") 4095 (str "em0"))).events :=
  ⟨by decide, Or.inr (by decide),
    (validation_follows_socket freebsd64 (kernelWith none (0, none))
      (.Configure (str "vlan0") 4095 (str "em0")) (by decide) (Or.inr (Or.inr (by decide)))).2.2⟩


/-! ## Names of the LAGG protocols -/

theorem digitChar_toNat (m : Nat) (h : m < 10) : (Nat.digitChar m).toNat = 48 + m := by
  interval_cases m <;> rfl

theorem toDigitsCore_decode (fuel : Nat) : ∀ (n : Nat) (ds : List Char), n < fuel →
    ((Nat.toDigitsCore 10 fuel n ds).map Char.toNat).foldl (fun acc c => acc * 10 + (c - 48)) 0
      = (ds.map Char.toNat).foldl (fun acc c => acc * 10 + (c - 48)) n := by
  induction fuel with
  | zero => intro n ds h; omega
  | succ fuel ih =>
    intro n ds hn
    have hd : (Nat.digitChar (n % 10)).toNat - 48 = n % 10 := by
      rw [digitChar_toNat _ (Nat.mod_lt _ (by norm_num))]
      omega
    rw [Nat.toDigitsCore]
    by_cases h0 : n / 10 = 0
    · simp only [h0, if_true, List.map_cons, List.foldl_cons, hd]
      have : 0 * 10 + n % 10 = n := by omega
      rw [this]
    · simp only [h0, if_false]
      rw [ih (n / 10) _ (by omega)]
      simp only [List.map_cons, List.foldl_cons, hd]
      have : n / 10 * 10 + n % 10 = n := by omega
      rw [this]

theorem toDigitsCore_bytes (fuel : Nat) : ∀ (n : Nat) (ds : List Char),
    (∀ c, c ∈ ds → 48 ≤ c.toNat) → ∀ c, c ∈ Nat.toDigitsCore 10 fuel n ds → 48 ≤ c.toNat := by
  induction fuel with
  | zero =>
    intro n ds h c hc
    rw [Nat.toDigitsCore] at hc
    exact h c hc
  | succ fuel ih =>
    intro n ds h c hc
    have hd : 48 ≤ (Nat.digitChar (n % 10)).toNat := by
      rw [digitChar_toNat _ (Nat.mod_lt _ (by norm_num))]
      omega
    have hcons : ∀ c, c ∈ Nat.digitChar (n % 10) :: ds → 48 ≤ c.toNat := by
      intro c hc
      rcases List.mem_cons.mp hc with rfl | hc
      · exact hd
      · exact h c hc
    rw [Nat.toDigitsCore] at hc
    by_cases h0 : n / 10 = 0
    · simp only [h0, if_true] at hc
      exact hcons c hc
    · simp only [h0, if_false] at hc
      exact ih _ _ hcons c hc

theorem decimalValue_sprintfD (n : Nat) : decimalValue (sprintfD n) = n := by
  unfold decimalValue sprintfD Nat.toDigits
  rw [toDigitsCore_decode (n + 1) n [] (by omega)]
  rfl

theorem sprintfD_bytes (n : Nat) (c : Nat) (h : c ∈ sprintfD n) : 48 ≤ c := by
  unfold sprintfD Nat.toDigits at h
  obtain ⟨ch, hch, rfl⟩ := List.mem_map.mp h
  exact toDigitsCore_bytes (n + 1) n [] (by simp) ch hch

theorem signedDecimalValue_fmtInt (i : Int) : signedDecimalValue (fmtInt i) = i := by
  unfold fmtInt
  by_cases h : i < 0
  · rw [if_pos h]
    simp only [signedDecimalValue, List.head?_cons, if_true, List.tail_cons,
      decimalValue_sprintfD]
    omega
  · rw [if_neg h]
    have hh : (sprintfD i.toNat).head? ≠ some 45 := by
      intro h45
      have hmem : 45 ∈ sprintfD i.toNat := List.mem_of_mem_head? h45
      have := sprintfD_bytes _ _ hmem
      omega
    simp only [signedDecimalValue, if_neg hh, decimalValue_sprintfD]
    omega

theorem fmtInt_injective (p q : Int) (h : fmtInt p = fmtInt q) : p = q := by
  have := congrArg signedDecimalValue h
  rwa [signedDecimalValue_fmtInt, signedDecimalValue_fmtInt] at this

theorem Proto_String_named_or_unknown (p : Int) :
    (p = 1 ∨ p = 2 ∨ p = 3 ∨ p = 4 ∨ p = 5) ∨
    ((¬ (p = 1 ∨ p = 2 ∨ p = 3 ∨ p = 4 ∨ p = 5)) ∧
      lagg.Proto.String p = str "unknown(" ++ fmtInt p ++ str ")") := by
  by_cases h : p = 1 ∨ p = 2 ∨ p = 3 ∨ p = 4 ∨ p = 5
  · exact Or.inl h
  · right
    refine ⟨h, ?_⟩
    have h1 : ¬ p = 1 := fun e => h (Or.inl e)
    have h2 : ¬ p = 2 := fun e => h (Or.inr (Or.inl e))
    have h3 : ¬ p = 3 := fun e => h (Or.inr (Or.inr (Or.inl e)))
    have h4 : ¬ p = 4 := fun e => h (Or.inr (Or.inr (Or.inr (Or.inl e))))
    have h5 : ¬ p = 5 := fun e => h (Or.inr (Or.inr (Or.inr (Or.inr e))))
    simp only [lagg.Proto.String, lagg.ProtoFailover, lagg.ProtoLoadBalance, lagg.ProtoLACP,
      lagg.ProtoRoundRobin, lagg.ProtoBroadcast, if_neg h1, if_neg h2, if_neg h3, if_neg h4,
      if_neg h5]

theorem Proto_String_named_head (p : Int) (h : p = 1 ∨ p = 2 ∨ p = 3 ∨ p = 4 ∨ p = 5) :
    (lagg.Proto.String p).head? ≠ some 117 := by
  rcases h with rfl | rfl | rfl | rfl | rfl <;> decide

theorem Proto_String_unknown_head (p : Int) :
    (str "unknown(" ++ fmtInt p ++ str ")").head? = some 117 := by
  have : str "unknown(" = 117 :: str "nknown(" := by decide
  rw [this]
  rfl

/-- C26. `Proto.String` returns "failover", "loadbalance", "lacp", "roundrobin"
and "broadcast" for the five protocol constants and, for every other value
`n`, "unknown(" followed by what `%d` prints for `n` (a decimal rendering that
reads back as `n`) and ")"; it is injective on all values. -/
theorem Proto_String_injective :
    lagg.Proto.String lagg.ProtoFailover = str "failover" ∧
    lagg.Proto.String lagg.ProtoLoadBalance = str "loadbalance" ∧
    lagg.Proto.String lagg.ProtoLACP = str "lacp" ∧
    lagg.Proto.String lagg.ProtoRoundRobin = str "roundrobin" ∧
    lagg.Proto.String lagg.ProtoBroadcast = str "broadcast" ∧
    (∀ n : Int, n ≠ lagg.ProtoFailover → n ≠ lagg.ProtoLoadBalance → n ≠ lagg.ProtoLACP →
      n ≠ lagg.ProtoRoundRobin → n ≠ lagg.ProtoBroadcast →
      lagg.Proto.String n = str "unknown(" ++ fmtInt n ++ str ")" ∧
      signedDecimalValue (fmtInt n) = n) ∧
    lagg.Proto.String 99 = str "unknown(99)" ∧
    lagg.Proto.String (-7) = str "unknown(-7)" ∧
    (∀ p q : Int, lagg.Proto.String p = lagg.Proto.String q → p = q) := by
  refine ⟨by decide, by decide, by decide, by decide, by decide, ?_, by decide, by decide, ?_⟩
  · intro n h1 h2 h3 h4 h5
    rcases Proto_String_named_or_unknown n with h | ⟨-, h⟩
    · simp only [lagg.ProtoFailover, lagg.ProtoLoadBalance, lagg.ProtoLACP,
        lagg.ProtoRoundRobin, lagg.ProtoBroadcast] at h1 h2 h3 h4 h5
      rcases h with h | h | h | h | h
      · exact absurd h h1
      · exact absurd h h2
      · exact absurd h h3
      · exact absurd h h4
      · exact absurd h h5
    · exact ⟨h, signedDecimalValue_fmtInt n⟩
  · intro p q h
    rcases Proto_String_named_or_unknown p with hp | ⟨-, hp⟩
    · rcases Proto_String_named_or_unknown q with hq | ⟨-, hq⟩
      · rcases hp with rfl | rfl | rfl | rfl | rfl <;>
          rcases hq with rfl | rfl | rfl | rfl | rfl <;>
            first
              | rfl
              | exact absurd h (by decide)
      · have h1 := Proto_String_named_head p hp
        rw [h, hq, Proto_String_unknown_head] at h1
        exact absurd rfl h1
    · rcases Proto_String_named_or_unknown q with hq | ⟨-, hq⟩
      · have h1 := Proto_String_named_head q hq
        rw [← h, hp, Proto_String_unknown_head] at h1
        exact absurd rfl h1
      · rw [hp, hq] at h
        exact fmtInt_injective p q (List.append_cancel_left (List.append_cancel_right h))


theorem vlanops_Configure_tag_zero (k : Constants) (env : Kernel) (hs : env.socket .inet = none) :
    ∃ err, (vlanops.Configure k env (str "vlan0") 0 (str "em0")).out = .ret (some err) ∧
      errorsIs (some err) .ErrInvalidArgument = true := by
  unfold vlanops.Configure
  simp only [hs]
  by_cases hl : (str "vlan0").length ≥ k.IFNAMSIZ ∨ (str "em0").length ≥ k.IFNAMSIZ
  · rw [if_pos hl]
    exact ⟨_, rfl, rfl⟩
  · rw [if_neg hl]
    simp only [true_or, if_true]
    exact ⟨_, rfl, rfl⟩


/-! ## The kind of the validation errors -/

/-- C14. Not every validation failure is of kind InvalidArgument. With the
control socket open and a name of `IFNAMSIZ` bytes or more, the functions of
`ifops`, `cloneops`, `bridgeops` and `ipaddr` return an error built by
`fmt.Errorf`, for which `errors.Is(err, ErrInvalidArgument)` is false, and so
do the route functions on a family mismatch; the functions of `vlanops` and
`laggops` return a validation error for the same long name, as do
`vlanops.Configure` for a tag out of range and `ip.Add4` for an address that
is not IPv4, and for these `errors.Is(err, ErrInvalidArgument)` is true. -/
theorem name_too_long_not_InvalidArgument (k : Constants) (env : Kernel)
    (name other : GoString) (flag : Nat) (set : Bool) (mtu proto : Int) (tag : Nat)
    (addr mask : List Nat)
    (hs : env.socket .inet = none) (hl : k.IFNAMSIZ ≤ name.length) :
    (∀ r, r ∈ [ifops.SetFlags k env name flag set, ifops.SetMTU k env name mtu,
        ifops.Rename k env name other, errorOf Prod.snd (cloneops.Create k env name),
        cloneops.Destroy k env name, bridgeops.AddMember k env name other,
        bridgeops.DelMember k env name other, ipaddr.Add4 k env name addr mask,
        ipaddr.Del4 k env name addr mask] →
      ∃ err, r.out = .ret (some err) ∧ errorsIs (some err) .ErrInvalidArgument = false ∧
        err.asValidation = false) ∧
    (∀ (d : IPNet) (gw : Option (List Nat)) (iface : GoString),
      (To4 d.IP = none ∨ To4 (bytesOf gw) = none) →
      ∃ err, (route.AddRoute4 k env (some d) gw iface).out = .ret (some err) ∧
        errorsIs (some err) .ErrInvalidArgument = false) ∧
    (∀ r, r ∈ [vlanops.Configure k env name tag other, laggops.SetProto k env name proto,
        laggops.AddPort k env name other, laggops.DelPort k env name other,
        vlanops.Configure k env (str "vlan0") 0 (str "em0"),
        ip.Add4 k env name (List.replicate 16 1) mask] →
      ∃ err, r.out = .ret (some err) ∧ errorsIs (some err) .ErrInvalidArgument = true) := by
  have hge : name.length ≥ k.IFNAMSIZ := hl
  refine ⟨?_, ?_, ?_⟩
  · intro r hr
    simp only [List.mem_cons, List.mem_singleton, List.not_mem_nil, or_false] at hr
    rcases hr with rfl | rfl | rfl | rfl | rfl | rfl | rfl | rfl | rfl
    · unfold ifops.SetFlags
      rw [withSocket_open _ _ _ _ hs, checkedName_long _ _ _ _ hl]
      exact ⟨_, rfl, rfl, rfl⟩
    · unfold ifops.SetMTU
      rw [withSocket_open _ _ _ _ hs, checkedName_long _ _ _ _ hl]
      exact ⟨_, rfl, rfl, rfl⟩
    · unfold ifops.Rename
      rw [withSocket_open _ _ _ _ hs, checkedNames_long _ _ _ _ _ (Or.inl hl)]
      exact ⟨_, rfl, rfl, rfl⟩
    · unfold cloneops.Create
      rw [withSocket_open _ _ _ _ hs, checkedName_long _ _ _ _ hl]
      exact ⟨_, rfl, rfl, rfl⟩
    · unfold cloneops.Destroy
      rw [withSocket_open _ _ _ _ hs, checkedName_long _ _ _ _ hl]
      exact ⟨_, rfl, rfl, rfl⟩
    · unfold bridgeops.AddMember bridgeops.member
      simp only [hs]
      rw [if_pos (Or.inl hge)]
      exact ⟨_, rfl, rfl, rfl⟩
    · unfold bridgeops.DelMember bridgeops.member
      simp only [hs]
      rw [if_pos (Or.inl hge)]
      exact ⟨_, rfl, rfl, rfl⟩
    · unfold ipaddr.Add4
      simp only [hs]
      rw [if_pos hge]
      exact ⟨_, rfl, rfl, rfl⟩
    · unfold ipaddr.Del4
      simp only [hs]
      rw [if_pos hge]
      exact ⟨_, rfl, rfl, rfl⟩
  · intro d gw iface h
    unfold route.AddRoute4 route.modify4
    by_cases h1 : To4 d.IP = none
    · exact ⟨.plain "not an IPv4 network: %v", by simp only [h1, if_true], rfl⟩
    · have h2 : To4 (bytesOf gw) = none := h.resolve_left h1
      exact ⟨.plain "not an IPv4 address: %v", by simp only [if_neg h1, h2, if_true], rfl⟩
  · intro r hr
    simp only [List.mem_cons, List.mem_singleton, List.not_mem_nil, or_false] at hr
    rcases hr with rfl | rfl | rfl | rfl | rfl | rfl
    · unfold vlanops.Configure
      simp only [hs]
      rw [if_pos (Or.inl hge)]
      exact ⟨_, rfl, rfl⟩
    · unfold laggops.SetProto
      rw [withSocket_open _ _ _ _ hs, checkedName_long _ _ _ _ hl]
      exact ⟨_, rfl, rfl⟩
    · unfold laggops.AddPort
      rw [withSocket_open _ _ _ _ hs, checkedNames_long _ _ _ _ _ (Or.inl hl)]
      exact ⟨_, rfl, rfl⟩
    · unfold laggops.DelPort
      rw [withSocket_open _ _ _ _ hs, checkedNames_long _ _ _ _ _ (Or.inl hl)]
      exact ⟨_, rfl, rfl⟩
    · obtain ⟨err, he⟩ := vlanops_Configure_tag_zero k env hs
      exact ⟨err, he.1, he.2⟩
    · have h4 : To4 (List.replicate 16 1) = none := by decide
      refine ⟨.validation "ip" [] "not an IPv4 address", ?_, rfl⟩
      unfold ip.Add4
      rw [if_pos h4]
      rfl

/-- Witness of C14: `ifops.SetFlags` with a 16-byte name on 64-bit FreeBSD
returns a plain error. -/
theorem name_too_long_not_InvalidArgument_witness :
    ∃ err, (ifops.SetFlags freebsd64 (kernelWith none (0, none)) (List.replicate 16 97)
        FlagUp true).out = .ret (some err) ∧
      errorsIs (some err) .ErrInvalidArgument = false ∧ err.asValidation = false :=
  (name_too_long_not_InvalidArgument freebsd64 (kernelWith none (0, none))
    (List.replicate 16 97) (str "em0") FlagUp true 1500 1 100 [10, 0, 0, 1] [255, 255, 255, 0]
    rfl (by decide)).1 _ (by simp)


/-! ## Setting the LAGG protocol and the interface flags -/

/-- C17 (counterexample). `lagg.SetProto` called with the value 99, which is
none of the five protocol constants, on a kernel that accepts the request,
issues the set-protocol ioctl carrying 99 and returns nil. -/
theorem lagg_SetProto_passes_unknown_value :
    lagg.SetProto freebsd64 (kernelWith none (0, none)) (str "lagg0") 99
      = ⟨[.socket .inet none,
          .ioctl ⟨freebsd64.SIOCSLAGG, none, str "lagg0", [], 99⟩ none,
          .close .inet], .ret none⟩ ∧
    (99 : Int) ∉ [lagg.ProtoFailover, lagg.ProtoLoadBalance, lagg.ProtoLACP,
      lagg.ProtoRoundRobin, lagg.ProtoBroadcast] := by
  refine ⟨?_, by decide⟩
  rw [lagg.SetProto, laggops_SetProto_ok freebsd64 (kernelWith none (0, none)) (str "lagg0") 99
    rfl (by decide) (by decide)]
  rfl

/-- C17 (amended). With the control socket open and a non-empty name shorter
than `IFNAMSIZ`, `lagg.SetProto` issues the set-protocol ioctl for every
protocol value, one of the five constants or not, carrying the value converted
to `u_int`; it returns nil exactly when the kernel accepts the request, and
when the kernel fails it with errno `e` it returns the mapped error of `e`
wrapped in its message, which is of kind InvalidArgument when `e` is `EINVAL`. -/
theorem lagg_SetProto_any_value (k : Constants) (env : Kernel) (name : GoString) (proto : Int)
    (hs : env.socket .inet = none) (h0 : name ≠ []) (hl : name.length < k.IFNAMSIZ) :
    (lagg.SetProto k env name proto).events
      = [.socket .inet none,
          .ioctl ⟨k.SIOCSLAGG, none, name, [], toWord32 proto⟩
            (env.ioctl ⟨k.SIOCSLAGG, none, name, [], toWord32 proto⟩), .close .inet] ∧
    (env.ioctl ⟨k.SIOCSLAGG, none, name, [], toWord32 proto⟩ = none →
      (lagg.SetProto k env name proto).out = .ret none) ∧
    (∀ e, env.ioctl ⟨k.SIOCSLAGG, none, name, [], toWord32 proto⟩ = some e →
      ∃ inner, mapErrno e = some inner ∧
        (lagg.SetProto k env name proto).out
          = .ret (some (.wrapped "set lagg %s protocol to %s: %w" inner)) ∧
        (e = EINVAL → inner = .sentinel .ErrInvalidArgument)) := by
  have h := laggops_SetProto_ok k env name proto hs h0 hl
  refine ⟨?_, ?_, ?_⟩
  · rw [lagg.SetProto, wrapErr_events, h]
  · intro hi
    rw [lagg.SetProto, h, hi]
    rfl
  · intro e hi
    cases hm : mapErrno e with
    | none => exact absurd hm (mapErrno_ne_none e)
    | some inner =>
      refine ⟨inner, rfl, ?_, ?_⟩
      · rw [lagg.SetProto, h, hi]
        simp [wrapErr, Ioctl, hm]
      · intro he
        subst he
        have : mapErrno EINVAL = some (.sentinel .ErrInvalidArgument) := by decide
        rw [hm] at this
        exact Option.some.inj this

/-- Witness of C17 (amended): the value 0 on a kernel that answers `EINVAL`. -/
theorem lagg_SetProto_any_value_witness :
    (lagg.SetProto freebsd64 (kernelWith (some EINVAL) (0, none)) (str "lagg0") 0).events
      = [.socket .inet none,
          .ioctl ⟨freebsd64.SIOCSLAGG, none, str "lagg0", [], toWord32 0⟩ (some EINVAL),
          .close .inet] :=
  (lagg_SetProto_any_value freebsd64 (kernelWith (some EINVAL) (0, none)) (str "lagg0") 0
    rfl (by decide) (by decide)).1

theorem newFlagsWord_testBit (old flag i : Nat) (hi : i < 32) :
    (newFlagsWord old flag true).testBit i = (old.testBit i || flag.testBit i) ∧
    (newFlagsWord old flag false).testBit i = (old.testBit i && !flag.testBit i) := by
  constructor
  · simp only [newFlagsWord, if_true]
    rw [Nat.testBit_or, testBit_mod32 _ _ hi, testBit_mod32 _ _ hi]
  · simp only [newFlagsWord, Bool.false_eq_true, if_false]
    rw [Nat.testBit_and, testBit_mod32 _ _ hi, testBit_compl32 _ _ hi]

theorem newFlagsWord_lt (old flag : Nat) (set : Bool) :
    newFlagsWord old flag set < 4294967296 := by
  have h32 : (4294967296 : Nat) = 2 ^ 32 := by norm_num
  have ho : old % 4294967296 < 2 ^ 32 := by omega
  have hf : flag % 4294967296 < 2 ^ 32 := by omega
  cases set
  · simp only [newFlagsWord, Bool.false_eq_true, if_false]
    have := Nat.and_le_left (n := old % 4294967296) (m := 4294967295 - flag % 4294967296)
    omega
  · simp only [newFlagsWord, if_true]
    have := Nat.or_lt_two_pow ho hf
    omega

/-- C18. With the control socket open and a non-empty name shorter than
`IFNAMSIZ`: when the get-flags ioctl fails, `SetFlags` issues no set-flags
ioctl and returns that error; when it succeeds and reports the word `old`,
`SetFlags` issues the set-flags ioctl with the 32-bit word `old | mask`
(`enable`) or `old & ^mask` (`!enable`) and returns its result. In that word
every bit of `mask` is set (respectively cleared) and every bit outside
`mask` is as in `old`. -/
theorem SetFlags_read_modify_write (k : Constants) (env : Kernel) (name : GoString)
    (mask : Nat) (enable : Bool)
    (hs : env.socket .inet = none) (h0 : name ≠ []) (hl : name.length < k.IFNAMSIZ) :
    (∀ e, env.ioctl ⟨k.SIOCGIFFLAGS, none, name, [], 0⟩ = some e →
      ifops.SetFlags k env name mask enable
        = ⟨[.socket .inet none, .ioctl ⟨k.SIOCGIFFLAGS, none, name, [], 0⟩ (some e),
            .close .inet], .ret (mapErrno e)⟩) ∧
    (env.ioctl ⟨k.SIOCGIFFLAGS, none, name, [], 0⟩ = none →
      ifops.SetFlags k env name mask enable
        = ⟨[.socket .inet none, .ioctl ⟨k.SIOCGIFFLAGS, none, name, [], 0⟩ none,
            .ioctl ⟨k.SIOCSIFFLAGS, none, name, [],
                newFlagsWord (env.reply ⟨k.SIOCGIFFLAGS, none, name, [], 0⟩).word mask enable⟩
              (env.ioctl ⟨k.SIOCSIFFLAGS, none, name, [],
                newFlagsWord (env.reply ⟨k.SIOCGIFFLAGS, none, name, [], 0⟩).word mask enable⟩),
            .close .inet],
          .ret (Ioctl (env.ioctl ⟨k.SIOCSIFFLAGS, none, name, [],
                newFlagsWord (env.reply ⟨k.SIOCGIFFLAGS, none, name, [], 0⟩).word
                  mask enable⟩))⟩) ∧
    (∀ old : Nat,
      newFlagsWord old mask true = old % 4294967296 ||| mask % 4294967296 ∧
      newFlagsWord old mask false
        = old % 4294967296 &&& (4294967295 - mask % 4294967296) ∧
      newFlagsWord old mask enable < 4294967296 ∧
      ∀ i, i < 32 →
        (mask.testBit i = true →
          (newFlagsWord old mask true).testBit i = true ∧
          (newFlagsWord old mask false).testBit i = false) ∧
        (mask.testBit i = false →
          (newFlagsWord old mask true).testBit i = old.testBit i ∧
          (newFlagsWord old mask false).testBit i = old.testBit i)) := by
  refine ⟨?_, ?_, ?_⟩
  · intro e he
    unfold ifops.SetFlags
    rw [withSocket_open _ _ _ _ hs, checkedName_ok _ _ _ _ h0 hl]
    simp only [he]
    rfl
  · intro he
    unfold ifops.SetFlags
    rw [withSocket_open _ _ _ _ hs, checkedName_ok _ _ _ _ h0 hl]
    simp only [he]
    rfl
  · intro old
    refine ⟨rfl, rfl, newFlagsWord_lt old mask enable, ?_⟩
    intro i hi
    obtain ⟨h1, h2⟩ := newFlagsWord_testBit old mask i hi
    constructor
    · intro hm
      rw [h1, h2, hm]
      simp
    · intro hm
      rw [h1, h2, hm]
      simp

/-- Witness of C18: bringing "em0" up on a kernel that reports the flags word
`0x8802` writes back `0x8803`. -/
theorem SetFlags_read_modify_write_witness :
    ifops.SetFlags freebsd64 (kernelReplying ⟨0x8802, [], 0, 0, []⟩) (str "em0") FlagUp true
      = ⟨[.socket .inet none, .ioctl ⟨freebsd64.SIOCGIFFLAGS, none, str "em0", [], 0⟩ none,
          .ioctl ⟨freebsd64.SIOCSIFFLAGS, none, str "em0", [], 0x8803⟩ none,
          .close .inet], .ret none⟩ :=
  (SetFlags_read_modify_write freebsd64 (kernelReplying ⟨0x8802, [], 0, 0, []⟩) (str "em0")
    FlagUp true rfl (by decide) (by decide)).2.1 rfl


/-! ## Decoding the member and port lists -/

theorem bridgeops_GetMembers_ok (k : Constants) (env : Kernel) (name : GoString)
    (hs : env.socket .inet = none) (h0 : name ≠ []) (hl : name.length < k.IFNAMSIZ)
    (hrec : 0 < k.sizeofIfbreq)
    (hi : env.ioctl ⟨k.SIOCGDRVSPEC, some k.BRDGGIFS, name, [], 0⟩ = none) :
    (bridgeops.GetMembers k env name).out
      = bridgeops.decodeMembers
          ((env.reply ⟨k.SIOCGDRVSPEC, some k.BRDGGIFS, name, [], 0⟩).len % 4294967296
            / k.sizeofIfbreq)
          (env.reply ⟨k.SIOCGDRVSPEC, some k.BRDGGIFS, name, [], 0⟩).records := by
  have hz : ¬ 32 * k.sizeofIfbreq = 0 := by omega
  unfold bridgeops.GetMembers
  rw [withSocket_open _ _ _ _ hs, if_neg hz, checkedName_ok _ _ _ _ h0 hl]
  simp [issue, hi]

theorem laggops_Get_ok (k : Constants) (env : Kernel) (name : GoString)
    (hs : env.socket .inet = none) (h0 : name ≠ []) (hl : name.length < k.IFNAMSIZ)
    (hi : env.ioctl ⟨k.SIOCGLAGG, none, name, [], 0⟩ = none) :
    (laggops.Get k env name).out
      = if (env.reply ⟨k.SIOCGLAGG, none, name, [], 0⟩).ports < 0 then .panic
        else .ret (⟨((env.reply ⟨k.SIOCGLAGG, none, name, [], 0⟩).word % 4294967296 : Nat),
          laggops.portNames (env.reply ⟨k.SIOCGLAGG, none, name, [], 0⟩).ports
            (env.reply ⟨k.SIOCGLAGG, none, name, [], 0⟩).records⟩, none) := by
  unfold laggops.Get
  rw [withSocket_open _ _ _ _ hs, checkedName_ok _ _ _ _ h0 hl]
  simp [issue, hi]

/-- C19 (counterexample). When the kernel reports 33 ports (`ra_ports = 33`),
`laggops.Get` returns 32 port names; and when it reports 2 ports of which the
first record holds an empty name, it returns 1 port name. -/
theorem laggops_Get_fewer_than_reported :
    (∃ cfg, (laggops.Get freebsd64
        (kernelReplying ⟨1, [], 0, 33, List.replicate 33 (str "em0")⟩) (str "lagg0")).out
          = .ret (cfg, none) ∧ cfg.Ports.length = 32) ∧
    (∃ cfg, (laggops.Get freebsd64
        (kernelReplying ⟨1, [], 0, 2, [[], str "em1"]⟩) (str "lagg0")).out
          = .ret (cfg, none) ∧ cfg.Ports = [str "em1"]) := by
  constructor
  · rw [laggops_Get_ok freebsd64 _ (str "lagg0") rfl (by decide) (by decide) rfl]
    exact ⟨_, rfl, by decide⟩
  · rw [laggops_Get_ok freebsd64 _ (str "lagg0") rfl (by decide) (by decide) rfl]
    exact ⟨_, rfl, by decide⟩

/-- C19 (amended). With the control socket open, a non-empty name shorter than
`IFNAMSIZ`, a positive member record size and a successful ioctl:
`bridgeops.GetMembers` returns, when the reported length divided by the record
size is `n ≤ 32`, exactly the names of the first `n` records in buffer order
(beyond 32 it indexes past its buffer and panics); `laggops.Get` returns, for
a non-negative `ra_ports`, the non-empty names among the first
`min(ra_ports, 32)` records in buffer order, which are exactly `ra_ports`
names when `ra_ports ≤ 32` and none of these records holds an empty name. -/
theorem get_returns_decoded_entries (k : Constants) (env : Kernel) (name : GoString)
    (hs : env.socket .inet = none) (h0 : name ≠ []) (hl : name.length < k.IFNAMSIZ)
    (hrec : 0 < k.sizeofIfbreq) :
    (env.ioctl ⟨k.SIOCGDRVSPEC, some k.BRDGGIFS, name, [], 0⟩ = none →
      ((env.reply ⟨k.SIOCGDRVSPEC, some k.BRDGGIFS, name, [], 0⟩).len % 4294967296
          / k.sizeofIfbreq ≤ 32 →
        ∃ names, (bridgeops.GetMembers k env name).out = .ret (names, none) ∧
          names.length = (env.reply ⟨k.SIOCGDRVSPEC, some k.BRDGGIFS, name, [], 0⟩).len
            % 4294967296 / k.sizeofIfbreq ∧
          ∀ i, i < names.length → names.getD i []
            = (env.reply ⟨k.SIOCGDRVSPEC, some k.BRDGGIFS, name, [], 0⟩).records.getD i []) ∧
      (32 < (env.reply ⟨k.SIOCGDRVSPEC, some k.BRDGGIFS, name, [], 0⟩).len % 4294967296
          / k.sizeofIfbreq →
        (bridgeops.GetMembers k env name).out = .panic)) ∧
    (env.ioctl ⟨k.SIOCGLAGG, none, name, [], 0⟩ = none →
      0 ≤ (env.reply ⟨k.SIOCGLAGG, none, name, [], 0⟩).ports →
      ∃ cfg, (laggops.Get k env name).out = .ret (cfg, none) ∧
        cfg.Ports
          = ((List.range (min (env.reply ⟨k.SIOCGLAGG, none, name, [], 0⟩).ports.toNat 32)).map
              fun i => (env.reply ⟨k.SIOCGLAGG, none, name, [], 0⟩).records.getD i []).filter
              (fun n => n ≠ []) ∧
        cfg.Ports.length ≤ min (env.reply ⟨k.SIOCGLAGG, none, name, [], 0⟩).ports.toNat 32 ∧
        ((env.reply ⟨k.SIOCGLAGG, none, name, [], 0⟩).ports ≤ 32 →
          (∀ i, i < (env.reply ⟨k.SIOCGLAGG, none, name, [], 0⟩).ports.toNat →
            (env.reply ⟨k.SIOCGLAGG, none, name, [], 0⟩).records.getD i [] ≠ []) →
          (cfg.Ports.length : Int) = (env.reply ⟨k.SIOCGLAGG, none, name, [], 0⟩).ports ∧
          ∀ i, i < cfg.Ports.length → cfg.Ports.getD i []
            = (env.reply ⟨k.SIOCGLAGG, none, name, [], 0⟩).records.getD i [])) := by
  constructor
  · intro hi
    have h := bridgeops_GetMembers_ok k env name hs h0 hl hrec hi
    constructor
    · intro hn
      have hn' : ¬ (env.reply ⟨k.SIOCGDRVSPEC, some k.BRDGGIFS, name, [], 0⟩).len % 4294967296
          / k.sizeofIfbreq > 32 := by omega
      refine ⟨_, by rw [h, bridgeops.decodeMembers, if_neg hn'], by simp, ?_⟩
      intro i hi'
      simp only [List.length_map, List.length_range] at hi'
      simp [List.getD_eq_getElem?_getD, hi']
    · intro hn
      rw [h, bridgeops.decodeMembers, if_pos hn]
  · intro hi hp
    have h := laggops_Get_ok k env name hs h0 hl hi
    have hp' : ¬ (env.reply ⟨k.SIOCGLAGG, none, name, [], 0⟩).ports < 0 := by omega
    rw [if_neg hp'] at h
    refine ⟨_, h, rfl, ?_, ?_⟩
    · refine (List.length_filter_le _ _).trans ?_
      simp
    · intro h32 hall
      have hmin : min (env.reply ⟨k.SIOCGLAGG, none, name, [], 0⟩).ports.toNat 32
          = (env.reply ⟨k.SIOCGLAGG, none, name, [], 0⟩).ports.toNat := by omega
      have hfilter : laggops.portNames (env.reply ⟨k.SIOCGLAGG, none, name, [], 0⟩).ports
            (env.reply ⟨k.SIOCGLAGG, none, name, [], 0⟩).records
          = (List.range (env.reply ⟨k.SIOCGLAGG, none, name, [], 0⟩).ports.toNat).map
              fun i => (env.reply ⟨k.SIOCGLAGG, none, name, [], 0⟩).records.getD i [] := by
        unfold laggops.portNames
        rw [hmin, List.filter_eq_self]
        intro a ha
        obtain ⟨i, hi', rfl⟩ := List.mem_map.mp ha
        have := hall i (List.mem_range.mp hi')
        simpa using this
      simp only [hfilter]
      constructor
      · simp only [List.length_map, List.length_range]
        omega
      · intro i hi'
        simp only [List.length_map, List.length_range] at hi'
        simp [List.getD_eq_getElem?_getD, hi']

/-- Witness of C19 (amended): a bridge reply of two records of 80 bytes. -/
theorem get_returns_decoded_entries_witness :
    ∃ names, (bridgeops.GetMembers freebsd64
        (kernelReplying ⟨0, [], 160, 0, [str "em0", str "em1"]⟩) (str "bridge0")).out
          = .ret (names, none) ∧ names.length = 2 :=
  let ⟨names, h1, h2, _⟩ :=
    ((get_returns_decoded_entries freebsd64
      (kernelReplying ⟨0, [], 160, 0, [str "em0", str "em1"]⟩) (str "bridge0")
      rfl (by decide) (by decide) (by decide)).1 rfl).1 (by decide)
  ⟨names, h1, h2⟩

end GoFreebsdIfc
